import Mathlib

/-!
# SDL tutorial programs: collision predicates and the single-slot channel

A shallow embedding of

* `src/28_Pixel_Collision/Pixel_Collision.cpp` (rectangle set against rectangle set, and
  the `Dot` that moves by it),
* `src/29_Circular_Collision/Circular_Collision.cpp` (circle against circle, circle
  against rectangle),
* `src/49_Mutexes_Conditions/Mutexes.cpp` (`produce`, `consume` and the two threads that
  call them) and `src/47_Semaphores/Semaphores.cpp` (`worker`), as step machines,

followed by the properties of them that the specification states.

## Modelling conventions

* The value of a C++ `int` is an `Int` in [-2^31, 2^31 - 1] (`inInt32`).  A function whose
  name ends in `32` takes every `int` operation modulo 2^32 (`wrapInt32`, the value a
  two's-complement machine leaves); the function of the same name without the suffix
  takes the operations exactly, and the two agree wherever no operation overflows
  (`checkCollision32_eq`, `checkCollisionRect32_eq`, `distanceSquared32_eq`).
  Statements that depend on the size of the arguments are made of the `32` functions, with
  the range in which they hold as a hypothesis.
* `std::vector<SDL_Rect>` is a `List SDL_Rect`; a loop
  `for( int i = 0; i < v.size(); i++ )` that reads `v[ i ]` is a structural recursion
  that visits the elements from the first to the last, and a `return` from inside the
  loop body ends the recursion.  (The counter is an `int` compared with the unsigned
  `size()`; for every length below 2^31 this is the comparison of the two numbers.)
  The same loops are also run with their counters, on the memory of the call, in
  `checkCollisionLoopA` and `checkCollisionLoopB`.
* `distanceSquared` is declared to return `double`, but the value it returns is computed
  in `int` and every `int` converts to `double` exactly, as does the `int` it is compared
  with; the returned value is therefore modelled by the integer itself.
* `/` and `%` of C++ truncate towards zero: `Int.tdiv` and `Int.tmod`.
-/

/-- The SDL rectangle: `x`, `y` of the top-left corner, width `w`, height `h`. -/
structure SDL_Rect where
  x : Int
  y : Int
  w : Int
  h : Int
deriving DecidableEq, Repr

/-! ## `Pixel_Collision.cpp` -/

namespace PixelCollision

/-- The test `( ( bottomA <= topB ) || ( topA >= bottomB ) || ( rightA <= leftB ) ||
( leftA >= rightB ) ) == false` of the inner loop body. -/
def noSideOutside (leftA rightA topA bottomA leftB rightB topB bottomB : Int) : Bool :=
  (decide (bottomA ≤ topB) || decide (topA ≥ bottomB) || decide (rightA ≤ leftB)
    || decide (leftA ≥ rightB)) == false

/-- The inner loop of `checkCollision`, `for( int Bbox = 0; Bbox < b.size(); Bbox++ )`,
for fixed sides of the current box of `a`.  The result `true` is the `return true` of the
loop body; `false` means that the loop ran to its end. -/
def checkCollisionB (leftA rightA topA bottomA : Int) : List SDL_Rect → Bool
  | [] => false
  | rb :: rest =>
    let leftB := rb.x
    let rightB := rb.x + rb.w
    let topB := rb.y
    let bottomB := rb.y + rb.h
    if noSideOutside leftA rightA topA bottomA leftB rightB topB bottomB then
      true
    else
      checkCollisionB leftA rightA topA bottomA rest

/-- The function `bool checkCollision( vector<SDL_Rect>& a, vector<SDL_Rect>& b )`: the
outer loop over the boxes of `a`, the inner loop over the boxes of `b`, and the final
`return false`. -/
def checkCollision : List SDL_Rect → List SDL_Rect → Bool
  | [], _ => false
  | ra :: rest, b =>
    let leftA := ra.x
    let rightA := ra.x + ra.w
    let topA := ra.y
    let bottomA := ra.y + ra.h
    if checkCollisionB leftA rightA topA bottomA b then
      true
    else
      checkCollision rest b

end PixelCollision

/-! ## `Circular_Collision.cpp` -/

namespace CircularCollision

/-- The circle structure `struct Circle`: centre `x`, `y` and radius `r`. -/
structure Circle where
  x : Int
  y : Int
  r : Int
deriving DecidableEq, Repr

/-- The function `double distanceSquared( int x1, int y1, int x2, int y2 )`. -/
def distanceSquared (x1 y1 x2 y2 : Int) : Int :=
  let deltaX := x2 - x1
  let deltaY := y2 - y1
  deltaX * deltaX + deltaY * deltaY

/-- The overload `bool checkCollision( Circle& a, Circle& b )`. -/
def checkCollision (a b : Circle) : Bool :=
  let totalRadiusSquared := a.r + b.r
  let totalRadiusSquared := totalRadiusSquared * totalRadiusSquared
  if distanceSquared a.x a.y b.x b.y < totalRadiusSquared then
    true
  else
    false

/-- The first if/else-if chain of `checkCollision( Circle& a, SDL_Rect& b )`: the value
of `cX` after "Find closest x offset". -/
def closestX (a : Circle) (b : SDL_Rect) : Int :=
  if a.x < b.x then
    b.x
  else if a.x > b.x + b.w then
    b.x + b.w
  else
    a.x

/-- The second if/else-if chain of `checkCollision( Circle& a, SDL_Rect& b )`: the value
of `cY` after "Find closest y offset". -/
def closestY (a : Circle) (b : SDL_Rect) : Int :=
  if a.y < b.y then
    b.y
  else if a.y > b.y + b.h then
    b.y + b.h
  else
    a.y

/-- The overload `bool checkCollision( Circle& a, SDL_Rect& b )`; Lean has no overloading
inside one namespace, hence the suffix. -/
def checkCollisionRect (a : Circle) (b : SDL_Rect) : Bool :=
  let cX := closestX a b
  let cY := closestY a b
  if distanceSquared a.x a.y cX cY < a.r * a.r then
    true
  else
    false

/-- The specification's clamp of `v` to the interval `[lo, hi]` (meaningful for
`lo ≤ hi`); this one follows the specification's words, not the source. -/
def clampSpec (v lo hi : Int) : Int :=
  max lo (min v hi)

end CircularCollision

/-! ## `Circular_Collision.cpp` with 32-bit wrap-around arithmetic -/

namespace CircularCollision

/-- The value a 32-bit two's-complement `int` holds when the exact result of an operation
is `z`: the representative of `z` modulo 2^32 in [-2^31, 2^31 - 1]. -/
def wrapInt32 (z : Int) : Int :=
  (z + 2147483648) % 4294967296 - 2147483648

/-- The function `distanceSquared` with every `int` operation taken modulo 2^32. -/
def distanceSquared32 (x1 y1 x2 y2 : Int) : Int :=
  let deltaX := wrapInt32 (x2 - x1)
  let deltaY := wrapInt32 (y2 - y1)
  wrapInt32 (wrapInt32 (deltaX * deltaX) + wrapInt32 (deltaY * deltaY))

/-- The overload `checkCollision( Circle& a, Circle& b )` with every `int` operation taken
modulo 2^32. -/
def checkCollision32 (a b : Circle) : Bool :=
  let totalRadiusSquared := wrapInt32 (a.r + b.r)
  let totalRadiusSquared := wrapInt32 (totalRadiusSquared * totalRadiusSquared)
  if distanceSquared32 a.x a.y b.x b.y < totalRadiusSquared then
    true
  else
    false

/-- The chain for `cX` with the sum `b.x + b.w` taken modulo 2^32. -/
def closestX32 (a : Circle) (b : SDL_Rect) : Int :=
  if a.x < b.x then
    b.x
  else if a.x > wrapInt32 (b.x + b.w) then
    wrapInt32 (b.x + b.w)
  else
    a.x

/-- The chain for `cY` with the sum `b.y + b.h` taken modulo 2^32. -/
def closestY32 (a : Circle) (b : SDL_Rect) : Int :=
  if a.y < b.y then
    b.y
  else if a.y > wrapInt32 (b.y + b.h) then
    wrapInt32 (b.y + b.h)
  else
    a.y

/-- The overload `checkCollision( Circle& a, SDL_Rect& b )` with every `int` operation
taken modulo 2^32. -/
def checkCollisionRect32 (a : Circle) (b : SDL_Rect) : Bool :=
  let cX := closestX32 a b
  let cY := closestY32 a b
  if distanceSquared32 a.x a.y cX cY < wrapInt32 (a.r * a.r) then
    true
  else
    false

/-- The range of a 32-bit signed `int`, [-2^31, 2^31 - 1]. -/
def inInt32 (z : Int) : Prop :=
  -2147483648 ≤ z ∧ z ≤ 2147483647

/-- A circle with screen-space values: x in [0, 640], y in [0, 480], radius in [0, 640]. -/
def screenCircle (c : Circle) : Prop :=
  (0 ≤ c.x ∧ c.x ≤ 640) ∧ (0 ≤ c.y ∧ c.y ≤ 480) ∧ (0 ≤ c.r ∧ c.r ≤ 640)

/-- A rectangle with screen-space values: x in [0, 640], y in [0, 480], width and height
in [0, 640]. -/
def screenRect (r : SDL_Rect) : Prop :=
  (0 ≤ r.x ∧ r.x ≤ 640) ∧ (0 ≤ r.y ∧ r.y ≤ 480) ∧ (0 ≤ r.w ∧ r.w ≤ 640) ∧
    (0 ≤ r.h ∧ r.h ≤ 640)

end CircularCollision

/-! ## `Pixel_Collision.cpp`: the constants and the members of the `Dot` -/

namespace PixelCollision

/-- Screen width, `const int SCREEN_WIDTH = 640`. -/
def SCREEN_WIDTH : Int := 640

/-- Screen height, `const int SCREEN_HEIGHT = 480`. -/
def SCREEN_HEIGHT : Int := 480

/-- Dot width, `static const int DOT_WIDTH = 20`. -/
def DOT_WIDTH : Int := 20

/-- Dot height, `static const int DOT_HEIGHT = 20`. -/
def DOT_HEIGHT : Int := 20

/-- The data members of `class Dot`. -/
structure Dot where
  mPosX : Int
  mPosY : Int
  mVelX : Int
  mVelY : Int
  mColliders : List SDL_Rect
deriving DecidableEq, Repr

/-- The box `SDL_Rect()` with which `mColliders.resize( 11 )` fills the vector. -/
def zeroRect : SDL_Rect := ⟨0, 0, 0, 0⟩

end PixelCollision

/-! ## `Mutexes.cpp` and `Semaphores.cpp`: the threads as step machines

A thread is a program counter and a loop counter; a step of the machine is one thread
executing its next statement, so a run is an interleaving of the threads.  A blocking call
is a step that is enabled only when it can return: `SDL_LockMutex` when the mutex is free,
`SDL_SemWait` when the semaphore is positive, and `SDL_CondWait` (which releases the mutex
with the thread already waiting) only after a signal on its condition, followed by the
re-lock of the mutex.  `SDL_CondSignal` wakes the thread waiting on the condition, and has
no effect when none is waiting.  There are no spurious wakeups.  `SDL_Delay` changes no
state.  Every step appends what it does to the lock and to `gData` to a log.
-/

namespace Sync

/-- What a statement does to the lock or to the shared `gData`. -/
inductive Op
  | acquire
  | release
  | read
  | write
deriving DecidableEq, Repr

/-- One scan step of the lock discipline of thread `t`: `some held` while no violation has
been seen, `held` telling whether `t` holds the lock; `none` after a read or write of
`gData` without the lock, an acquire while holding it, or a release without holding it. -/
def disciplineStep {T : Type} [DecidableEq T] (t : T) : Option Bool → T × Op → Option Bool
  | none, _ => none
  | some held, (u, op) =>
    if u = t then
      match op with
      | Op.acquire => if held then none else some true
      | Op.release => if held then some false else none
      | Op.read => if held then some true else none
      | Op.write => if held then some true else none
    else
      some held

/-- The scan of a whole log for thread `t`, from "not holding". -/
def discipline {T : Type} [DecidableEq T] (t : T) (log : List (T × Op)) : Option Bool :=
  log.foldl (disciplineStep t) (some false)

end Sync

namespace Mutexes

/-- The two threads started by `main`. -/
inductive Tid
  | producer
  | consumer
deriving DecidableEq, Repr

/-- The statement of `produce()` or `consume()` a thread executes next. -/
inductive PC
  /-- At the top of the loop body of `producer` or `consumer`, about to call
  `SDL_LockMutex( gBufferLock )`; past the loop when the counter has reached its bound. -/
  | lock
  /-- Holding the mutex, about to evaluate the `if` on `gData`. -/
  | test
  /-- Holding the mutex, about to call `SDL_CondWait`. -/
  | condWait
  /-- Inside `SDL_CondWait`: the mutex released, blocked until the condition is signalled. -/
  | waiting
  /-- Inside `SDL_CondWait`: signalled, about to re-lock the mutex and return. -/
  | woken
  /-- Holding the mutex, about to fill and show, or show and empty, the buffer. -/
  | access
  /-- About to call `SDL_UnlockMutex( gBufferLock )`. -/
  | unlock
  /-- About to call `SDL_CondSignal` on the condition of the other thread. -/
  | signal
deriving DecidableEq, Repr

/-- A thread: its next statement and the loop counter `i` of `producer` or `consumer`. -/
structure Thread where
  pc : PC
  i : Nat
deriving DecidableEq, Repr

/-- The shared state and the two threads.  `owner` is the holder of `gBufferLock`;
`produced` lists the values `produce()` has written and `consumed` the values `consume()`
has shown, in order; `log` is the log of lock operations and `gData` accesses. -/
structure State where
  gData : Int
  owner : Option Tid
  producer : Thread
  consumer : Thread
  produced : List Int
  consumed : List Int
  log : List (Tid × Sync.Op)
deriving DecidableEq, Repr

/-- The number of calls each thread makes, `for( int i = 0; i < 5; ++i )`. -/
def CALLS : Nat := 5

/-- The state when the threads are created: `int gData = -1`, the mutex free, both
threads at the top of their loops. -/
def init : State :=
  { gData := -1, owner := none, producer := ⟨PC.lock, 0⟩, consumer := ⟨PC.lock, 0⟩,
    produced := [], consumed := [], log := [] }

/-- One step of the producer thread; `none` when its next statement cannot run.  `N` is the
bound of its loop and `rnd k` the result of `rand()` in its call number `k`. -/
def stepProducer (N : Nat) (rnd : Nat → Int) (s : State) : Option State :=
  match s.producer.pc with
  | PC.lock =>
    if s.producer.i < N ∧ s.owner = none then
      some { s with owner := some Tid.producer, producer := { s.producer with pc := PC.test },
                    log := s.log ++ [(Tid.producer, Sync.Op.acquire)] }
    else
      none
  | PC.test =>
    some { s with
      producer := { s.producer with pc := if s.gData ≠ -1 then PC.condWait else PC.access },
      log := s.log ++ [(Tid.producer, Sync.Op.read)] }
  | PC.condWait =>
    some { s with owner := none, producer := { s.producer with pc := PC.waiting },
                  log := s.log ++ [(Tid.producer, Sync.Op.release)] }
  | PC.waiting => none
  | PC.woken =>
    if s.owner = none then
      some { s with owner := some Tid.producer,
                    producer := { s.producer with pc := PC.access },
                    log := s.log ++ [(Tid.producer, Sync.Op.acquire)] }
    else
      none
  | PC.access =>
    let v := Int.tmod (rnd s.producer.i) 255
    some { s with gData := v, produced := s.produced ++ [v],
                  producer := { s.producer with pc := PC.unlock },
                  log := s.log ++ [(Tid.producer, Sync.Op.write), (Tid.producer, Sync.Op.read)] }
  | PC.unlock =>
    some { s with owner := none, producer := { s.producer with pc := PC.signal },
                  log := s.log ++ [(Tid.producer, Sync.Op.release)] }
  | PC.signal =>
    some { s with
      consumer := if s.consumer.pc = PC.waiting then { s.consumer with pc := PC.woken }
                  else s.consumer,
      producer := { pc := PC.lock, i := s.producer.i + 1 } }

/-- One step of the consumer thread; `none` when its next statement cannot run. -/
def stepConsumer (N : Nat) (s : State) : Option State :=
  match s.consumer.pc with
  | PC.lock =>
    if s.consumer.i < N ∧ s.owner = none then
      some { s with owner := some Tid.consumer, consumer := { s.consumer with pc := PC.test },
                    log := s.log ++ [(Tid.consumer, Sync.Op.acquire)] }
    else
      none
  | PC.test =>
    some { s with
      consumer := { s.consumer with pc := if s.gData = -1 then PC.condWait else PC.access },
      log := s.log ++ [(Tid.consumer, Sync.Op.read)] }
  | PC.condWait =>
    some { s with owner := none, consumer := { s.consumer with pc := PC.waiting },
                  log := s.log ++ [(Tid.consumer, Sync.Op.release)] }
  | PC.waiting => none
  | PC.woken =>
    if s.owner = none then
      some { s with owner := some Tid.consumer,
                    consumer := { s.consumer with pc := PC.access },
                    log := s.log ++ [(Tid.consumer, Sync.Op.acquire)] }
    else
      none
  | PC.access =>
    some { s with gData := -1, consumed := s.consumed ++ [s.gData],
                  consumer := { s.consumer with pc := PC.unlock },
                  log := s.log ++ [(Tid.consumer, Sync.Op.read), (Tid.consumer, Sync.Op.write)] }
  | PC.unlock =>
    some { s with owner := none, consumer := { s.consumer with pc := PC.signal },
                  log := s.log ++ [(Tid.consumer, Sync.Op.release)] }
  | PC.signal =>
    some { s with
      producer := if s.producer.pc = PC.waiting then { s.producer with pc := PC.woken }
                  else s.producer,
      consumer := { pc := PC.lock, i := s.consumer.i + 1 } }

/-- One step of the machine: thread `t` executes its next statement. -/
def step (N : Nat) (rnd : Nat → Int) (s : State) (t : Tid) : Option State :=
  match t with
  | Tid.producer => stepProducer N rnd s
  | Tid.consumer => stepConsumer N s

/-- The state after the interleaving `sched`, which names the thread of each step in
turn; `none` when a named thread cannot take its step. -/
def run (N : Nat) (rnd : Nat → Int) : State → List Tid → Option State
  | s, [] => some s
  | s, t :: rest =>
    match step N rnd s t with
    | none => none
    | some s1 => run N rnd s1 rest

/-- The states some interleaving reaches from `init`. -/
def Reachable (N : Nat) (rnd : Nat → Int) (s : State) : Prop :=
  ∃ sched : List Tid, run N rnd init sched = some s

/-- The statements at which a thread holds the mutex. -/
def PC.holding : PC → Bool
  | PC.test => true
  | PC.condWait => true
  | PC.access => true
  | PC.unlock => true
  | _ => false

/-- The thread record of `t`. -/
def State.thread (s : State) : Tid → Thread
  | Tid.producer => s.producer
  | Tid.consumer => s.consumer

/-- A thread has left its loop: at the top of the loop with the counter at the bound. -/
def Thread.finished (N : Nat) (th : Thread) : Bool :=
  th.pc = PC.lock && th.i = N

end Mutexes

namespace Mutexes

/-- A round of the sequential use of the channel: the five statements of one call of
`produce()` run by the producer, then the five statements of one call of `consume()`
run by the consumer. -/
def roundSchedule : List Tid :=
  List.replicate 5 Tid.producer ++ List.replicate 5 Tid.consumer

/-- The interleaving that alternates `k` calls of `produce()` with `k` calls of
`consume()`, each call run from its first statement to its last before the next starts. -/
def alternating : Nat → List Tid
  | 0 => []
  | k + 1 => alternating k ++ roundSchedule

/-- The values `produce()` writes in its first `k` calls, `rand() % 255` with the
remainder of C++. -/
def producedValues (rnd : Nat → Int) (k : Nat) : List Int :=
  (List.range k).map fun j => Int.tmod (rnd j) 255

/-- Results of `rand()` used in the example runs: 7, 8, 9, .. -/
def rndExample : Nat → Int :=
  fun k => 7 + k

/-- An interleaving in which the producer is delayed between `SDL_UnlockMutex` and
`SDL_CondSignal( gCanConsume )` of its first call: the consumer meanwhile consumes the
value, calls `consume()` again and waits on the empty buffer; the late signal then ends
that wait, and the consumer re-locks the mutex. -/
def lateSignalToConsumer : List Tid :=
  List.replicate 4 Tid.producer ++ List.replicate 5 Tid.consumer
    ++ List.replicate 3 Tid.consumer ++ [Tid.producer] ++ [Tid.consumer]

/-- The interleaving `lateSignalToConsumer` continued to the end of two calls of each
thread: the consumer finishes its second call, then the producer makes its second. -/
def lateSignalTwoCalls : List Tid :=
  lateSignalToConsumer ++ List.replicate 3 Tid.consumer ++ List.replicate 5 Tid.producer

/-- An interleaving in which the consumer is delayed between `SDL_UnlockMutex` and
`SDL_CondSignal( gCanProduce )` of its first call: the producer meanwhile fills the buffer
again, calls `produce()` a third time and waits on the full buffer; the late signal then
ends that wait, and the producer re-locks the mutex. -/
def lateSignalToProducer : List Tid :=
  List.replicate 5 Tid.producer ++ List.replicate 4 Tid.consumer
    ++ List.replicate 5 Tid.producer ++ List.replicate 3 Tid.producer ++ [Tid.consumer]
    ++ [Tid.producer]

/-- The interleaving `lateSignalToProducer` continued until no thread can take a step:
the producer finishes its third call, then the calls alternate. -/
def lateSignalToTheEnd : List Tid :=
  lateSignalToProducer ++ List.replicate 3 Tid.producer
    ++ List.replicate 5 Tid.consumer ++ List.replicate 5 Tid.producer
    ++ List.replicate 5 Tid.consumer ++ List.replicate 5 Tid.producer
    ++ List.replicate 5 Tid.consumer ++ List.replicate 3 Tid.consumer

end Mutexes

namespace Semaphores

/-- The two worker threads started by `main`, "Thread A" and "Thread B". -/
inductive Tid
  | threadA
  | threadB
deriving DecidableEq, Repr

/-- The statement of the loop body of `worker` a thread executes next. -/
inductive PC
  /-- About to call `SDL_SemWait( gDataLock )` (after the `SDL_Delay`); past the loop when
  the counter has reached its bound. -/
  | semWait
  /-- About to print the pre work data, which reads `gData`. -/
  | showPre
  /-- About to execute `gData = rand() % 256`. -/
  | work
  /-- About to print the post work data, which reads `gData`. -/
  | showPost
  /-- About to call `SDL_SemPost( gDataLock )`. -/
  | semPost
deriving DecidableEq, Repr

/-- A worker: its next statement and its loop counter `i`. -/
structure Thread where
  pc : PC
  i : Nat
deriving DecidableEq, Repr

/-- The shared state and the two workers: `sem` is the value of the semaphore
`gDataLock`, `log` the log of semaphore operations and `gData` accesses. -/
structure State where
  gData : Int
  sem : Nat
  threadA : Thread
  threadB : Thread
  log : List (Tid × Sync.Op)
deriving DecidableEq, Repr

/-- The state when the workers are created: `int gData = -1`,
`SDL_CreateSemaphore( 1 )`. -/
def init : State :=
  { gData := -1, sem := 1, threadA := ⟨PC.semWait, 0⟩, threadB := ⟨PC.semWait, 0⟩, log := [] }

/-- The thread record of `t`. -/
def State.thread (s : State) : Tid → Thread
  | Tid.threadA => s.threadA
  | Tid.threadB => s.threadB

/-- The state with the thread record of `t` replaced. -/
def State.setThread (s : State) (t : Tid) (th : Thread) : State :=
  match t with
  | Tid.threadA => { s with threadA := th }
  | Tid.threadB => { s with threadB := th }

/-- One step of the machine: worker `t` executes its next statement; `none` when it
cannot run.  `N` is the bound of the loop (5 in the source) and `rnd t k` the result of
`rand()` in iteration `k` of worker `t`. -/
def step (N : Nat) (rnd : Tid → Nat → Int) (s : State) (t : Tid) : Option State :=
  let th := s.thread t
  match th.pc with
  | PC.semWait =>
    if th.i < N ∧ 0 < s.sem then
      some (State.setThread { s with sem := s.sem - 1, log := s.log ++ [(t, Sync.Op.acquire)] }
        t { th with pc := PC.showPre })
    else
      none
  | PC.showPre =>
    some (State.setThread { s with log := s.log ++ [(t, Sync.Op.read)] }
      t { th with pc := PC.work })
  | PC.work =>
    some (State.setThread
      { s with gData := Int.tmod (rnd t th.i) 256, log := s.log ++ [(t, Sync.Op.write)] }
      t { th with pc := PC.showPost })
  | PC.showPost =>
    some (State.setThread { s with log := s.log ++ [(t, Sync.Op.read)] }
      t { th with pc := PC.semPost })
  | PC.semPost =>
    some (State.setThread { s with sem := s.sem + 1, log := s.log ++ [(t, Sync.Op.release)] }
      t { pc := PC.semWait, i := th.i + 1 })

/-- The state after the interleaving `sched`; `none` when a named worker cannot take its
step. -/
def run (N : Nat) (rnd : Tid → Nat → Int) : State → List Tid → Option State
  | s, [] => some s
  | s, t :: rest =>
    match step N rnd s t with
    | none => none
    | some s1 => run N rnd s1 rest

/-- The states some interleaving reaches from `init`. -/
def Reachable (N : Nat) (rnd : Tid → Nat → Int) (s : State) : Prop :=
  ∃ sched : List Tid, run N rnd init sched = some s

/-- The statements at which a worker holds the semaphore. -/
def PC.holding : PC → Bool
  | PC.semWait => false
  | _ => true

end Semaphores

namespace Mutexes

/-- The invariant of the machine: a thread owns the mutex exactly at the statements
between an acquire and the next release, and the scan of the log for each thread has
found no violation and agrees with that. -/
structure Inv (s : State) : Prop where
  ownP : s.owner = some Tid.producer ↔ s.producer.pc.holding = true
  ownC : s.owner = some Tid.consumer ↔ s.consumer.pc.holding = true
  logP : Sync.discipline Tid.producer s.log = some s.producer.pc.holding
  logC : Sync.discipline Tid.consumer s.log = some s.consumer.pc.holding

end Mutexes

namespace Semaphores

/-- The invariant of the machine: the semaphore value and the number of workers between
`SDL_SemWait` and `SDL_SemPost` add up to 1, and the scan of the log for each worker has
found no violation and agrees with its position. -/
structure Inv (s : State) : Prop where
  count : s.sem + (if s.threadA.pc.holding then 1 else 0)
    + (if s.threadB.pc.holding then 1 else 0) = 1
  logA : Sync.discipline Tid.threadA s.log = some s.threadA.pc.holding
  logB : Sync.discipline Tid.threadB s.log = some s.threadB.pc.holding

end Semaphores

/-! ## `Circular_Collision.cpp`'s `Dot`, and key events -/

namespace CircularCollision

/-- Screen width, `const int SCREEN_WIDTH = 640`. -/
def SCREEN_WIDTH : Int := 640

/-- Screen height, `const int SCREEN_HEIGHT = 480`. -/
def SCREEN_HEIGHT : Int := 480

/-- Dot width, `static const int DOT_WIDTH = 20`. -/
def DOT_WIDTH : Int := 20

/-- The data members of `class Dot` of `Circular_Collision.cpp`. -/
structure Dot where
  mPosX : Int
  mPosY : Int
  mVelX : Int
  mVelY : Int
  mCollider : Circle
deriving DecidableEq, Repr

/-- The method `void Dot::shiftColliders()`: align the collider to the centre of the
dot. -/
def Dot.shiftColliders (d : Dot) : Dot :=
  { d with mCollider := { d.mCollider with x := d.mPosX, y := d.mPosY } }

/-- The constructor `Dot::Dot( int x, int y )`: radius `DOT_WIDTH / 2`, velocity zero, then
`shiftColliders()`, which gives the centre (left unset until then) its value. -/
def Dot.new (x y : Int) : Dot :=
  Dot.shiftColliders
    { mPosX := x, mPosY := y, mVelX := 0, mVelY := 0,
      mCollider := { x := 0, y := 0, r := Int.tdiv DOT_WIDTH 2 } }

end CircularCollision

namespace DotInput

/-- What `Dot::handleEvent` reads of `e.type`: key pressed, key released, anything
else. -/
inductive EventType
  | SDL_KEYDOWN
  | SDL_KEYUP
  | other
deriving DecidableEq, Repr

/-- What `Dot::handleEvent` reads of `e.key.keysym.sym`: the four arrow keys, or any
other key. -/
inductive Keycode
  | SDLK_UP
  | SDLK_DOWN
  | SDLK_LEFT
  | SDLK_RIGHT
  | other
deriving DecidableEq, Repr

/-- The fields of `SDL_Event` that `Dot::handleEvent` reads: `e.type`, `e.key.repeat` and
`e.key.keysym.sym`. -/
structure Event where
  type : EventType
  keyRepeat : Nat
  sym : Keycode
deriving DecidableEq, Repr

/-- The body of `void Dot::handleEvent( SDL_Event& e )`, the same text in
`Pixel_Collision.cpp`, `Circular_Collision.cpp` and `Particle.cpp`, as a function of the
velocity (mVelX, mVelY); the constant `DOT_VEL` of the program is a parameter. -/
def handleEvent (DOT_VEL : Int) (mVelX mVelY : Int) (e : Event) : Int × Int :=
  if e.type = EventType.SDL_KEYDOWN ∧ e.keyRepeat = 0 then
    match e.sym with
    | Keycode.SDLK_UP => (mVelX, mVelY - DOT_VEL)
    | Keycode.SDLK_DOWN => (mVelX, mVelY + DOT_VEL)
    | Keycode.SDLK_LEFT => (mVelX - DOT_VEL, mVelY)
    | Keycode.SDLK_RIGHT => (mVelX + DOT_VEL, mVelY)
    | Keycode.other => (mVelX, mVelY)
  else if e.type = EventType.SDL_KEYUP ∧ e.keyRepeat = 0 then
    match e.sym with
    | Keycode.SDLK_UP => (mVelX, mVelY + DOT_VEL)
    | Keycode.SDLK_DOWN => (mVelX, mVelY - DOT_VEL)
    | Keycode.SDLK_LEFT => (mVelX + DOT_VEL, mVelY)
    | Keycode.SDLK_RIGHT => (mVelX - DOT_VEL, mVelY)
    | Keycode.other => (mVelX, mVelY)
  else
    (mVelX, mVelY)

end DotInput

namespace PixelCollision

/-- Maximum axis velocity, `static const int DOT_VEL = 1`. -/
def DOT_VEL : Int := 1

/-- The method `void Dot::handleEvent( SDL_Event& e )` of `Pixel_Collision.cpp`. -/
def Dot.handleEvent (d : Dot) (e : DotInput.Event) : Dot :=
  { d with mVelX := (DotInput.handleEvent DOT_VEL d.mVelX d.mVelY e).1,
           mVelY := (DotInput.handleEvent DOT_VEL d.mVelX d.mVelY e).2 }

end PixelCollision

namespace CircularCollision

/-- Maximum axis velocity, `static const int DOT_VEL = 1`. -/
def DOT_VEL : Int := 1

/-- The method `void Dot::handleEvent( SDL_Event& e )` of `Circular_Collision.cpp`. -/
def Dot.handleEvent (d : Dot) (e : DotInput.Event) : Dot :=
  { d with mVelX := (DotInput.handleEvent DOT_VEL d.mVelX d.mVelY e).1,
           mVelY := (DotInput.handleEvent DOT_VEL d.mVelX d.mVelY e).2 }

end CircularCollision

/-! ## `Streaming.cpp`, `Joystick.cpp` and `Particle.cpp` -/

namespace Streaming

/-- The counters of `class DataStream`; the four surfaces `mImages[ 4 ]` are left out, a
call of `getBuffer` yields the index at which it reads that array. -/
structure DataStream where
  mCurrentImage : Int
  mDelayFrames : Int
deriving DecidableEq, Repr

/-- The constructor `DataStream::DataStream()`: `mCurrentImage = 0`, `mDelayFrames = 4`. -/
def DataStream.new : DataStream :=
  { mCurrentImage := 0, mDelayFrames := 4 }

/-- The method `void* DataStream::getBuffer()`: the stream after the call, and the index
`mCurrentImage` of the image whose pixels it returns. -/
def DataStream.getBuffer (d : DataStream) : DataStream × Int :=
  let d1 := { d with mDelayFrames := d.mDelayFrames - 1 }
  let d2 :=
    if d1.mDelayFrames = 0 then
      { mCurrentImage := d1.mCurrentImage + 1, mDelayFrames := 4 }
    else
      d1
  let d3 :=
    if d2.mCurrentImage = 4 then
      { d2 with mCurrentImage := 0 }
    else
      d2
  (d3, d3.mCurrentImage)

/-- The stream after `n` calls of `getBuffer` on the constructed stream. -/
def DataStream.afterCalls : Nat → DataStream
  | 0 => DataStream.new
  | n + 1 => (DataStream.getBuffer (DataStream.afterCalls n)).1

/-- The null pointer, `NULL`. -/
def NULL : Nat := 0

/-- The members `void* mPixels` and `int mPitch` of `class LTexture` (the same class in
`Streaming.cpp` and `Mutexes.cpp`); a pointer is its address, 0 for `NULL`. -/
structure LTexture where
  mPixels : Nat
  mPitch : Int
deriving DecidableEq, Repr

/-- What a call `SDL_LockTexture( mTexture, NULL, &mPixels, &mPitch )` does: the value it
returns and the values it leaves in `mPixels` and `mPitch`. -/
structure LockResult where
  ret : Int
  pixels : Nat
  pitch : Int
deriving DecidableEq, Repr

/-- The method `bool LTexture::lockTexture()`: the value returned and the texture after
the call; `sdl` tells what `SDL_LockTexture` does if it is called. -/
def LTexture.lockTexture (t : LTexture) (sdl : LockResult) : Bool × LTexture :=
  if t.mPixels ≠ NULL then
    (false, t)
  else
    let t1 : LTexture := { mPixels := sdl.pixels, mPitch := sdl.pitch }
    if sdl.ret ≠ 0 then
      (false, t1)
    else
      (true, t1)

/-- The method `bool LTexture::unlockTexture()`: the value returned and the texture after
the call. -/
def LTexture.unlockTexture (t : LTexture) : Bool × LTexture :=
  if t.mPixels = NULL then
    (false, t)
  else
    (true, { mPixels := NULL, mPitch := 0 })

end Streaming

namespace Joystick

/-- Analog joystick dead zone, `const int JOYSTICK_DEAD_ZONE = 8000`. -/
def JOYSTICK_DEAD_ZONE : Int := 8000

/-- The events the inner loop of `main` tells apart: `SDL_QUIT`, `SDL_JOYAXISMOTION` with
the fields `e.jaxis.which`, `e.jaxis.axis` and `e.jaxis.value`, and all others. -/
inductive Event
  | SDL_QUIT
  | SDL_JOYAXISMOTION (which : Int) (axis : Int) (value : Int)
  | other
deriving DecidableEq, Repr

/-- The variables of `main` that the event loop assigns. -/
structure Input where
  quit : Bool
  xDir : Int
  yDir : Int
deriving DecidableEq, Repr

/-- The body of `while( SDL_PollEvent( &e ) != 0 )` in `main`, for one event. -/
def handleEvent (s : Input) (e : Event) : Input :=
  match e with
  | Event.SDL_QUIT => { s with quit := true }
  | Event.SDL_JOYAXISMOTION which axis value =>
    if which = 0 then
      if axis = 0 then
        if value < -JOYSTICK_DEAD_ZONE then
          { s with xDir := -1 }
        else if value > JOYSTICK_DEAD_ZONE then
          { s with xDir := 1 }
        else
          { s with xDir := 0 }
      else if axis = 1 then
        if value < -JOYSTICK_DEAD_ZONE then
          { s with yDir := -1 }
        else if value > JOYSTICK_DEAD_ZONE then
          { s with yDir := 1 }
        else
          { s with yDir := 0 }
      else
        s
    else
      s
  | Event.other => s

end Joystick

namespace ParticleEngine

open CircularCollision (wrapInt32 inInt32)

/-- Particle count, `const int TOTAL_PARTICLES = 20`. -/
def TOTAL_PARTICLES : Nat := 20

/-- Maximum axis velocity, `static const int DOT_VEL = 10`. -/
def DOT_VEL : Int := 10

/-- The three textures a particle can point to: `gRedTexture`, `gGreenTexture`,
`gBlueTexture`. -/
inductive Texture
  | gRedTexture
  | gGreenTexture
  | gBlueTexture
deriving DecidableEq, Repr

/-- The data members of `class Particle`; `mTexture` is `none` when no case of the
`switch` of the constructor assigned it. -/
structure Particle where
  mPosX : Int
  mPosY : Int
  mFrame : Int
  mTexture : Option Texture
deriving DecidableEq, Repr

/-- The constructor `Particle::Particle( int x, int y )`.  It calls `rand()` four times;
`rnd` is the sequence of all `rand()` results and `k` the number of calls made before, and
the function returns the particle with the number of calls made after.  The difference
`x - 5` and the sum with `rand() % 25` are 32-bit `int` operations. -/
def Particle.new (x y : Int) (rnd : Nat → Int) (k : Nat) : Particle × Nat :=
  let mPosX := wrapInt32 (wrapInt32 (x - 5) + Int.tmod (rnd k) 25)
  let mPosY := wrapInt32 (wrapInt32 (y - 5) + Int.tmod (rnd (k + 1)) 25)
  let mFrame := Int.tmod (rnd (k + 2)) 5
  let mTexture :=
    match Int.tmod (rnd (k + 3)) 3 with
    | 0 => some Texture.gRedTexture
    | 1 => some Texture.gGreenTexture
    | 2 => some Texture.gBlueTexture
    | _ => none
  ({ mPosX := mPosX, mPosY := mPosY, mFrame := mFrame, mTexture := mTexture }, k + 4)

/-- The data members of `class Dot` of `Particle.cpp`; the array
`Particle* particles[ TOTAL_PARTICLES ]` is the list of the particles it points to. -/
structure Dot where
  particles : List Particle
  mPosX : Int
  mPosY : Int
  mVelX : Int
  mVelY : Int
deriving DecidableEq, Repr

/-- The loop `for( int i = 0; i < TOTAL_PARTICLES; ++i ) particles[ i ] = new Particle( .. )`
of the constructor, with `n` iterations left. -/
def newParticles (x y : Int) (rnd : Nat → Int) : Nat → Nat → List Particle × Nat
  | 0, k => ([], k)
  | n + 1, k =>
    let p := Particle.new x y rnd k
    let rest := newParticles x y rnd n p.2
    (p.1 :: rest.1, rest.2)

/-- The constructor `Dot::Dot()`: position and velocity zero, then the particles. -/
def Dot.new (rnd : Nat → Int) (k : Nat) : Dot × Nat :=
  let ps := newParticles 0 0 rnd TOTAL_PARTICLES k
  ({ particles := ps.1, mPosX := 0, mPosY := 0, mVelX := 0, mVelY := 0 }, ps.2)

/-- The method `void Dot::handleEvent( SDL_Event& e )` of `Particle.cpp`. -/
def Dot.handleEvent (d : Dot) (e : DotInput.Event) : Dot :=
  { d with mVelX := (DotInput.handleEvent DOT_VEL d.mVelX d.mVelY e).1,
           mVelY := (DotInput.handleEvent DOT_VEL d.mVelX d.mVelY e).2 }

end ParticleEngine

namespace ParticleEngine

open CircularCollision (wrapInt32 inInt32)

end ParticleEngine

/-! ## The collision predicates in 32-bit arithmetic

The functions below are the functions of the source with every `int` operation reduced
modulo 2^32 (`wrapInt32`), the behaviour of the compiled programs on a two's-complement
machine.  The predicates that follow say that the exact results of the operations of a
call fit in 32 bits; under them the 32-bit function and the exact one agree. -/

namespace PixelCollision

open CircularCollision (wrapInt32 inInt32)

/-- The inner loop of `checkCollision` with the sums `rightB = b[ Bbox ].x + b[ Bbox ].w`
and `bottomB = b[ Bbox ].y + b[ Bbox ].h` taken modulo 2^32. -/
def checkCollisionB32 (leftA rightA topA bottomA : Int) : List SDL_Rect → Bool
  | [] => false
  | rb :: rest =>
    let leftB := rb.x
    let rightB := wrapInt32 (rb.x + rb.w)
    let topB := rb.y
    let bottomB := wrapInt32 (rb.y + rb.h)
    if noSideOutside leftA rightA topA bottomA leftB rightB topB bottomB then
      true
    else
      checkCollisionB32 leftA rightA topA bottomA rest

/-- The function `bool checkCollision( vector<SDL_Rect>& a, vector<SDL_Rect>& b )` with
the sums `rightA`, `bottomA`, `rightB`, `bottomB` taken modulo 2^32. -/
def checkCollision32 : List SDL_Rect → List SDL_Rect → Bool
  | [], _ => false
  | ra :: rest, b =>
    let leftA := ra.x
    let rightA := wrapInt32 (ra.x + ra.w)
    let topA := ra.y
    let bottomA := wrapInt32 (ra.y + ra.h)
    if checkCollisionB32 leftA rightA topA bottomA b then
      true
    else
      checkCollision32 rest b

/-- The four fields of a rectangle are values of a 32-bit `int`. -/
def isInt32Rect (r : SDL_Rect) : Prop :=
  inInt32 r.x ∧ inInt32 r.y ∧ inInt32 r.w ∧ inInt32 r.h

/-- The sums `x + w` and `y + h` of a rectangle do not overflow a 32-bit `int`. -/
def sumsFit (r : SDL_Rect) : Prop :=
  inInt32 (r.x + r.w) ∧ inInt32 (r.y + r.h)

end PixelCollision

namespace CircularCollision

/-- No `int` operation of the call `checkCollision( a, b )` on a circle and a rectangle
overflows: the two sums, the two differences, their squares, the sum of the squares and
the square of the radius all fit in 32 bits. -/
def rectCallFits (a : Circle) (b : SDL_Rect) : Prop :=
  inInt32 (b.x + b.w) ∧ inInt32 (b.y + b.h) ∧
    inInt32 (closestX a b - a.x) ∧ inInt32 (closestY a b - a.y) ∧
    inInt32 ((closestX a b - a.x) * (closestX a b - a.x)) ∧
    inInt32 ((closestY a b - a.y) * (closestY a b - a.y)) ∧
    inInt32 (distanceSquared a.x a.y (closestX a b) (closestY a b)) ∧
    inInt32 (a.r * a.r)

/-- The three fields of a circle are values of a 32-bit `int`. -/
def isInt32Circle (c : Circle) : Prop :=
  inInt32 c.x ∧ inInt32 c.y ∧ inInt32 c.r

end CircularCollision

/-! ## The pixel-collision `Dot` in 32-bit arithmetic -/

namespace PixelCollision

open CircularCollision (wrapInt32 inInt32)

/-- The loop of `Dot::shiftColliders` with every `int` operation taken modulo 2^32. -/
def shiftCollidersLoop32 (mPosX mPosY : Int) : Int → List SDL_Rect → List SDL_Rect
  | _, [] => []
  | r, c :: rest =>
    { c with x := wrapInt32 (mPosX + Int.tdiv (wrapInt32 (DOT_WIDTH - c.w)) 2),
             y := wrapInt32 (mPosY + r) }
      :: shiftCollidersLoop32 mPosX mPosY (wrapInt32 (r + c.h)) rest

/-- The method `void Dot::shiftColliders()` in 32-bit arithmetic. -/
def Dot.shiftColliders32 (d : Dot) : Dot :=
  { d with mColliders := shiftCollidersLoop32 d.mPosX d.mPosY 0 d.mColliders }

/-- The first half of `Dot::move` in 32-bit arithmetic: "Move the dot left or right",
and "Move back" if the dot collided or went too far left or right. -/
def Dot.moveX32 (d : Dot) (otherColliders : List SDL_Rect) : Dot :=
  let d1 := Dot.shiftColliders32 { d with mPosX := wrapInt32 (d.mPosX + d.mVelX) }
  if d1.mPosX < 0 || wrapInt32 (d1.mPosX + DOT_WIDTH) > SCREEN_WIDTH
      || checkCollision32 d1.mColliders otherColliders then
    Dot.shiftColliders32 { d1 with mPosX := wrapInt32 (d1.mPosX - d1.mVelX) }
  else
    d1

/-- The second half of `Dot::move` in 32-bit arithmetic: "Move the dot up or down", and
"Move back" if the dot collided or went too far up or down. -/
def Dot.moveY32 (d : Dot) (otherColliders : List SDL_Rect) : Dot :=
  let d1 := Dot.shiftColliders32 { d with mPosY := wrapInt32 (d.mPosY + d.mVelY) }
  if d1.mPosY < 0 || wrapInt32 (d1.mPosY + DOT_HEIGHT) > SCREEN_HEIGHT
      || checkCollision32 d1.mColliders otherColliders then
    Dot.shiftColliders32 { d1 with mPosY := wrapInt32 (d1.mPosY - d1.mVelY) }
  else
    d1

/-- The method `void Dot::move( vector<SDL_Rect>& otherColliders )` in 32-bit
arithmetic: its two halves, one after the other. -/
def Dot.move32 (d : Dot) (otherColliders : List SDL_Rect) : Dot :=
  Dot.moveY32 (Dot.moveX32 d otherColliders) otherColliders

/-- The constructor `Dot::Dot( int x, int y )` in 32-bit arithmetic. -/
def Dot.new32 (x y : Int) : Dot :=
  Dot.shiftColliders32
    { mPosX := x, mPosY := y, mVelX := 0, mVelY := 0,
      mColliders :=
        [ { zeroRect with w := 6, h := 1 }, { zeroRect with w := 10, h := 1 },
          { zeroRect with w := 14, h := 1 }, { zeroRect with w := 16, h := 2 },
          { zeroRect with w := 18, h := 2 }, { zeroRect with w := 20, h := 6 },
          { zeroRect with w := 18, h := 2 }, { zeroRect with w := 16, h := 2 },
          { zeroRect with w := 14, h := 1 }, { zeroRect with w := 10, h := 1 },
          { zeroRect with w := 6, h := 1 } ] }

/-- The widths and heights the constructor assigns to the eleven collision boxes. -/
def dotShape : List (Int × Int) :=
  [(6, 1), (10, 1), (14, 1), (16, 2), (18, 2), (20, 6), (18, 2), (16, 2), (14, 1), (10, 1),
    (6, 1)]

/-- The strips of the dot placed at (px, py), written out from the words of claims C20
and C23 and not from `shiftColliders`: the eleven boxes of the constructor, stacked from
py downwards, each centred in the 20 pixels from px on. -/
def dotStrips (px py : Int) : List SDL_Rect :=
  [⟨px + 7, py, 6, 1⟩, ⟨px + 5, py + 1, 10, 1⟩, ⟨px + 3, py + 2, 14, 1⟩,
   ⟨px + 2, py + 3, 16, 2⟩, ⟨px + 1, py + 5, 18, 2⟩, ⟨px, py + 7, 20, 6⟩,
   ⟨px + 1, py + 13, 18, 2⟩, ⟨px + 2, py + 15, 16, 2⟩, ⟨px + 3, py + 17, 14, 1⟩,
   ⟨px + 5, py + 18, 10, 1⟩, ⟨px + 7, py + 19, 6, 1⟩]

/-- The 20 x 20 box of a dot at (px, py) lies within the `int` range: px, px+20, py and
py+20 are `int` values, so that no operation of `shiftColliders` or of a collision test
on its strips overflows. -/
def boxFits (px py : Int) : Prop :=
  (inInt32 px ∧ inInt32 (px + 20)) ∧ (inInt32 py ∧ inInt32 (py + 20))

/-- The loop of `shiftColliders` in 32-bit arithmetic as a function of the widths and
heights alone (it reads nothing else of a box and keeps the two). -/
def shiftShape32 (mPosX mPosY : Int) : Int → List (Int × Int) → List SDL_Rect
  | _, [] => []
  | r, wh :: rest =>
    { x := wrapInt32 (mPosX + Int.tdiv (wrapInt32 (DOT_WIDTH - wh.1)) 2),
      y := wrapInt32 (mPosY + r), w := wh.1, h := wh.2 }
      :: shiftShape32 mPosX mPosY (wrapInt32 (r + wh.2)) rest

/-- The state of a dot that claim C21 calls valid against the obstacle set `O`, for the
32-bit code: the dot is on screen, its collision boxes are its strips placed at its
position, and `checkCollision` finds no collision with `O`. -/
def Dot.Valid32 (d : Dot) (O : List SDL_Rect) : Prop :=
  (0 ≤ d.mPosX ∧ d.mPosX + 20 ≤ 640 ∧ 0 ≤ d.mPosY ∧ d.mPosY + 20 ≤ 480) ∧
    d.mColliders = dotStrips d.mPosX d.mPosY ∧
    checkCollision32 d.mColliders O = false

end PixelCollision

namespace PixelCollision

end PixelCollision

/-! ## `Dot::move` of the circular-collision program in 32-bit arithmetic -/

namespace CircularCollision

/-- The first half of `Dot::move` with every `int` operation taken modulo 2^32: "Move the
dot left or right", and "Move back" if the dot collided or went too far left or right. -/
def Dot.moveX32 (d : Dot) (square : SDL_Rect) (circle : Circle) : Dot :=
  let d1 := Dot.shiftColliders { d with mPosX := wrapInt32 (d.mPosX + d.mVelX) }
  if wrapInt32 (d1.mPosX - d1.mCollider.r) < 0
      || wrapInt32 (d1.mPosX + d1.mCollider.r) > SCREEN_WIDTH
      || checkCollisionRect32 d1.mCollider square || checkCollision32 d1.mCollider circle then
    Dot.shiftColliders { d1 with mPosX := wrapInt32 (d1.mPosX - d1.mVelX) }
  else
    d1

/-- The second half of `Dot::move` with every `int` operation taken modulo 2^32: "Move the
dot up or down", and "Move back" if the dot collided or went too far up or down. -/
def Dot.moveY32 (d : Dot) (square : SDL_Rect) (circle : Circle) : Dot :=
  let d1 := Dot.shiftColliders { d with mPosY := wrapInt32 (d.mPosY + d.mVelY) }
  if wrapInt32 (d1.mPosY - d1.mCollider.r) < 0
      || wrapInt32 (d1.mPosY + d1.mCollider.r) > SCREEN_HEIGHT
      || checkCollisionRect32 d1.mCollider square || checkCollision32 d1.mCollider circle then
    Dot.shiftColliders { d1 with mPosY := wrapInt32 (d1.mPosY - d1.mVelY) }
  else
    d1

/-- The method `void Dot::move( SDL_Rect& square, Circle& circle )` in 32-bit arithmetic:
its two halves, one after the other. -/
def Dot.move32 (d : Dot) (square : SDL_Rect) (circle : Circle) : Dot :=
  Dot.moveY32 (Dot.moveX32 d square circle) square circle

/-- The state of a dot that claim C22 calls valid against the wall and the other circle,
for the 32-bit code: the collider is centred on the dot, the circle is on screen, and the
two collision tests of the code are false. -/
def Dot.Valid32 (d : Dot) (wall : SDL_Rect) (other : Circle) : Prop :=
  (d.mCollider.x = d.mPosX ∧ d.mCollider.y = d.mPosY) ∧
    (d.mPosX - d.mCollider.r ≥ 0 ∧ d.mPosX + d.mCollider.r ≤ 640 ∧
      d.mPosY - d.mCollider.r ≥ 0 ∧ d.mPosY + d.mCollider.r ≤ 480) ∧
    checkCollisionRect32 d.mCollider wall = false ∧
    checkCollision32 d.mCollider other = false

/-- No sum or difference that `Dot::move` itself computes overflows: the position is a pair
of `int` values, and so are mPosX + mVelX, mPosY + mVelY and these two plus and minus the
radius. -/
def Dot.moveFits (d : Dot) : Prop :=
  (inInt32 d.mPosX ∧ inInt32 d.mPosY) ∧
    (inInt32 (d.mPosX + d.mVelX) ∧ inInt32 (d.mPosX + d.mVelX - d.mCollider.r) ∧
      inInt32 (d.mPosX + d.mVelX + d.mCollider.r)) ∧
    (inInt32 (d.mPosY + d.mVelY) ∧ inInt32 (d.mPosY + d.mVelY - d.mCollider.r) ∧
      inInt32 (d.mPosY + d.mVelY + d.mCollider.r))

end CircularCollision

namespace Mutexes

/-- The greatest number of statements a thread still executes while it holds the mutex,
the releasing one included: from the `if`, the write or read of the buffer and
`SDL_UnlockMutex` (3), or `SDL_CondWait` (2); 0 where the thread holds nothing. -/
def PC.toRelease : PC → Nat
  | PC.test => 3
  | PC.condWait => 1
  | PC.access => 2
  | PC.unlock => 1
  | _ => 0

end Mutexes

namespace Semaphores

/-- The number of statements a worker still executes while it holds the semaphore,
`SDL_SemPost` included; 0 where the worker holds nothing. -/
def PC.toRelease : PC → Nat
  | PC.semWait => 0
  | PC.showPre => 4
  | PC.work => 3
  | PC.showPost => 2
  | PC.semPost => 1

end Semaphores

/-! ## The three collision predicates as programs on their memory

Each predicate takes its arguments by reference.  Here a call works on a frame that holds
what the two references refer to and the locals of the function; a local declared without
an initialiser is `none` until its first assignment, every read of a vector element is
bounds-checked, and every statement maps the frame before it to the frame after it. -/

/-- What stops a call before it returns: a loop that has used up the iterations it was
given, a read of a vector element outside the vector, a read of a local that has not been
assigned. -/
inductive Fault
  | outOfFuel
  | indexOutOfRange
  | uninitialised
deriving DecidableEq, Repr

namespace PixelCollision

open CircularCollision (wrapInt32)

/-- The memory of a call `checkCollision( a, b )` on two vectors: the vectors the
parameters `a` and `b` refer to, and the locals `int leftA, leftB; int rightA, rightB;
int topA, topB; int bottomA, bottomB;`. -/
structure Frame where
  a : List SDL_Rect
  b : List SDL_Rect
  leftA : Option Int
  leftB : Option Int
  rightA : Option Int
  rightB : Option Int
  topA : Option Int
  topB : Option Int
  bottomA : Option Int
  bottomB : Option Int
deriving DecidableEq, Repr

/-- The frame on entry: the two vectors, no local assigned. -/
def Frame.entry (a b : List SDL_Rect) : Frame :=
  { a := a, b := b, leftA := none, leftB := none, rightA := none, rightB := none,
    topA := none, topB := none, bottomA := none, bottomB := none }

/-- The test of the inner loop body, which reads the eight locals; `none` when one of
them has not been assigned.  (The `||` of C++ skips the reads to the right of a true
comparison; here all eight are made.) -/
def Frame.noSideOutside (m : Frame) : Option Bool :=
  match m.bottomA, m.topB, m.topA, m.bottomB, m.rightA, m.leftB, m.leftA, m.rightB with
  | some bottomA, some topB, some topA, some bottomB, some rightA, some leftB, some leftA,
      some rightB =>
    some (PixelCollision.noSideOutside leftA rightA topA bottomA leftB rightB topB bottomB)
  | _, _, _, _, _, _, _, _ => none

/-- The inner loop `for( int Bbox = 0; Bbox < b.size(); Bbox++ )` from the counter value
`Bbox` on, allowed `fuel` evaluations of its test: the test, the bounds-checked reads of
`b[ Bbox ]` with the four assignments to `leftB`, `rightB`, `topB`, `bottomB` (the sums as
32-bit `int` operations), the test of the body, and `Bbox++`.  The result is the frame
after the loop with `some true` for the `return true` of the body and `none` when the loop
ran to its end. -/
def checkCollisionLoopB : Nat → Frame → Nat → Except Fault (Option Bool × Frame)
  | 0, _, _ => Except.error Fault.outOfFuel
  | fuel + 1, m, Bbox =>
    if Bbox < m.b.length then
      match m.b[Bbox]? with
      | none => Except.error Fault.indexOutOfRange
      | some rb =>
        let m1 : Frame :=
          { m with leftB := some rb.x, rightB := some (wrapInt32 (rb.x + rb.w)),
                   topB := some rb.y, bottomB := some (wrapInt32 (rb.y + rb.h)) }
        match m1.noSideOutside with
        | none => Except.error Fault.uninitialised
        | some true => Except.ok (some true, m1)
        | some false => checkCollisionLoopB fuel m1 (Bbox + 1)
    else
      Except.ok (none, m)

/-- The outer loop `for( int Abox = 0; Abox < a.size(); Abox++ )` from the counter value
`Abox` on, allowed `fuel` evaluations of its test, each run of the inner loop being allowed
`fuelB`: the test, the bounds-checked reads of `a[ Abox ]` with the four assignments to
`leftA`, `rightA`, `topA`, `bottomA`, the inner loop from `Bbox = 0`, and `Abox++`. -/
def checkCollisionLoopA (fuelB : Nat) : Nat → Frame → Nat → Except Fault (Option Bool × Frame)
  | 0, _, _ => Except.error Fault.outOfFuel
  | fuel + 1, m, Abox =>
    if Abox < m.a.length then
      match m.a[Abox]? with
      | none => Except.error Fault.indexOutOfRange
      | some ra =>
        let m1 : Frame :=
          { m with leftA := some ra.x, rightA := some (wrapInt32 (ra.x + ra.w)),
                   topA := some ra.y, bottomA := some (wrapInt32 (ra.y + ra.h)) }
        match checkCollisionLoopB fuelB m1 0 with
        | Except.error e => Except.error e
        | Except.ok (some ret, m2) => Except.ok (some ret, m2)
        | Except.ok (none, m2) => checkCollisionLoopA fuelB fuel m2 (Abox + 1)
    else
      Except.ok (none, m)

/-- A call of `bool checkCollision( vector<SDL_Rect>& a, vector<SDL_Rect>& b )` with every
loop allowed `fuel` evaluations of its test: the value returned (that of the `return true`
in the loops, or of the final `return false`) and the frame on return, or the fault that
stopped the call. -/
def checkCollisionRun (fuel : Nat) (a b : List SDL_Rect) : Except Fault (Bool × Frame) :=
  match checkCollisionLoopA fuel fuel (Frame.entry a b) 0 with
  | Except.error e => Except.error e
  | Except.ok (some ret, m) => Except.ok (ret, m)
  | Except.ok (none, m) => Except.ok (false, m)

end PixelCollision

namespace CircularCollision

/-- The memory of a call `checkCollision( Circle& a, Circle& b )`: the circles the
parameters refer to and the local `int totalRadiusSquared`. -/
structure CirclesFrame where
  a : Circle
  b : Circle
  totalRadiusSquared : Option Int
deriving DecidableEq, Repr

/-- A call of `bool checkCollision( Circle& a, Circle& b )`, statement by statement, in
32-bit arithmetic (`distanceSquared` takes four `int` values, by value): the value
returned and the frame on return, or the fault that stopped the call. -/
def checkCollisionRun (a b : Circle) : Except Fault (Bool × CirclesFrame) :=
  let m0 : CirclesFrame := { a := a, b := b, totalRadiusSquared := none }
  let m1 : CirclesFrame := { m0 with totalRadiusSquared := some (wrapInt32 (m0.a.r + m0.b.r)) }
  match m1.totalRadiusSquared with
  | none => Except.error Fault.uninitialised
  | some t =>
    let m2 : CirclesFrame := { m1 with totalRadiusSquared := some (wrapInt32 (t * t)) }
    match m2.totalRadiusSquared with
    | none => Except.error Fault.uninitialised
    | some t2 =>
      if distanceSquared32 m2.a.x m2.a.y m2.b.x m2.b.y < t2 then
        Except.ok (true, m2)
      else
        Except.ok (false, m2)

/-- The memory of a call `checkCollision( Circle& a, SDL_Rect& b )`: the circle and the
rectangle the parameters refer to and the locals `int cX, cY`. -/
structure RectFrame where
  a : Circle
  b : SDL_Rect
  cX : Option Int
  cY : Option Int
deriving DecidableEq, Repr

/-- The statement "Find closest x offset" of `checkCollision( Circle& a, SDL_Rect& b )`. -/
def RectFrame.findClosestX (m : RectFrame) : RectFrame :=
  if m.a.x < m.b.x then
    { m with cX := some m.b.x }
  else if m.a.x > wrapInt32 (m.b.x + m.b.w) then
    { m with cX := some (wrapInt32 (m.b.x + m.b.w)) }
  else
    { m with cX := some m.a.x }

/-- The statement "Find closest y offset" of `checkCollision( Circle& a, SDL_Rect& b )`. -/
def RectFrame.findClosestY (m : RectFrame) : RectFrame :=
  if m.a.y < m.b.y then
    { m with cY := some m.b.y }
  else if m.a.y > wrapInt32 (m.b.y + m.b.h) then
    { m with cY := some (wrapInt32 (m.b.y + m.b.h)) }
  else
    { m with cY := some m.a.y }

/-- A call of `bool checkCollision( Circle& a, SDL_Rect& b )`, statement by statement, in
32-bit arithmetic: the two if/else-if chains, then the test that reads `cX` and `cY`; the
value returned and the frame on return, or the fault that stopped the call. -/
def checkCollisionRectRun (a : Circle) (b : SDL_Rect) : Except Fault (Bool × RectFrame) :=
  let m0 : RectFrame := { a := a, b := b, cX := none, cY := none }
  let m2 := m0.findClosestX.findClosestY
  match m2.cX, m2.cY with
  | some cX, some cY =>
    if distanceSquared32 m2.a.x m2.a.y cX cY < wrapInt32 (m2.a.r * m2.a.r) then
      Except.ok (true, m2)
    else
      Except.ok (false, m2)
  | _, _ => Except.error Fault.uninitialised

end CircularCollision

/-! ## Properties of the rectangle-set predicate -/

namespace PixelCollision

theorem noSideOutside_iff (leftA rightA topA bottomA leftB rightB topB bottomB : Int) :
    noSideOutside leftA rightA topA bottomA leftB rightB topB bottomB = true ↔
      ¬ (bottomA ≤ topB ∨ topA ≥ bottomB ∨ rightA ≤ leftB ∨ leftA ≥ rightB) := by
  simp [noSideOutside, and_assoc]

theorem checkCollisionB_iff (leftA rightA topA bottomA : Int) (b : List SDL_Rect) :
    checkCollisionB leftA rightA topA bottomA b = true ↔
      ∃ rb ∈ b, ¬ (bottomA ≤ rb.y ∨ topA ≥ rb.y + rb.h ∨ rightA ≤ rb.x
        ∨ leftA ≥ rb.x + rb.w) := by
  induction b with
  | nil => simp [checkCollisionB]
  | cons rb rest ih =>
    simp only [checkCollisionB, List.mem_cons, exists_eq_or_imp]
    by_cases hc : noSideOutside leftA rightA topA bottomA rb.x (rb.x + rb.w) rb.y
        (rb.y + rb.h) = true
    · simp only [hc, if_true, true_iff]
      exact Or.inl ((noSideOutside_iff _ _ _ _ _ _ _ _).1 hc)
    · have hn := mt (noSideOutside_iff _ _ _ _ _ _ _ _).2 hc
      simp only [hc, if_false, Bool.false_eq_true, ih]
      constructor
      · intro h; exact Or.inr h
      · rintro (h | h)
        · exact absurd h hn
        · exact h

/-- With the sums taken exactly, `checkCollision( a, b )` on two rectangle sets returns
true if and only if some rectangle `ra` of `a` and some rectangle `rb` of `b` satisfy
NOT( ra.y+ra.h <= rb.y OR ra.y >= rb.y+rb.h OR ra.x+ra.w <= rb.x OR ra.x >= rb.x+rb.w ),
for all finite rectangle sequences `a` and `b`. -/
theorem checkCollision_iff_exists_pair (a b : List SDL_Rect) :
    checkCollision a b = true ↔
      ∃ ra ∈ a, ∃ rb ∈ b,
        ¬ (ra.y + ra.h ≤ rb.y ∨ ra.y ≥ rb.y + rb.h ∨ ra.x + ra.w ≤ rb.x
          ∨ ra.x ≥ rb.x + rb.w) := by
  induction a with
  | nil => simp [checkCollision]
  | cons ra rest ih =>
    simp only [checkCollision, List.mem_cons, exists_eq_or_imp]
    by_cases hc : checkCollisionB ra.x (ra.x + ra.w) ra.y (ra.y + ra.h) b = true
    · simp only [hc, if_true, true_iff]
      exact Or.inl ((checkCollisionB_iff _ _ _ _ _).1 hc)
    · have hn := mt (checkCollisionB_iff _ _ _ _ _).2 hc
      simp only [hc, if_false, Bool.false_eq_true, ih]
      constructor
      · intro h; exact Or.inr h
      · rintro (h | h)
        · exact absurd h hn
        · exact h

/-- One rectangle against one rectangle: the predicate is the negated disjunction of the
four comparisons. -/
theorem checkCollision_single (a b : SDL_Rect) :
    checkCollision [a] [b] = true ↔
      ¬ (a.y + a.h ≤ b.y ∨ a.y ≥ b.y + b.h ∨ a.x + a.w ≤ b.x ∨ a.x ≥ b.x + b.w) := by
  simp [checkCollision, checkCollisionB, noSideOutside, and_assoc]

theorem checkCollision_single_false (a b : SDL_Rect) :
    checkCollision [a] [b] = false ↔
      (a.y + a.h ≤ b.y ∨ a.y ≥ b.y + b.h ∨ a.x + a.w ≤ b.x ∨ a.x ≥ b.x + b.w) := by
  rw [← Bool.not_eq_true, checkCollision_single, not_not]

/-- Claim C5: edge-touching rectangles do not collide.  When an edge of `a` coincides
with the facing edge of `b` (a.x+a.w = b.x, or b.x+b.w = a.x, or a.y+a.h = b.y, or
b.y+b.h = a.y), `checkCollision( {a}, {b} )` is false. -/
theorem checkCollision_edge_touching (a b : SDL_Rect)
    (h : a.x + a.w = b.x ∨ b.x + b.w = a.x ∨ a.y + a.h = b.y ∨ b.y + b.h = a.y) :
    checkCollision [a] [b] = false := by
  rw [checkCollision_single_false]
  omega

/-- The rectangles (0,0,10,10) and (10,0,10,10) of claim C5 share the line x = 10 and do
not collide. -/
theorem checkCollision_edge_touching_witness :
    ((0 : Int) + 10 = 10 ∨ (10 : Int) + 10 = 0 ∨ (0 : Int) + 10 = 0 ∨ (0 : Int) + 10 = 0) ∧
      checkCollision [⟨0, 0, 10, 10⟩] [⟨10, 0, 10, 10⟩] = false :=
  ⟨by decide, checkCollision_edge_touching ⟨0, 0, 10, 10⟩ ⟨10, 0, 10, 10⟩ (by decide)⟩

/-- Claim C6: for rectangles `a` and `b` of non-negative width and height whose closed
regions [x, x+w] x [y, y+h] share no point, `checkCollision( {a}, {b} )` is false.  The
hypothesis asks only that no point with integer coordinates is shared, which is implied by
sharing no point of the plane. -/
theorem checkCollision_disjoint (a b : SDL_Rect)
    (haw : 0 ≤ a.w) (hah : 0 ≤ a.h) (hbw : 0 ≤ b.w) (hbh : 0 ≤ b.h)
    (hdisj : ¬ ∃ px py : Int,
      (a.x ≤ px ∧ px ≤ a.x + a.w ∧ a.y ≤ py ∧ py ≤ a.y + a.h) ∧
      (b.x ≤ px ∧ px ≤ b.x + b.w ∧ b.y ≤ py ∧ py ≤ b.y + b.h)) :
    checkCollision [a] [b] = false := by
  rw [checkCollision_single_false]
  by_contra hcon
  apply hdisj
  refine ⟨max a.x b.x, max a.y b.y, ?_⟩
  omega

/-- The rectangles (0,0,10,10) and (20,20,5,5) share no point and do not collide. -/
theorem checkCollision_disjoint_witness :
    (¬ ∃ px py : Int,
      ((0 : Int) ≤ px ∧ px ≤ 0 + 10 ∧ (0 : Int) ≤ py ∧ py ≤ 0 + 10) ∧
      ((20 : Int) ≤ px ∧ px ≤ 20 + 5 ∧ (20 : Int) ≤ py ∧ py ≤ 20 + 5)) ∧
    checkCollision [⟨0, 0, 10, 10⟩] [⟨20, 20, 5, 5⟩] = false :=
  ⟨by rintro ⟨px, py, h1, h2⟩; omega,
   checkCollision_disjoint ⟨0, 0, 10, 10⟩ ⟨20, 20, 5, 5⟩ (by decide) (by decide) (by decide)
    (by decide) (by rintro ⟨px, py, h1, h2⟩; simp only at h1 h2; omega)⟩

/-- With the sums taken exactly: for rectangles `a` and `b` with a.x < b.x+b.w,
a.x+a.w > b.x, a.y < b.y+b.h and a.y+a.h > b.y, `checkCollision( {a}, {b} )` is true. -/
theorem checkCollision_proper_overlap (a b : SDL_Rect)
    (h1 : a.x < b.x + b.w) (h2 : a.x + a.w > b.x) (h3 : a.y < b.y + b.h)
    (h4 : a.y + a.h > b.y) :
    checkCollision [a] [b] = true := by
  rw [checkCollision_single]
  omega

/-- Claim C8 fails as stated: the zero-area rectangle (5,5,0,0) collides with the
rectangle (0,0,10,10) that contains it, although all four widths and heights are
non-negative and the intersection has extent 0 in both directions. -/
theorem checkCollision_zero_area_collides :
    ((0 : Int) ≤ (⟨5, 5, 0, 0⟩ : SDL_Rect).w ∧ (0 : Int) ≤ (⟨5, 5, 0, 0⟩ : SDL_Rect).h ∧
      (0 : Int) ≤ (⟨0, 0, 10, 10⟩ : SDL_Rect).w ∧ (0 : Int) ≤ (⟨0, 0, 10, 10⟩ : SDL_Rect).h) ∧
    checkCollision [⟨5, 5, 0, 0⟩] [⟨0, 0, 10, 10⟩] = true ∧
    ¬ (min ((5 : Int) + 0) (0 + 10) - max (5 : Int) 0 > 0 ∧
       min ((5 : Int) + 0) (0 + 10) - max (5 : Int) 0 > 0) := by
  decide

/-- Claim C8, amended: for rectangles `a` and `b` of non-negative width and height, if
`checkCollision( {a}, {b} )` is true then the intersection has non-negative extent in both
directions, its extent in x is positive when both widths are positive, and its extent in y
is positive when both heights are positive; so it has positive area as soon as neither
rectangle is degenerate. -/
theorem checkCollision_overlap_extent (a b : SDL_Rect)
    (haw : 0 ≤ a.w) (hah : 0 ≤ a.h) (hbw : 0 ≤ b.w) (hbh : 0 ≤ b.h)
    (hc : checkCollision [a] [b] = true) :
    (min (a.x + a.w) (b.x + b.w) - max a.x b.x ≥ 0 ∧
      min (a.y + a.h) (b.y + b.h) - max a.y b.y ≥ 0) ∧
    (0 < a.w → 0 < b.w → min (a.x + a.w) (b.x + b.w) - max a.x b.x > 0) ∧
    (0 < a.h → 0 < b.h → min (a.y + a.h) (b.y + b.h) - max a.y b.y > 0) := by
  rw [checkCollision_single] at hc
  omega

/-- The rectangles (0,0,10,10) and (5,5,10,10) collide, and their intersection
[5,10] x [5,10] has extent 5 in both directions. -/
theorem checkCollision_overlap_extent_witness :
    checkCollision [⟨0, 0, 10, 10⟩] [⟨5, 5, 10, 10⟩] = true ∧
    min ((0 : Int) + 10) (5 + 10) - max (0 : Int) 5 > 0 ∧
    min ((0 : Int) + 10) (5 + 10) - max (0 : Int) 5 > 0 :=
  have h := checkCollision_overlap_extent ⟨0, 0, 10, 10⟩ ⟨5, 5, 10, 10⟩ (by decide)
    (by decide) (by decide) (by decide) (by decide)
  ⟨by decide, h.2.1 (by decide) (by decide), h.2.2 (by decide) (by decide)⟩

/-- Claim C9: `checkCollision( a, b )` on rectangle sets returns false whenever `a` is
empty or `b` is empty, whatever the other set contains. -/
theorem checkCollision_empty (a b : List SDL_Rect) :
    checkCollision [] b = false ∧ checkCollision a [] = false := by
  refine ⟨rfl, ?_⟩
  induction a with
  | nil => rfl
  | cons ra rest ih => simp [checkCollision, checkCollisionB, ih]

end PixelCollision

/-! ## Properties of the circle predicates -/

namespace CircularCollision

theorem checkCollision_iff (a b : Circle) :
    checkCollision a b = true ↔
      (b.x - a.x) ^ 2 + (b.y - a.y) ^ 2 < (a.r + b.r) ^ 2 := by
  simp [checkCollision, distanceSquared, sq]

/-- Claim C10: the circle/circle `checkCollision` is symmetric,
`checkCollision( a, b ) = checkCollision( b, a )` for all circles `a` and `b`. -/
theorem checkCollision_circles_symm (a b : Circle) :
    checkCollision a b = checkCollision b a := by
  rw [Bool.eq_iff_iff, checkCollision_iff, checkCollision_iff]
  have h1 : (b.x - a.x) ^ 2 = (a.x - b.x) ^ 2 := by ring
  have h2 : (b.y - a.y) ^ 2 = (a.y - b.y) ^ 2 := by ring
  have h3 : (a.r + b.r) ^ 2 = (b.r + a.r) ^ 2 := by ring
  rw [h1, h2, h3]

/-- For a rectangle of non-negative width the if/else-if chain for `cX` is the clamp of
the centre to [b.x, b.x+b.w]. -/
theorem closestX_eq_clampSpec (a : Circle) (b : SDL_Rect) (hw : 0 ≤ b.w) :
    closestX a b = clampSpec a.x b.x (b.x + b.w) := by
  unfold closestX clampSpec
  split_ifs <;> omega

/-- For a rectangle of non-negative height the if/else-if chain for `cY` is the clamp of
the centre to [b.y, b.y+b.h]. -/
theorem closestY_eq_clampSpec (a : Circle) (b : SDL_Rect) (hh : 0 ≤ b.h) :
    closestY a b = clampSpec a.y b.y (b.y + b.h) := by
  unfold closestY clampSpec
  split_ifs <;> omega

theorem checkCollisionRect_iff (a : Circle) (b : SDL_Rect) :
    checkCollisionRect a b = true ↔
      (a.x - closestX a b) ^ 2 + (a.y - closestY a b) ^ 2 < a.r ^ 2 := by
  have h1 : (closestX a b - a.x) * (closestX a b - a.x) = (a.x - closestX a b) ^ 2 := by ring
  have h2 : (closestY a b - a.y) * (closestY a b - a.y) = (a.y - closestY a b) ^ 2 := by ring
  simp [checkCollisionRect, distanceSquared, h1, h2, sq]

/-- The point computed by the two chains lies in the closed rectangle. -/
theorem closest_mem_rect (c : Circle) (r : SDL_Rect) (hw : 0 ≤ r.w) (hh : 0 ≤ r.h) :
    r.x ≤ closestX c r ∧ closestX c r ≤ r.x + r.w ∧
      r.y ≤ closestY c r ∧ closestY c r ≤ r.y + r.h := by
  unfold closestX closestY
  refine ⟨?_, ?_, ?_, ?_⟩ <;> split_ifs <;> omega

/-- In the x direction no point of [r.x, r.x+r.w] is nearer to the centre than `cX`. -/
theorem closestX_sq_le (c : Circle) (r : SDL_Rect) (px : ℝ)
    (h1 : (r.x : ℝ) ≤ px) (h2 : px ≤ (r.x : ℝ) + r.w) :
    ((closestX c r : ℝ) - c.x) ^ 2 ≤ (px - c.x) ^ 2 := by
  unfold closestX
  split_ifs with ha hb
  · have ha' : (c.x : ℝ) < r.x := by exact_mod_cast ha
    nlinarith
  · have hb' : (c.x : ℝ) > (r.x : ℝ) + r.w := by exact_mod_cast hb
    push_cast
    nlinarith
  · rw [sub_self]
    nlinarith [sq_nonneg (px - (c.x : ℝ))]

/-- In the y direction no point of [r.y, r.y+r.h] is nearer to the centre than `cY`. -/
theorem closestY_sq_le (c : Circle) (r : SDL_Rect) (py : ℝ)
    (h1 : (r.y : ℝ) ≤ py) (h2 : py ≤ (r.y : ℝ) + r.h) :
    ((closestY c r : ℝ) - c.y) ^ 2 ≤ (py - c.y) ^ 2 := by
  unfold closestY
  split_ifs with ha hb
  · have ha' : (c.y : ℝ) < r.y := by exact_mod_cast ha
    nlinarith
  · have hb' : (c.y : ℝ) > (r.y : ℝ) + r.h := by exact_mod_cast hb
    push_cast
    nlinarith
  · rw [sub_self]
    nlinarith [sq_nonneg (py - (c.y : ℝ))]

/-- The squared distance of `distanceSquared`, read in the reals. -/
theorem distanceSquared_cast (x1 y1 x2 y2 : Int) :
    ((distanceSquared x1 y1 x2 y2 : Int) : ℝ)
      = ((x2 : ℝ) - x1) ^ 2 + ((y2 : ℝ) - y1) ^ 2 := by
  simp only [distanceSquared]
  push_cast
  ring

theorem checkCollisionRect_iff_distanceSquared (c : Circle) (r : SDL_Rect) :
    checkCollisionRect c r = true ↔
      distanceSquared c.x c.y (closestX c r) (closestY c r) < c.r * c.r := by
  simp [checkCollisionRect]

/-- With every operation taken exactly, the point (cX, cY) computed by the if/else-if
chains of the circle/rectangle `checkCollision` is the closest point of the rectangle to
the circle centre.  For a
rectangle with w, h >= 0 it lies in the closed rectangle [r.x, r.x+r.w] x [r.y, r.y+r.h];
its squared distance to the centre is at most that of every point of the rectangle, with
real coordinates and hence also with integer ones; and the predicate is true if and only
if some point of the rectangle (equivalently: some point with integer coordinates) is at
squared distance < c.r^2 from the centre. -/
theorem checkCollisionRect_closest_point (c : Circle) (r : SDL_Rect)
    (hw : 0 ≤ r.w) (hh : 0 ≤ r.h) :
    (r.x ≤ closestX c r ∧ closestX c r ≤ r.x + r.w ∧
      r.y ≤ closestY c r ∧ closestY c r ≤ r.y + r.h) ∧
    (∀ px py : ℝ, (r.x : ℝ) ≤ px → px ≤ (r.x : ℝ) + r.w → (r.y : ℝ) ≤ py →
      py ≤ (r.y : ℝ) + r.h →
      ((distanceSquared c.x c.y (closestX c r) (closestY c r) : Int) : ℝ)
        ≤ (px - c.x) ^ 2 + (py - c.y) ^ 2) ∧
    (∀ px py : Int, r.x ≤ px → px ≤ r.x + r.w → r.y ≤ py → py ≤ r.y + r.h →
      distanceSquared c.x c.y (closestX c r) (closestY c r)
        ≤ distanceSquared c.x c.y px py) ∧
    (checkCollisionRect c r = true ↔
      ∃ px py : ℝ, ((r.x : ℝ) ≤ px ∧ px ≤ (r.x : ℝ) + r.w ∧ (r.y : ℝ) ≤ py ∧
        py ≤ (r.y : ℝ) + r.h) ∧ (px - c.x) ^ 2 + (py - c.y) ^ 2 < (c.r : ℝ) ^ 2) ∧
    (checkCollisionRect c r = true ↔
      ∃ px py : Int, (r.x ≤ px ∧ px ≤ r.x + r.w ∧ r.y ≤ py ∧ py ≤ r.y + r.h) ∧
        (px - c.x) ^ 2 + (py - c.y) ^ 2 < c.r ^ 2) := by
  have hmem := closest_mem_rect c r hw hh
  have hreal : ∀ px py : ℝ, (r.x : ℝ) ≤ px → px ≤ (r.x : ℝ) + r.w → (r.y : ℝ) ≤ py →
      py ≤ (r.y : ℝ) + r.h →
      ((distanceSquared c.x c.y (closestX c r) (closestY c r) : Int) : ℝ)
        ≤ (px - c.x) ^ 2 + (py - c.y) ^ 2 := by
    intro px py h1 h2 h3 h4
    rw [distanceSquared_cast]
    exact add_le_add (closestX_sq_le c r px h1 h2) (closestY_sq_le c r py h3 h4)
  have hint : ∀ px py : Int, r.x ≤ px → px ≤ r.x + r.w → r.y ≤ py → py ≤ r.y + r.h →
      distanceSquared c.x c.y (closestX c r) (closestY c r)
        ≤ distanceSquared c.x c.y px py := by
    intro px py h1 h2 h3 h4
    have h := hreal px py (by exact_mod_cast h1) (by exact_mod_cast h2)
      (by exact_mod_cast h3) (by exact_mod_cast h4)
    rw [← distanceSquared_cast] at h
    exact_mod_cast h
  refine ⟨hmem, hreal, hint, ?_, ?_⟩
  · rw [checkCollisionRect_iff_distanceSquared]
    constructor
    · intro h
      refine ⟨closestX c r, closestY c r, ?_, ?_⟩
      · obtain ⟨m1, m2, m3, m4⟩ := hmem
        exact ⟨by exact_mod_cast m1, by exact_mod_cast m2, by exact_mod_cast m3,
          by exact_mod_cast m4⟩
      · rw [← distanceSquared_cast, sq]
        exact_mod_cast h
    · rintro ⟨px, py, ⟨h1, h2, h3, h4⟩, hlt⟩
      have h := lt_of_le_of_lt (hreal px py h1 h2 h3 h4) hlt
      rw [sq] at h
      exact_mod_cast h
  · rw [checkCollisionRect_iff_distanceSquared]
    constructor
    · intro h
      refine ⟨closestX c r, closestY c r, hmem, ?_⟩
      have e : (closestX c r - c.x) ^ 2 + (closestY c r - c.y) ^ 2
          = distanceSquared c.x c.y (closestX c r) (closestY c r) := by
        simp only [distanceSquared]; ring
      rw [e, sq]
      exact h
    · rintro ⟨px, py, ⟨h1, h2, h3, h4⟩, hlt⟩
      have e : (px - c.x) ^ 2 + (py - c.y) ^ 2 = distanceSquared c.x c.y px py := by
        simp only [distanceSquared]; ring
      rw [e, sq] at hlt
      exact lt_of_le_of_lt (hint px py h1 h2 h3 h4) hlt

end CircularCollision

/-! ## Touching circles, zero radius, and 32-bit arithmetic -/

namespace CircularCollision

/-- Claim C11: touching circles do not collide.  For circles `a` and `b` with non-negative
radii whose squared centre distance equals (a.r+b.r)^2 the circle/circle `checkCollision`
returns false. -/
theorem checkCollision_touching (a b : Circle) (_hra : 0 ≤ a.r) (_hrb : 0 ≤ b.r)
    (h : (b.x - a.x) ^ 2 + (b.y - a.y) ^ 2 = (a.r + b.r) ^ 2) :
    checkCollision a b = false := by
  rw [← Bool.not_eq_true, checkCollision_iff, h]
  exact lt_irrefl _

/-- The circles (0,0,r=5) and (10,0,r=5) of claim C11: centre distance 10, radii summing
to 10, no collision. -/
theorem checkCollision_touching_witness :
    ((0 : Int) ≤ 5 ∧ (0 : Int) ≤ 5 ∧
      ((10 : Int) - 0) ^ 2 + ((0 : Int) - 0) ^ 2 = ((5 : Int) + 5) ^ 2) ∧
    checkCollision ⟨0, 0, 5⟩ ⟨10, 0, 5⟩ = false :=
  ⟨by decide, checkCollision_touching ⟨0, 0, 5⟩ ⟨10, 0, 5⟩ (by decide) (by decide) (by decide)⟩

theorem distanceSquared_nonneg (x1 y1 x2 y2 : Int) : 0 ≤ distanceSquared x1 y1 x2 y2 := by
  simp only [distanceSquared]
  nlinarith [mul_self_nonneg (x2 - x1), mul_self_nonneg (y2 - y1)]

/-- With every operation taken exactly, a zero-radius circle does not collide with a
rectangle.  For every circle `c` with c.r = 0 and every rectangle `r`, also one that contains the centre of `c`, the
circle/rectangle `checkCollision( c, r )` returns false. -/
theorem checkCollisionRect_zero_radius (c : Circle) (r : SDL_Rect) (h0 : c.r = 0) :
    checkCollisionRect c r = false := by
  rw [← Bool.not_eq_true, checkCollisionRect_iff_distanceSquared, h0]
  have h := distanceSquared_nonneg c.x c.y (closestX c r) (closestY c r)
  omega

theorem wrapInt32_eq_self (z : Int) (h : inInt32 z) : wrapInt32 z = z := by
  unfold inInt32 at h
  unfold wrapInt32
  omega

theorem mul_self_bounds (u : Int) (h1 : -1280 ≤ u) (h2 : u ≤ 1280) :
    0 ≤ u * u ∧ u * u ≤ 1638400 := by
  constructor
  · exact mul_self_nonneg u
  · nlinarith

end CircularCollision

namespace CircularCollision

theorem distanceSquared32_eq (x1 y1 x2 y2 : Int)
    (hx1 : -1280 ≤ x2 - x1) (hx2 : x2 - x1 ≤ 1280)
    (hy1 : -1280 ≤ y2 - y1) (hy2 : y2 - y1 ≤ 1280) :
    distanceSquared32 x1 y1 x2 y2 = distanceSquared x1 y1 x2 y2 := by
  have bx := mul_self_bounds (x2 - x1) hx1 hx2
  have by_ := mul_self_bounds (y2 - y1) hy1 hy2
  simp only [distanceSquared32, distanceSquared]
  rw [wrapInt32_eq_self (x2 - x1) (by unfold inInt32; omega),
    wrapInt32_eq_self (y2 - y1) (by unfold inInt32; omega),
    wrapInt32_eq_self ((x2 - x1) * (x2 - x1)) (by unfold inInt32; omega),
    wrapInt32_eq_self ((y2 - y1) * (y2 - y1)) (by unfold inInt32; omega),
    wrapInt32_eq_self _ (by unfold inInt32; omega)]

theorem closestX_bounds (a : Circle) (r : SDL_Rect) (ha : screenCircle a)
    (hr : screenRect r) : 0 ≤ closestX a r ∧ closestX a r ≤ 1280 := by
  obtain ⟨⟨h1, h2⟩, -, -⟩ := ha
  obtain ⟨⟨h3, h4⟩, -, ⟨h5, h6⟩, -⟩ := hr
  unfold closestX
  split_ifs <;> omega

theorem closestY_bounds (a : Circle) (r : SDL_Rect) (ha : screenCircle a)
    (hr : screenRect r) : 0 ≤ closestY a r ∧ closestY a r ≤ 1120 := by
  obtain ⟨-, ⟨h1, h2⟩, -⟩ := ha
  obtain ⟨-, ⟨h3, h4⟩, -, ⟨h5, h6⟩⟩ := hr
  unfold closestY
  split_ifs <;> omega

/-- Claim C13: 32-bit signed arithmetic is sufficient for screen-space values.  For
circles `a`, `b` and a rectangle `r` with x in [0, 640], y in [0, 480], width and height
in [0, 640] and radius in [0, 640], every intermediate value of `distanceSquared` and of
the two circle predicates (the differences, their squares, the sum of the squares,
a.r+b.r, (a.r+b.r)^2, a.r*a.r, r.x+r.w, r.y+r.h) lies in [-2^31, 2^31-1], and the three
functions computed modulo 2^32 return what they return in exact integer arithmetic. -/
theorem int32_sufficient_for_screen (a b : Circle) (r : SDL_Rect)
    (ha : screenCircle a) (hb : screenCircle b) (hr : screenRect r) :
    (inInt32 (b.x - a.x) ∧ inInt32 (b.y - a.y) ∧
      inInt32 ((b.x - a.x) * (b.x - a.x)) ∧ inInt32 ((b.y - a.y) * (b.y - a.y)) ∧
      inInt32 (distanceSquared a.x a.y b.x b.y) ∧
      inInt32 (a.r + b.r) ∧ inInt32 ((a.r + b.r) * (a.r + b.r))) ∧
    (inInt32 (r.x + r.w) ∧ inInt32 (r.y + r.h) ∧
      inInt32 (closestX a r - a.x) ∧ inInt32 (closestY a r - a.y) ∧
      inInt32 ((closestX a r - a.x) * (closestX a r - a.x)) ∧
      inInt32 ((closestY a r - a.y) * (closestY a r - a.y)) ∧
      inInt32 (distanceSquared a.x a.y (closestX a r) (closestY a r)) ∧
      inInt32 (a.r * a.r)) ∧
    (distanceSquared32 a.x a.y b.x b.y = distanceSquared a.x a.y b.x b.y ∧
      checkCollision32 a b = checkCollision a b ∧
      checkCollisionRect32 a r = checkCollisionRect a r) := by
  have hcx := closestX_bounds a r ha hr
  have hcy := closestY_bounds a r ha hr
  obtain ⟨⟨ax1, ax2⟩, ⟨ay1, ay2⟩, ⟨ar1, ar2⟩⟩ := ha
  obtain ⟨⟨bx1, bx2⟩, ⟨by1, by2⟩, ⟨br1, br2⟩⟩ := hb
  obtain ⟨⟨rx1, rx2⟩, ⟨ry1, ry2⟩, ⟨rw1, rw2⟩, ⟨rh1, rh2⟩⟩ := hr
  have m1 := mul_self_bounds (b.x - a.x) (by omega) (by omega)
  have m2 := mul_self_bounds (b.y - a.y) (by omega) (by omega)
  have m3 := mul_self_bounds (a.r + b.r) (by omega) (by omega)
  have m4 := mul_self_bounds (closestX a r - a.x) (by omega) (by omega)
  have m5 := mul_self_bounds (closestY a r - a.y) (by omega) (by omega)
  have m6 := mul_self_bounds a.r (by omega) (by omega)
  have e1 := distanceSquared32_eq a.x a.y b.x b.y (by omega) (by omega) (by omega) (by omega)
  have e2 := distanceSquared32_eq a.x a.y (closestX a r) (closestY a r) (by omega) (by omega)
    (by omega) (by omega)
  have wx : wrapInt32 (r.x + r.w) = r.x + r.w :=
    wrapInt32_eq_self _ (by unfold inInt32; omega)
  have wy : wrapInt32 (r.y + r.h) = r.y + r.h :=
    wrapInt32_eq_self _ (by unfold inInt32; omega)
  have cx : closestX32 a r = closestX a r := by simp only [closestX32, closestX, wx]
  have cy : closestY32 a r = closestY a r := by simp only [closestY32, closestY, wy]
  refine ⟨?_, ?_, e1, ?_, ?_⟩
  · simp only [distanceSquared, inInt32]
    omega
  · simp only [distanceSquared, inInt32]
    omega
  · simp only [checkCollision32, checkCollision, e1]
    rw [wrapInt32_eq_self (a.r + b.r) (by unfold inInt32; omega),
      wrapInt32_eq_self _ (by unfold inInt32; omega)]
  · simp only [checkCollisionRect32, checkCollisionRect, cx, cy, e2]
    rw [wrapInt32_eq_self (a.r * a.r) (by unfold inInt32; omega)]

/-- The circles (0,0,r=640), (640,480,r=640) and the rectangle (640,480,640,640) are at the
ends of the screen-space ranges: the squared distance 640000 and the squared radius sum
1638400 fit in 32 bits, and the wrapped predicates agree with the exact ones. -/
theorem int32_sufficient_for_screen_witness :
    (screenCircle ⟨0, 0, 640⟩ ∧ screenCircle ⟨640, 480, 640⟩ ∧
      screenRect ⟨640, 480, 640, 640⟩) ∧
    inInt32 (distanceSquared 0 0 640 480) ∧ inInt32 (((640 : Int) + 640) * (640 + 640)) ∧
    checkCollision32 ⟨0, 0, 640⟩ ⟨640, 480, 640⟩ = checkCollision ⟨0, 0, 640⟩ ⟨640, 480, 640⟩ ∧
    checkCollisionRect32 ⟨0, 0, 640⟩ ⟨640, 480, 640, 640⟩
      = checkCollisionRect ⟨0, 0, 640⟩ ⟨640, 480, 640, 640⟩ :=
  have hA : screenCircle ⟨0, 0, 640⟩ := by unfold screenCircle; decide
  have hB : screenCircle ⟨640, 480, 640⟩ := by unfold screenCircle; decide
  have hR : screenRect ⟨640, 480, 640, 640⟩ := by unfold screenRect; decide
  have h := int32_sufficient_for_screen ⟨0, 0, 640⟩ ⟨640, 480, 640⟩ ⟨640, 480, 640, 640⟩
    hA hB hR
  ⟨⟨hA, hB, hR⟩, h.1.2.2.2.2.1, h.1.2.2.2.2.2.2, h.2.2.2.1, h.2.2.2.2⟩

end CircularCollision

/-! ## The channel of `Mutexes.cpp`: runs in which the hand-off fails -/

namespace Mutexes

/-- Claim C14 does not hold of the code: with two calls per thread and `rand()` results
7 and 8, the interleaving `lateSignalTwoCalls` ends with both threads past their loops,
the values written by `produce()` being 7, 8 and the values shown by `consume()` being
7, -1: the second call of `consume()` returned from its wait on the late signal of the
first `produce()` and read the empty buffer, and the value 8 is never consumed. -/
theorem handoff_order_violated :
    (run 2 rndExample init lateSignalTwoCalls).map
        (fun s => (s.producer, s.consumer, s.produced, s.consumed))
      = some (⟨PC.lock, 2⟩, ⟨PC.lock, 2⟩, [7, 8], [7, -1]) := by
  decide

/-- Claim C15 does not hold of the code.  After `lateSignalToConsumer` the consumer holds
the mutex and is about to show and empty the buffer while `gData` is -1; after
`lateSignalToProducer` the producer holds the mutex and is about to fill the buffer while
`gData` is 8, a value that has not been consumed. -/
theorem single_if_check_unsafe :
    (run CALLS rndExample init lateSignalToConsumer).map
        (fun s => (s.consumer.pc, s.owner, s.gData))
      = some (PC.access, some Tid.consumer, -1) ∧
    (run CALLS rndExample init lateSignalToProducer).map
        (fun s => (s.producer.pc, s.owner, s.gData, s.produced, s.consumed))
      = some (PC.access, some Tid.producer, 8, [7, 8], [7]) := by
  decide

/-- Claim C17 does not hold of the code: with the five calls per thread of the source,
the interleaving `lateSignalToTheEnd` reaches a state in which the producer is past its
loop, the consumer is blocked in `SDL_CondWait` in its fifth call, and neither thread can
take a step; the value 8 was overwritten before it was consumed. -/
theorem consumer_waits_forever :
    (run CALLS rndExample init lateSignalToTheEnd).map
        (fun s => (s.producer, s.consumer, s.produced, s.consumed,
          (step CALLS rndExample s Tid.producer).isNone,
          (step CALLS rndExample s Tid.consumer).isNone))
      = some (⟨PC.lock, 5⟩, ⟨PC.waiting, 4⟩, [7, 8, 9, 10, 11], [7, 9, 10, 11], true, true) := by
  rfl

end Mutexes

/-! ## The lock discipline of `Mutexes.cpp` and `Semaphores.cpp` -/

namespace Sync

theorem discipline_append {T : Type} [DecidableEq T] (t : T) (log es : List (T × Op)) :
    discipline t (log ++ es) = es.foldl (disciplineStep t) (discipline t log) := by
  simp only [discipline, List.foldl_append]

end Sync

namespace Mutexes

theorem inv_init : Inv init := by
  constructor <;> simp [init, PC.holding, Sync.discipline]

theorem inv_stepProducer (N : Nat) (rnd : Nat → Int) (s s1 : State) (hI : Inv s)
    (h : stepProducer N rnd s = some s1) : Inv s1 := by
  obtain ⟨hp, hc, dp, dc⟩ := hI
  unfold stepProducer at h
  cases hpc : s.producer.pc <;> simp only [hpc] at h hp dp
  case lock =>
    split_ifs at h with hcond
    obtain ⟨-, hfree⟩ := hcond
    simp only [Option.some.injEq] at h
    subst h
    rw [hfree] at hc
    constructor <;>
      simp_all [PC.holding, Sync.discipline_append, Sync.disciplineStep]
  case test =>
    simp only [Option.some.injEq] at h
    subst h
    constructor <;>
      (try split_ifs) <;>
      simp_all [PC.holding, Sync.discipline_append, Sync.disciplineStep]
  case condWait =>
    simp only [Option.some.injEq] at h
    subst h
    have hown : s.owner = some Tid.producer := hp.2 rfl
    rw [hown] at hc
    constructor <;>
      simp_all [PC.holding, Sync.discipline_append, Sync.disciplineStep]
  case waiting =>
    simp at h
  case woken =>
    split_ifs at h with hfree
    simp only [Option.some.injEq] at h
    subst h
    rw [hfree] at hc
    constructor <;>
      simp_all [PC.holding, Sync.discipline_append, Sync.disciplineStep]
  case access =>
    simp only [Option.some.injEq] at h
    subst h
    constructor <;>
      simp_all [PC.holding, Sync.discipline_append, Sync.disciplineStep]
  case unlock =>
    simp only [Option.some.injEq] at h
    subst h
    have hown : s.owner = some Tid.producer := hp.2 rfl
    rw [hown] at hc
    constructor <;>
      simp_all [PC.holding, Sync.discipline_append, Sync.disciplineStep]
  case signal =>
    simp only [Option.some.injEq] at h
    subst h
    constructor <;>
      (try split_ifs) <;>
      simp_all [PC.holding, Sync.discipline_append, Sync.disciplineStep]

theorem inv_stepConsumer (N : Nat) (s s1 : State) (hI : Inv s)
    (h : stepConsumer N s = some s1) : Inv s1 := by
  obtain ⟨hp, hc, dp, dc⟩ := hI
  unfold stepConsumer at h
  cases hpc : s.consumer.pc <;> simp only [hpc] at h hc dc
  case lock =>
    split_ifs at h with hcond
    obtain ⟨-, hfree⟩ := hcond
    simp only [Option.some.injEq] at h
    subst h
    rw [hfree] at hp
    constructor <;>
      simp_all [PC.holding, Sync.discipline_append, Sync.disciplineStep]
  case test =>
    simp only [Option.some.injEq] at h
    subst h
    constructor <;>
      (try split_ifs) <;>
      simp_all [PC.holding, Sync.discipline_append, Sync.disciplineStep]
  case condWait =>
    simp only [Option.some.injEq] at h
    subst h
    have hown : s.owner = some Tid.consumer := hc.2 rfl
    rw [hown] at hp
    constructor <;>
      simp_all [PC.holding, Sync.discipline_append, Sync.disciplineStep]
  case waiting =>
    simp at h
  case woken =>
    split_ifs at h with hfree
    simp only [Option.some.injEq] at h
    subst h
    rw [hfree] at hp
    constructor <;>
      simp_all [PC.holding, Sync.discipline_append, Sync.disciplineStep]
  case access =>
    simp only [Option.some.injEq] at h
    subst h
    constructor <;>
      simp_all [PC.holding, Sync.discipline_append, Sync.disciplineStep]
  case unlock =>
    simp only [Option.some.injEq] at h
    subst h
    have hown : s.owner = some Tid.consumer := hc.2 rfl
    rw [hown] at hp
    constructor <;>
      simp_all [PC.holding, Sync.discipline_append, Sync.disciplineStep]
  case signal =>
    simp only [Option.some.injEq] at h
    subst h
    constructor <;>
      (try split_ifs) <;>
      simp_all [PC.holding, Sync.discipline_append, Sync.disciplineStep]

theorem inv_step (N : Nat) (rnd : Nat → Int) (s s1 : State) (t : Tid) (hI : Inv s)
    (h : step N rnd s t = some s1) : Inv s1 := by
  cases t
  · exact inv_stepProducer N rnd s s1 hI h
  · exact inv_stepConsumer N s s1 hI h

theorem inv_run (N : Nat) (rnd : Nat → Int) (sched : List Tid) :
    ∀ s s1 : State, Inv s → run N rnd s sched = some s1 → Inv s1 := by
  induction sched with
  | nil =>
    intro s s1 hI h
    simp only [run, Option.some.injEq] at h
    exact h ▸ hI
  | cons t rest ih =>
    intro s s1 hI h
    simp only [run] at h
    cases hs : step N rnd s t with
    | none => simp [hs] at h
    | some s2 =>
      simp only [hs] at h
      exact ih s2 s1 (inv_step N rnd s s2 t hI hs) h

theorem inv_reachable (N : Nat) (rnd : Nat → Int) (s : State) (h : Reachable N rnd s) :
    Inv s := by
  obtain ⟨sched, hs⟩ := h
  exact inv_run N rnd sched init s inv_init hs

end Mutexes

namespace Semaphores

theorem workers_inv_init : Inv init := by
  constructor <;> simp [init, PC.holding, Sync.discipline]

theorem workers_inv_step (N : Nat) (rnd : Tid → Nat → Int) (s s1 : State) (t : Tid) (hI : Inv s)
    (h : step N rnd s t = some s1) : Inv s1 := by
  obtain ⟨hcount, da, db⟩ := hI
  unfold step at h
  cases t
  · simp only [State.thread] at h
    cases hpc : s.threadA.pc <;> simp only [hpc] at h hcount da
    case semWait =>
      split_ifs at h with hcond
      obtain ⟨-, hpos⟩ := hcond
      simp only [Option.some.injEq] at h
      subst h
      constructor
      · simp only [State.setThread, PC.holding] at hcount ⊢
        split_ifs at hcount ⊢ <;> simp_all
      · simp_all [State.setThread, PC.holding, Sync.discipline_append, Sync.disciplineStep]
      · simp_all [State.setThread, PC.holding, Sync.discipline_append, Sync.disciplineStep]
    all_goals
      simp only [Option.some.injEq] at h
      subst h
      constructor
      · simp only [State.setThread, PC.holding] at hcount ⊢
        split_ifs at hcount ⊢ <;> simp_all
      · simp_all [State.setThread, PC.holding, Sync.discipline_append, Sync.disciplineStep]
      · simp_all [State.setThread, PC.holding, Sync.discipline_append, Sync.disciplineStep]
  · simp only [State.thread] at h
    cases hpc : s.threadB.pc <;> simp only [hpc] at h hcount db
    case semWait =>
      split_ifs at h with hcond
      obtain ⟨-, hpos⟩ := hcond
      simp only [Option.some.injEq] at h
      subst h
      constructor
      · simp only [State.setThread, PC.holding] at hcount ⊢
        split_ifs at hcount ⊢ <;> simp_all
      · simp_all [State.setThread, PC.holding, Sync.discipline_append, Sync.disciplineStep]
      · simp_all [State.setThread, PC.holding, Sync.discipline_append, Sync.disciplineStep]
    all_goals
      simp only [Option.some.injEq] at h
      subst h
      constructor
      · simp only [State.setThread, PC.holding] at hcount ⊢
        split_ifs at hcount ⊢ <;> simp_all
      · simp_all [State.setThread, PC.holding, Sync.discipline_append, Sync.disciplineStep]
      · simp_all [State.setThread, PC.holding, Sync.discipline_append, Sync.disciplineStep]

theorem workers_inv_run (N : Nat) (rnd : Tid → Nat → Int) (sched : List Tid) :
    ∀ s s1 : State, Inv s → run N rnd s sched = some s1 → Inv s1 := by
  induction sched with
  | nil =>
    intro s s1 hI h
    simp only [run, Option.some.injEq] at h
    exact h ▸ hI
  | cons t rest ih =>
    intro s s1 hI h
    simp only [run] at h
    cases hs : step N rnd s t with
    | none => simp [hs] at h
    | some s2 =>
      simp only [hs] at h
      exact ih s2 s1 (workers_inv_step N rnd s s2 t hI hs) h

theorem workers_inv_reachable (N : Nat) (rnd : Tid → Nat → Int) (s : State)
    (h : Reachable N rnd s) : Inv s := by
  obtain ⟨sched, hs⟩ := h
  exact workers_inv_run N rnd sched init s workers_inv_init hs

end Semaphores

namespace Mutexes

/-- A thread at a statement between an acquire and the next release can take its step. -/
theorem holding_enabled (N : Nat) (rnd : Nat → Int) (s : State) (t : Tid)
    (h : (s.thread t).pc.holding = true) : (step N rnd s t).isSome = true := by
  cases t
  · simp only [State.thread] at h
    simp only [step, stepProducer]
    cases hpc : s.producer.pc <;> simp_all [PC.holding]
  · simp only [State.thread] at h
    simp only [step, stepConsumer]
    cases hpc : s.consumer.pc <;> simp_all [PC.holding]

end Mutexes

namespace Semaphores

/-- A worker between `SDL_SemWait` and `SDL_SemPost` can take its step. -/
theorem workers_holding_enabled (N : Nat) (rnd : Tid → Nat → Int) (s : State) (t : Tid)
    (h : (s.thread t).pc.holding = true) : (step N rnd s t).isSome = true := by
  simp only [step]
  cases hpc : (s.thread t).pc <;> simp_all [PC.holding]

end Semaphores

/-! ## The channel of `Mutexes.cpp` used sequentially -/

namespace Mutexes

theorem run_append (N : Nat) (rnd : Nat → Int) (l1 l2 : List Tid) :
    ∀ s : State, run N rnd s (l1 ++ l2) = (run N rnd s l1).bind fun s1 => run N rnd s1 l2 := by
  induction l1 with
  | nil => intro s; rfl
  | cons t rest ih =>
    intro s
    simp only [List.cons_append, run]
    cases step N rnd s t with
    | none => rfl
    | some s1 => exact ih s1

/-- With a non-negative `rand()` result the value `rand() % 255` lies in [0, 254]. -/
theorem tmod_255_bounds (r : Int) (hr : 0 ≤ r) :
    0 ≤ Int.tmod r 255 ∧ Int.tmod r 255 ≤ 254 := by
  rw [Int.tmod_eq_emod hr (by decide)]
  omega

/-- One call of `produce()` on an empty buffer with the mutex free, run without
interruption: five steps, no wait. -/
theorem produce_on_empty (N : Nat) (rnd : Nat → Int) (s : State)
    (hE : s.gData = -1) (hfree : s.owner = none) (hpc : s.producer.pc = PC.lock)
    (hi : s.producer.i < N) :
    run N rnd s (List.replicate 5 Tid.producer) =
      some { s with
        gData := Int.tmod (rnd s.producer.i) 255
        owner := none
        produced := s.produced ++ [Int.tmod (rnd s.producer.i) 255]
        producer := ⟨PC.lock, s.producer.i + 1⟩
        consumer := if s.consumer.pc = PC.waiting then { s.consumer with pc := PC.woken }
                    else s.consumer
        log := s.log ++ [(Tid.producer, Sync.Op.acquire), (Tid.producer, Sync.Op.read),
          (Tid.producer, Sync.Op.write), (Tid.producer, Sync.Op.read),
          (Tid.producer, Sync.Op.release)] } := by
  simp [List.replicate, run, step, stepProducer, hE, hfree, hpc, hi]

/-- One call of `consume()` on a full buffer with the mutex free, run without
interruption: five steps, no wait. -/
theorem consume_on_full (N : Nat) (rnd : Nat → Int) (s : State)
    (hF : s.gData ≠ -1) (hfree : s.owner = none) (hpc : s.consumer.pc = PC.lock)
    (hi : s.consumer.i < N) :
    run N rnd s (List.replicate 5 Tid.consumer) =
      some { s with
        gData := -1
        owner := none
        consumed := s.consumed ++ [s.gData]
        consumer := ⟨PC.lock, s.consumer.i + 1⟩
        producer := if s.producer.pc = PC.waiting then { s.producer with pc := PC.woken }
                    else s.producer
        log := s.log ++ [(Tid.consumer, Sync.Op.acquire), (Tid.consumer, Sync.Op.read),
          (Tid.consumer, Sync.Op.read), (Tid.consumer, Sync.Op.write),
          (Tid.consumer, Sync.Op.release)] } := by
  simp [List.replicate, run, step, stepConsumer, hF, hfree, hpc, hi]

/-- The facts about the state after an uninterrupted call of `produce()` on an empty
buffer. -/
theorem produce_on_empty_facts (N : Nat) (rnd : Nat → Int) (s : State)
    (hE : s.gData = -1) (hfree : s.owner = none) (hpc : s.producer.pc = PC.lock)
    (hi : s.producer.i < N) :
    ∃ s1, run N rnd s (List.replicate 5 Tid.producer) = some s1 ∧
      s1.gData = Int.tmod (rnd s.producer.i) 255 ∧ s1.owner = none ∧
      s1.producer = ⟨PC.lock, s.producer.i + 1⟩ ∧
      (s.consumer.pc ≠ PC.waiting → s1.consumer = s.consumer) ∧
      s1.produced = s.produced ++ [Int.tmod (rnd s.producer.i) 255] ∧
      s1.consumed = s.consumed ∧
      s1.log = s.log ++ [(Tid.producer, Sync.Op.acquire), (Tid.producer, Sync.Op.read),
        (Tid.producer, Sync.Op.write), (Tid.producer, Sync.Op.read),
        (Tid.producer, Sync.Op.release)] :=
  ⟨_, produce_on_empty N rnd s hE hfree hpc hi, rfl, rfl, rfl, fun h => if_neg h, rfl, rfl,
    rfl⟩

/-- The facts about the state after an uninterrupted call of `consume()` on a full
buffer. -/
theorem consume_on_full_facts (N : Nat) (rnd : Nat → Int) (s : State)
    (hF : s.gData ≠ -1) (hfree : s.owner = none) (hpc : s.consumer.pc = PC.lock)
    (hi : s.consumer.i < N) :
    ∃ s1, run N rnd s (List.replicate 5 Tid.consumer) = some s1 ∧
      s1.gData = -1 ∧ s1.owner = none ∧
      s1.consumer = ⟨PC.lock, s.consumer.i + 1⟩ ∧
      (s.producer.pc ≠ PC.waiting → s1.producer = s.producer) ∧
      s1.produced = s.produced ∧
      s1.consumed = s.consumed ++ [s.gData] ∧
      s1.log = s.log ++ [(Tid.consumer, Sync.Op.acquire), (Tid.consumer, Sync.Op.read),
        (Tid.consumer, Sync.Op.read), (Tid.consumer, Sync.Op.write),
        (Tid.consumer, Sync.Op.release)] :=
  ⟨_, consume_on_full N rnd s hF hfree hpc hi, rfl, rfl, rfl, fun h => if_neg h, rfl, rfl,
    rfl⟩

theorem producedValues_succ (rnd : Nat → Int) (k : Nat) :
    producedValues rnd (k + 1) = producedValues rnd k ++ [Int.tmod (rnd k) 255] := by
  simp [producedValues, List.range_succ]

/-- The state after `k` rounds of one `produce()` and one `consume()`. -/
theorem alternating_run (N : Nat) (rnd : Nat → Int) (hr : ∀ k, 0 ≤ rnd k) :
    ∀ k, k ≤ N →
      ∃ s, run N rnd init (alternating k) = some s ∧ s.gData = -1 ∧ s.owner = none ∧
        s.producer = ⟨PC.lock, k⟩ ∧ s.consumer = ⟨PC.lock, k⟩ ∧
        s.produced = producedValues rnd k ∧ s.consumed = producedValues rnd k := by
  intro k
  induction k with
  | zero =>
    intro _
    exact ⟨init, rfl, rfl, rfl, rfl, rfl, rfl, rfl⟩
  | succ k ih =>
    intro hk
    obtain ⟨s, hrun, hE, hfree, hp, hc, hpr, hco⟩ := ih (by omega)
    obtain ⟨s1, h1, g1, o1, p1, c1, pr1, co1, -⟩ :=
      produce_on_empty_facts N rnd s hE hfree (by rw [hp]) (by rw [hp]; show k < N; omega)
    have hcs : s1.consumer = ⟨PC.lock, k⟩ := by
      rw [c1 (by rw [hc]; simp), hc]
    have hpi : s.producer.i = k := by rw [hp]
    rw [hpi] at g1 p1 pr1
    have hne : s1.gData ≠ -1 := by
      have := tmod_255_bounds (rnd k) (hr k)
      omega
    obtain ⟨s2, h2, g2, o2, c2, p2, pr2, co2, -⟩ :=
      consume_on_full_facts N rnd s1 hne o1 (by rw [hcs]) (by rw [hcs]; show k < N; omega)
    refine ⟨s2, ?_, g2, o2, ?_, ?_, ?_, ?_⟩
    · simp only [alternating, roundSchedule, run_append, hrun, h1, h2, Option.bind_eq_bind,
        Option.some_bind]
    · rw [p2 (by rw [p1]; simp), p1]
    · rw [c2, hcs]
    · rw [pr2, pr1, hpr, producedValues_succ]
    · rw [co2, co1, hco, g1, producedValues_succ]

/-- Claim C16: the channel state machine, sequentially.  The slot starts EMPTY
(gData = -1).  For non-negative `rand()` results, `produce()` run on an EMPTY slot with
the mutex free takes no wait (five steps, one acquire and one release in the log) and
leaves the slot FULL with gData = rand() % 255 in [0, 254], never the sentinel -1;
`consume()` run on a FULL slot takes no wait and leaves it EMPTY, having shown the value.
Hence along the alternating sequence produce, consume, produce, .. from the initial state
the slot is EMPTY after each `consume()`, with the values consumed being the values
produced, and FULL after each `produce()`. -/
theorem channel_sequential (N : Nat) (rnd : Nat → Int) (hr : ∀ k, 0 ≤ rnd k) :
    init.gData = -1 ∧
    (∀ s : State, s.gData = -1 → s.owner = none → s.producer.pc = PC.lock →
      s.producer.i < N →
      ∃ s1, run N rnd s (List.replicate 5 Tid.producer) = some s1 ∧
        s1.gData = Int.tmod (rnd s.producer.i) 255 ∧
        (0 ≤ s1.gData ∧ s1.gData ≤ 254 ∧ s1.gData ≠ -1) ∧
        s1.owner = none ∧ s1.producer = ⟨PC.lock, s.producer.i + 1⟩ ∧
        s1.log = s.log ++ [(Tid.producer, Sync.Op.acquire), (Tid.producer, Sync.Op.read),
          (Tid.producer, Sync.Op.write), (Tid.producer, Sync.Op.read),
          (Tid.producer, Sync.Op.release)]) ∧
    (∀ s : State, s.gData ≠ -1 → s.owner = none → s.consumer.pc = PC.lock →
      s.consumer.i < N →
      ∃ s1, run N rnd s (List.replicate 5 Tid.consumer) = some s1 ∧
        s1.gData = -1 ∧ s1.consumed = s.consumed ++ [s.gData] ∧
        s1.owner = none ∧ s1.consumer = ⟨PC.lock, s.consumer.i + 1⟩ ∧
        s1.log = s.log ++ [(Tid.consumer, Sync.Op.acquire), (Tid.consumer, Sync.Op.read),
          (Tid.consumer, Sync.Op.read), (Tid.consumer, Sync.Op.write),
          (Tid.consumer, Sync.Op.release)]) ∧
    (∀ k, k ≤ N →
      ∃ s, run N rnd init (alternating k) = some s ∧ s.gData = -1 ∧
        s.produced = producedValues rnd k ∧ s.consumed = producedValues rnd k) ∧
    (∀ k, k < N →
      ∃ s, run N rnd init (alternating k ++ List.replicate 5 Tid.producer) = some s ∧
        s.gData = Int.tmod (rnd k) 255 ∧ s.gData ≠ -1) := by
  refine ⟨rfl, ?_, ?_, ?_, ?_⟩
  · intro s hE hfree hpc hi
    obtain ⟨s1, h1, g1, o1, p1, -, -, -, l1⟩ := produce_on_empty_facts N rnd s hE hfree hpc hi
    have hb := tmod_255_bounds (rnd s.producer.i) (hr _)
    exact ⟨s1, h1, g1, ⟨by omega, by omega, by omega⟩, o1, p1, l1⟩
  · intro s hF hfree hpc hi
    obtain ⟨s1, h1, g1, o1, c1, -, -, co1, l1⟩ := consume_on_full_facts N rnd s hF hfree hpc hi
    exact ⟨s1, h1, g1, co1, o1, c1, l1⟩
  · intro k hk
    obtain ⟨s, hrun, hE, -, -, -, hpr, hco⟩ := alternating_run N rnd hr k hk
    exact ⟨s, hrun, hE, hpr, hco⟩
  · intro k hk
    obtain ⟨s, hrun, hE, hfree, hp, -, -, -⟩ := alternating_run N rnd hr k (by omega)
    obtain ⟨s1, h1, g1, -⟩ :=
      produce_on_empty_facts N rnd s hE hfree (by rw [hp]) (by rw [hp]; show k < N; omega)
    have hpi : s.producer.i = k := by rw [hp]
    rw [hpi] at g1
    have hb := tmod_255_bounds (rnd k) (hr k)
    refine ⟨s1, ?_, g1, by omega⟩
    simp only [run_append, hrun, h1, Option.bind_eq_bind, Option.some_bind]

/-- With the `rand()` results 7, 8, .. and five calls per thread: the first `produce()`
on the initial state leaves gData = 7, and after one round the value consumed is the
value produced. -/
theorem channel_sequential_witness :
    (∀ k, 0 ≤ rndExample k) ∧
    (∃ s1, run 5 rndExample init (List.replicate 5 Tid.producer) = some s1 ∧
      s1.gData = Int.tmod (rndExample 0) 255 ∧ s1.gData ≠ -1) ∧
    (∃ s, run 5 rndExample init (alternating 1) = some s ∧ s.gData = -1 ∧
      s.produced = producedValues rndExample 1 ∧ s.consumed = producedValues rndExample 1) :=
  have hr : ∀ k, 0 ≤ rndExample k := fun k => by unfold rndExample; omega
  have h := channel_sequential 5 rndExample hr
  ⟨hr, h.2.2.2.2 0 (by decide), h.2.2.2.1 1 (by decide)⟩

end Mutexes

/-! ## Symmetry of the rectangle-set test -/

namespace PixelCollision

/-- The rectangle-set predicate is true exactly when some box of `a` collides with some box
of `b`, each taken alone. -/
theorem checkCollision_iff_exists_single (a b : List SDL_Rect) :
    checkCollision a b = true ↔ ∃ ra ∈ a, ∃ rb ∈ b, checkCollision [ra] [rb] = true := by
  simp only [checkCollision_single]
  induction a with
  | nil => simp [checkCollision]
  | cons ra rest ih =>
    simp only [checkCollision, List.mem_cons, exists_eq_or_imp]
    by_cases hc : checkCollisionB ra.x (ra.x + ra.w) ra.y (ra.y + ra.h) b = true
    · simp only [hc, if_true, true_iff]
      exact Or.inl ((checkCollisionB_iff _ _ _ _ _).1 hc)
    · have hn := mt (checkCollisionB_iff _ _ _ _ _).2 hc
      simp only [hc, if_false, Bool.false_eq_true, ih]
      constructor
      · intro h; exact Or.inr h
      · rintro (h | h)
        · exact absurd h hn
        · exact h

/-- Claim C27: the rectangle-set `checkCollision` is symmetric,
`checkCollision( a, b ) = checkCollision( b, a )` for all finite rectangle sequences `a`
and `b`, although the loops iterate `a` in the outer loop and `b` in the inner one. -/
theorem checkCollision_symm (a b : List SDL_Rect) :
    checkCollision a b = checkCollision b a := by
  rw [Bool.eq_iff_iff, checkCollision_iff_exists_single, checkCollision_iff_exists_single]
  have hs : ∀ r1 r2 : SDL_Rect, checkCollision [r1] [r2] = true →
      checkCollision [r2] [r1] = true := by
    intro r1 r2 h
    rw [checkCollision_single] at h ⊢
    omega
  constructor
  · rintro ⟨ra, hra, rb, hrb, h⟩
    exact ⟨rb, hrb, ra, hra, hs ra rb h⟩
  · rintro ⟨rb, hrb, ra, hra, h⟩
    exact ⟨ra, hra, rb, hrb, hs rb ra h⟩

end PixelCollision

/-! ## The frame counter and the texture lock of `Streaming.cpp` -/

namespace Streaming

/-- The counters after `n` calls of `getBuffer` in closed form. -/
theorem afterCalls_eq (n : Nat) :
    DataStream.afterCalls n
      = { mCurrentImage := (n : Int) / 4 % 4, mDelayFrames := 4 - (n : Int) % 4 } := by
  induction n with
  | zero => rfl
  | succ n ih =>
    simp only [DataStream.afterCalls, ih, DataStream.getBuffer]
    push_cast
    split_ifs with h1 h2 h2 <;> simp only [DataStream.mk.injEq] at h2 ⊢ <;> omega

/-- The index at which call number `n + 1` of `getBuffer` reads `mImages`. -/
theorem getBuffer_index (n : Nat) :
    (DataStream.getBuffer (DataStream.afterCalls n)).2 = ((n : Int) + 1) / 4 % 4 := by
  have h := afterCalls_eq (n + 1)
  simp only [DataStream.afterCalls] at h
  have h2 : (DataStream.getBuffer (DataStream.afterCalls n)).2
      = (DataStream.getBuffer (DataStream.afterCalls n)).1.mCurrentImage := rfl
  rw [h2, h]
  push_cast
  rfl

/-- Claim C24: `DataStream::getBuffer` is a 4-frame-delay modulo counter.  Starting from
the constructed state (mCurrentImage = 0, mDelayFrames = 4), after the n-th call (n >= 1)
0 <= mCurrentImage <= 3 and 1 <= mDelayFrames <= 4, the index into `mImages[ 4 ]` used
by the call is in range and equals (n / 4) mod 4 (integer division), and the call
16 calls later uses the same index: a cycle of period 16. -/
theorem getBuffer_modulo_counter (n : Nat) (hn : 1 ≤ n) :
    (DataStream.new = { mCurrentImage := 0, mDelayFrames := 4 }) ∧
    (0 ≤ (DataStream.afterCalls n).mCurrentImage ∧
      (DataStream.afterCalls n).mCurrentImage ≤ 3) ∧
    (1 ≤ (DataStream.afterCalls n).mDelayFrames ∧
      (DataStream.afterCalls n).mDelayFrames ≤ 4) ∧
    (0 ≤ (DataStream.getBuffer (DataStream.afterCalls (n - 1))).2 ∧
      (DataStream.getBuffer (DataStream.afterCalls (n - 1))).2 ≤ 3) ∧
    (DataStream.getBuffer (DataStream.afterCalls (n - 1))).2 = (n : Int) / 4 % 4 ∧
    (DataStream.getBuffer (DataStream.afterCalls (n - 1 + 16))).2
      = (DataStream.getBuffer (DataStream.afterCalls (n - 1))).2 := by
  obtain ⟨m, rfl⟩ : ∃ m, n = m + 1 := ⟨n - 1, by omega⟩
  simp only [Nat.add_sub_cancel]
  rw [getBuffer_index, getBuffer_index, afterCalls_eq]
  push_cast
  refine ⟨rfl, ?_, ?_, ?_, rfl, ?_⟩ <;> dsimp only <;> omega

/-- The fourth call is the first to select image 1, and the calls 1 to 3 select image 0. -/
theorem getBuffer_modulo_counter_witness :
    (1 ≤ 4) ∧
    (DataStream.getBuffer (DataStream.afterCalls (4 - 1))).2 = ((4 : Nat) : Int) / 4 % 4 ∧
    (DataStream.getBuffer (DataStream.afterCalls 3)).2 = 1 ∧
    (DataStream.getBuffer (DataStream.afterCalls 2)).2 = 0 :=
  ⟨by decide, (getBuffer_modulo_counter 4 (by decide)).2.2.2.2.1, by decide, by decide⟩

/-- Claim C30: `LTexture` lock/unlock error handling.  `lockTexture` returns false and
leaves mPixels and mPitch unchanged when the texture is already locked (mPixels != NULL),
whatever `SDL_LockTexture` would do; `unlockTexture` returns false and leaves the state
unchanged when the texture is not locked (mPixels == NULL); otherwise `unlockTexture`
returns true and leaves mPixels = NULL and mPitch = 0, so a second `unlockTexture`
directly after it returns false. -/
theorem lock_unlock_error_handling (t : LTexture) (sdl : LockResult) :
    (t.mPixels ≠ NULL → LTexture.lockTexture t sdl = (false, t)) ∧
    (t.mPixels = NULL → LTexture.unlockTexture t = (false, t)) ∧
    (t.mPixels ≠ NULL →
      LTexture.unlockTexture t = (true, { mPixels := NULL, mPitch := 0 }) ∧
      (LTexture.unlockTexture (LTexture.unlockTexture t).2).1 = false ∧
      (LTexture.unlockTexture (LTexture.unlockTexture t).2).2
        = { mPixels := NULL, mPitch := 0 }) := by
  refine ⟨fun h => ?_, fun h => ?_, fun h => ?_⟩
  · simp only [LTexture.lockTexture, if_pos h]
  · simp only [LTexture.unlockTexture, if_pos h]
  · simp only [LTexture.unlockTexture, if_neg h, if_true, and_self]

/-- A texture locked at address 4096 with pitch 256: locking it again fails and changes
nothing, unlocking it succeeds, and unlocking it a second time fails. -/
theorem lock_unlock_error_handling_witness :
    LTexture.lockTexture ⟨4096, 256⟩ ⟨0, 8192, 512⟩ = (false, ⟨4096, 256⟩) ∧
    LTexture.unlockTexture ⟨4096, 256⟩ = (true, ⟨NULL, 0⟩) ∧
    (LTexture.unlockTexture (LTexture.unlockTexture ⟨4096, 256⟩).2).1 = false ∧
    LTexture.unlockTexture ⟨NULL, 0⟩ = (false, ⟨NULL, 0⟩) :=
  have h := lock_unlock_error_handling ⟨4096, 256⟩ ⟨0, 8192, 512⟩
  have h0 := lock_unlock_error_handling ⟨NULL, 0⟩ ⟨0, 8192, 512⟩
  ⟨h.1 (by decide), (h.2.2 (by decide)).1, (h.2.2 (by decide)).2.1, h0.2.1 rfl⟩

end Streaming

/-! ## Key events and joystick events -/

namespace DotInput

/-- Pressing and then releasing one key, both events with `repeat` = 0, restores the
velocity, for every value of `DOT_VEL`. -/
theorem handleEvent_down_up (V vx vy : Int) (k : Keycode) :
    handleEvent V (handleEvent V vx vy ⟨EventType.SDL_KEYDOWN, 0, k⟩).1
      (handleEvent V vx vy ⟨EventType.SDL_KEYDOWN, 0, k⟩).2 ⟨EventType.SDL_KEYUP, 0, k⟩
      = (vx, vy) := by
  cases k <;> simp [handleEvent]

end DotInput

/-- Claim C28: `Dot::handleEvent` key press and release cancel out.  For every velocity
(mVelX, mVelY) and each of the keys UP, DOWN, LEFT, RIGHT (and any other key), handling a
KEYDOWN event with repeat = 0 for that key followed by a KEYUP event with repeat = 0 for
the same key restores exactly the original velocity, and the original dot, in
`Pixel_Collision.cpp`, `Circular_Collision.cpp` and `Particle.cpp`. -/
theorem handleEvent_press_release_cancel (k : DotInput.Keycode) :
    (∀ d : PixelCollision.Dot,
      (d.handleEvent ⟨DotInput.EventType.SDL_KEYDOWN, 0, k⟩).handleEvent
        ⟨DotInput.EventType.SDL_KEYUP, 0, k⟩ = d) ∧
    (∀ d : CircularCollision.Dot,
      (d.handleEvent ⟨DotInput.EventType.SDL_KEYDOWN, 0, k⟩).handleEvent
        ⟨DotInput.EventType.SDL_KEYUP, 0, k⟩ = d) ∧
    (∀ d : ParticleEngine.Dot,
      (d.handleEvent ⟨DotInput.EventType.SDL_KEYDOWN, 0, k⟩).handleEvent
        ⟨DotInput.EventType.SDL_KEYUP, 0, k⟩ = d) ∧
    (∀ vx vy : Int,
      DotInput.handleEvent 1 vx vy ⟨DotInput.EventType.SDL_KEYDOWN, 0, DotInput.Keycode.SDLK_UP⟩
        = (vx, vy - 1) ∧
      DotInput.handleEvent 1 vx (vy - 1)
        ⟨DotInput.EventType.SDL_KEYUP, 0, DotInput.Keycode.SDLK_UP⟩ = (vx, vy)) := by
  refine ⟨fun d => ?_, fun d => ?_, fun d => ?_, fun vx vy => ?_⟩
  · have h := DotInput.handleEvent_down_up PixelCollision.DOT_VEL d.mVelX d.mVelY k
    simp only [PixelCollision.Dot.handleEvent, h]
  · have h := DotInput.handleEvent_down_up CircularCollision.DOT_VEL d.mVelX d.mVelY k
    simp only [CircularCollision.Dot.handleEvent, h]
  · have h := DotInput.handleEvent_down_up ParticleEngine.DOT_VEL d.mVelX d.mVelY k
    simp only [ParticleEngine.Dot.handleEvent, h]
  · simp [DotInput.handleEvent]

namespace Joystick

/-- Claim C29: joystick dead-zone normalisation.  For every axis-motion event on
controller 0 with value v (every integer, so every 16-bit one), the direction of the
reported axis (xDir for axis 0, yDir for axis 1) becomes -1 if v < -8000, 1 if v > 8000,
and 0 if -8000 <= v <= 8000, so it is always in {-1, 0, 1}; the direction of the other
axis is unchanged, and events from other controllers or other axes change neither. -/
theorem joystick_dead_zone (s : Input) (v : Int) :
    (handleEvent s (Event.SDL_JOYAXISMOTION 0 0 v)
      = { s with xDir := if v < -8000 then -1 else if v > 8000 then 1 else 0 }) ∧
    (handleEvent s (Event.SDL_JOYAXISMOTION 0 1 v)
      = { s with yDir := if v < -8000 then -1 else if v > 8000 then 1 else 0 }) ∧
    ((handleEvent s (Event.SDL_JOYAXISMOTION 0 0 v)).xDir = -1 ∨
      (handleEvent s (Event.SDL_JOYAXISMOTION 0 0 v)).xDir = 0 ∨
      (handleEvent s (Event.SDL_JOYAXISMOTION 0 0 v)).xDir = 1) ∧
    ((handleEvent s (Event.SDL_JOYAXISMOTION 0 1 v)).yDir = -1 ∨
      (handleEvent s (Event.SDL_JOYAXISMOTION 0 1 v)).yDir = 0 ∨
      (handleEvent s (Event.SDL_JOYAXISMOTION 0 1 v)).yDir = 1) ∧
    (-8000 ≤ v → v ≤ 8000 →
      (handleEvent s (Event.SDL_JOYAXISMOTION 0 0 v)).xDir = 0 ∧
      (handleEvent s (Event.SDL_JOYAXISMOTION 0 1 v)).yDir = 0) ∧
    (∀ which axis : Int, which ≠ 0 ∨ (axis ≠ 0 ∧ axis ≠ 1) →
      handleEvent s (Event.SDL_JOYAXISMOTION which axis v) = s) := by
  refine ⟨?_, ?_, ?_, ?_, ?_, ?_⟩
  · simp only [handleEvent, JOYSTICK_DEAD_ZONE, if_true]
    split_ifs <;> rfl
  · simp only [handleEvent, JOYSTICK_DEAD_ZONE, if_true]
    split_ifs <;> first | omega | rfl
  · simp only [handleEvent, JOYSTICK_DEAD_ZONE, if_true]
    split_ifs <;> simp
  · simp only [handleEvent, JOYSTICK_DEAD_ZONE, if_true]
    split_ifs <;> first | omega | simp
  · intro h1 h2
    simp only [handleEvent, JOYSTICK_DEAD_ZONE, if_true]
    split_ifs <;> first | omega | simp
  · intro which axis h
    simp only [handleEvent]
    split_ifs <;> first | omega | rfl

/-- From the state (xDir, yDir) = (0, 1): the value 9000 on axis 0 of controller 0 gives
xDir = 1 and leaves yDir; the value -8000, on the edge of the dead zone, gives yDir = 0 on
axis 1; an event of controller 1 changes nothing. -/
theorem joystick_dead_zone_witness :
    handleEvent ⟨false, 0, 1⟩ (Event.SDL_JOYAXISMOTION 0 0 9000) = ⟨false, 1, 1⟩ ∧
    (handleEvent ⟨false, 0, 1⟩ (Event.SDL_JOYAXISMOTION 0 1 (-8000))).yDir = 0 ∧
    handleEvent ⟨false, 0, 1⟩ (Event.SDL_JOYAXISMOTION 1 0 (-8000)) = ⟨false, 0, 1⟩ :=
  have h := joystick_dead_zone ⟨false, 0, 1⟩ (-8000)
  ⟨(joystick_dead_zone ⟨false, 0, 1⟩ 9000).1, (h.2.2.2.2.1 (by decide) (by decide)).2,
    h.2.2.2.2.2 1 0 (Or.inl (by decide))⟩

end Joystick

/-! ## The particle pool of `Particle.cpp` -/

namespace ParticleEngine

open CircularCollision (wrapInt32 inInt32)

end ParticleEngine

/-! ## The rectangle-set predicate in 32-bit arithmetic -/

namespace PixelCollision

open CircularCollision (wrapInt32 inInt32 wrapInt32_eq_self)

/-- When the sums of the boxes of `b` fit in 32 bits, the inner loop in 32-bit arithmetic
is the exact one. -/
theorem checkCollisionB32_eq (leftA rightA topA bottomA : Int) (b : List SDL_Rect)
    (hb : ∀ r ∈ b, sumsFit r) :
    checkCollisionB32 leftA rightA topA bottomA b
      = checkCollisionB leftA rightA topA bottomA b := by
  induction b with
  | nil => rfl
  | cons rb rest ih =>
    have h := hb rb (List.mem_cons_self _ _)
    simp only [checkCollisionB32, checkCollisionB, wrapInt32_eq_self _ h.1,
      wrapInt32_eq_self _ h.2, ih (fun r hr => hb r (List.mem_cons_of_mem _ hr))]

/-- When the sums of all boxes fit in 32 bits, `checkCollision` in 32-bit arithmetic is
the exact one. -/
theorem checkCollision32_eq (a b : List SDL_Rect)
    (ha : ∀ r ∈ a, sumsFit r) (hb : ∀ r ∈ b, sumsFit r) :
    checkCollision32 a b = checkCollision a b := by
  induction a with
  | nil => rfl
  | cons ra rest ih =>
    have h := ha ra (List.mem_cons_self _ _)
    simp only [checkCollision32, checkCollision, wrapInt32_eq_self _ h.1,
      wrapInt32_eq_self _ h.2, checkCollisionB32_eq _ _ _ _ b hb,
      ih (fun r hr => ha r (List.mem_cons_of_mem _ hr))]

/-- Claim C1 fails of the 32-bit code as stated: for a = (2147483647, 0, 1, 10) and
b = (2147483640, 0, 10, 10), both with fields that are `int` values, the sum
`rightA = 2147483647 + 1` wraps to -2147483648, the test `rightA <= leftB` succeeds and
`checkCollision` returns false, although the pair satisfies the negated disjunction of
the claim. -/
theorem checkCollision32_false_on_overflowing_pair :
    (isInt32Rect ⟨2147483647, 0, 1, 10⟩ ∧ isInt32Rect ⟨2147483640, 0, 10, 10⟩) ∧
    checkCollision32 [⟨2147483647, 0, 1, 10⟩] [⟨2147483640, 0, 10, 10⟩] = false ∧
    (∃ ra ∈ [(⟨2147483647, 0, 1, 10⟩ : SDL_Rect)],
      ∃ rb ∈ [(⟨2147483640, 0, 10, 10⟩ : SDL_Rect)],
        ¬ (ra.y + ra.h ≤ rb.y ∨ ra.y ≥ rb.y + rb.h ∨ ra.x + ra.w ≤ rb.x
          ∨ ra.x ≥ rb.x + rb.w)) := by
  refine ⟨⟨?_, ?_⟩, ?_, ?_⟩
  · unfold isInt32Rect inInt32; decide
  · unfold isInt32Rect inInt32; decide
  · decide
  · exact ⟨_, List.mem_singleton.2 rfl, _, List.mem_singleton.2 rfl, by decide⟩

/-- Claim C1, amended: for all finite rectangle sequences `a` and `b` in which no sum
x+w or y+h overflows a 32-bit `int`, `checkCollision( a, b )` returns true if and only if
some rectangle `ra` of `a` and some rectangle `rb` of `b` satisfy
NOT( ra.y+ra.h <= rb.y OR ra.y >= rb.y+rb.h OR ra.x+ra.w <= rb.x OR ra.x >= rb.x+rb.w ). -/
theorem checkCollision32_iff_exists_pair (a b : List SDL_Rect)
    (ha : ∀ r ∈ a, sumsFit r) (hb : ∀ r ∈ b, sumsFit r) :
    checkCollision32 a b = true ↔
      ∃ ra ∈ a, ∃ rb ∈ b,
        ¬ (ra.y + ra.h ≤ rb.y ∨ ra.y ≥ rb.y + rb.h ∨ ra.x + ra.w ≤ rb.x
          ∨ ra.x ≥ rb.x + rb.w) := by
  rw [checkCollision32_eq a b ha hb]
  exact checkCollision_iff_exists_pair a b

/-- Two boxes of a = [(0,0,10,10), (100,100,5,5)] and b = [(200,0,1,1), (102,103,10,10)]:
no sum overflows, the second box of `a` meets the second box of `b`, and the 32-bit
predicate is true. -/
theorem checkCollision32_iff_exists_pair_witness :
    (∀ r ∈ [(⟨0, 0, 10, 10⟩ : SDL_Rect), ⟨100, 100, 5, 5⟩], sumsFit r) ∧
    (∀ r ∈ [(⟨200, 0, 1, 1⟩ : SDL_Rect), ⟨102, 103, 10, 10⟩], sumsFit r) ∧
    checkCollision32 [⟨0, 0, 10, 10⟩, ⟨100, 100, 5, 5⟩]
      [⟨200, 0, 1, 1⟩, ⟨102, 103, 10, 10⟩] = true :=
  have ha : ∀ r ∈ [(⟨0, 0, 10, 10⟩ : SDL_Rect), ⟨100, 100, 5, 5⟩], sumsFit r := by
    intro r hr
    simp only [List.mem_cons, List.mem_singleton, List.not_mem_nil, or_false] at hr
    rcases hr with h | h <;> subst h <;> unfold sumsFit inInt32 <;> decide
  have hb : ∀ r ∈ [(⟨200, 0, 1, 1⟩ : SDL_Rect), ⟨102, 103, 10, 10⟩], sumsFit r := by
    intro r hr
    simp only [List.mem_cons, List.mem_singleton, List.not_mem_nil, or_false] at hr
    rcases hr with h | h <;> subst h <;> unfold sumsFit inInt32 <;> decide
  ⟨ha, hb, (checkCollision32_iff_exists_pair _ _ ha hb).2
    ⟨⟨100, 100, 5, 5⟩, by simp, ⟨102, 103, 10, 10⟩, by simp, by decide⟩⟩

/-- Claim C7 fails of the 32-bit code as stated: a = (2147483647, 0, 1, 10) and
b = (2147483640, 0, 10, 10) satisfy a.x < b.x+b.w, a.x+a.w > b.x, a.y < b.y+b.h and
a.y+a.h > b.y, yet `checkCollision( {a}, {b} )` returns false, because `rightA` wraps to
-2147483648. -/
theorem checkCollision32_proper_overlap_missed :
    ((2147483647 : Int) < 2147483640 + 10 ∧ (2147483647 : Int) + 1 > 2147483640 ∧
      (0 : Int) < 0 + 10 ∧ (0 : Int) + 10 > 0) ∧
    checkCollision32 [⟨2147483647, 0, 1, 10⟩] [⟨2147483640, 0, 10, 10⟩] = false := by
  decide

/-- Claim C7, amended: for rectangles `a` and `b` whose sums x+w and y+h do not overflow
a 32-bit `int`, with a.x < b.x+b.w, a.x+a.w > b.x, a.y < b.y+b.h and a.y+a.h > b.y
(proper overlap), `checkCollision( {a}, {b} )` is true. -/
theorem checkCollision32_proper_overlap (a b : SDL_Rect)
    (ha : sumsFit a) (hb : sumsFit b)
    (h1 : a.x < b.x + b.w) (h2 : a.x + a.w > b.x) (h3 : a.y < b.y + b.h)
    (h4 : a.y + a.h > b.y) :
    checkCollision32 [a] [b] = true := by
  rw [checkCollision32_eq [a] [b] (by simpa using ha) (by simpa using hb)]
  exact checkCollision_proper_overlap a b h1 h2 h3 h4

/-- The rectangles (0,0,10,10) and (5,5,10,10) overlap properly, their sums fit, and the
32-bit predicate is true. -/
theorem checkCollision32_proper_overlap_witness :
    (sumsFit ⟨0, 0, 10, 10⟩ ∧ sumsFit ⟨5, 5, 10, 10⟩) ∧
    ((0 : Int) < 5 + 10 ∧ (0 : Int) + 10 > 5 ∧ (0 : Int) < 5 + 10 ∧ (0 : Int) + 10 > 5) ∧
    checkCollision32 [⟨0, 0, 10, 10⟩] [⟨5, 5, 10, 10⟩] = true :=
  have ha : sumsFit ⟨0, 0, 10, 10⟩ := by unfold sumsFit inInt32; decide
  have hb : sumsFit ⟨5, 5, 10, 10⟩ := by unfold sumsFit inInt32; decide
  ⟨⟨ha, hb⟩, by decide, checkCollision32_proper_overlap ⟨0, 0, 10, 10⟩ ⟨5, 5, 10, 10⟩ ha hb
    (by decide) (by decide) (by decide) (by decide)⟩

end PixelCollision

/-! ## The circle/rectangle predicate in 32-bit arithmetic -/

namespace CircularCollision

/-- When no operation of the call overflows, the circle/rectangle predicate in 32-bit
arithmetic computes the same closest point and returns the same value as the exact one. -/
theorem checkCollisionRect32_eq (a : Circle) (b : SDL_Rect) (hfit : rectCallFits a b) :
    closestX32 a b = closestX a b ∧ closestY32 a b = closestY a b ∧
      distanceSquared32 a.x a.y (closestX a b) (closestY a b)
        = distanceSquared a.x a.y (closestX a b) (closestY a b) ∧
      checkCollisionRect32 a b = checkCollisionRect a b := by
  obtain ⟨f1, f2, f3, f4, f5, f6, f7, f8⟩ := hfit
  have cx : closestX32 a b = closestX a b := by
    simp only [closestX32, closestX, wrapInt32_eq_self _ f1]
  have cy : closestY32 a b = closestY a b := by
    simp only [closestY32, closestY, wrapInt32_eq_self _ f2]
  have hd : distanceSquared32 a.x a.y (closestX a b) (closestY a b)
      = distanceSquared a.x a.y (closestX a b) (closestY a b) := by
    simp only [distanceSquared] at f7
    simp only [distanceSquared32, distanceSquared, wrapInt32_eq_self _ f3,
      wrapInt32_eq_self _ f4, wrapInt32_eq_self _ f5, wrapInt32_eq_self _ f6,
      wrapInt32_eq_self _ f7]
  refine ⟨cx, cy, hd, ?_⟩
  simp only [checkCollisionRect32, checkCollisionRect, cx, cy, hd, wrapInt32_eq_self _ f8]

/-- Claim C3 fails of the 32-bit code as stated: for the circle (0,0,r=5) and the
rectangle (50000,0,1,1), with w, h >= 0 and all fields `int` values, the clamped point is
(50000, 0) and the squared distance 2500000000 is not below 25, but the code computes
50000*50000 in `int`, gets -1794967296 and returns true. -/
theorem checkCollisionRect32_true_far_away :
    (isInt32Circle ⟨0, 0, 5⟩ ∧ PixelCollision.isInt32Rect ⟨50000, 0, 1, 1⟩ ∧
      (0 : Int) ≤ 1 ∧ (0 : Int) ≤ 1) ∧
    checkCollisionRect32 ⟨0, 0, 5⟩ ⟨50000, 0, 1, 1⟩ = true ∧
    distanceSquared32 0 0 50000 0 = -1794967296 ∧
    ¬ (((0 : Int) - clampSpec 0 50000 (50000 + 1)) ^ 2
        + ((0 : Int) - clampSpec 0 0 (0 + 1)) ^ 2 < (5 : Int) ^ 2) := by
  refine ⟨⟨?_, ?_, by decide, by decide⟩, by decide, by decide, by decide⟩
  · unfold isInt32Circle inInt32; decide
  · unfold PixelCollision.isInt32Rect inInt32; decide

/-- Claim C3, amended: for every circle and every rectangle with w >= 0 and h >= 0 for
which no `int` operation of the call overflows, the circle/rectangle
`checkCollision( c, r )` returns true if and only if (c.x-cX)^2 + (c.y-cY)^2 < c.r^2,
where cX is c.x clamped to [r.x, r.x+r.w] and cY is c.y clamped to [r.y, r.y+r.h].  For
the circle (0,0,r=3) and the rectangle (5,5,10,10) the closest point is (5,5), the squared
distance 50 and the result false; with r=10 the result is true. -/
theorem checkCollisionRect32_iff_clamp (c : Circle) (r : SDL_Rect)
    (hw : 0 ≤ r.w) (hh : 0 ≤ r.h) (hfit : rectCallFits c r) :
    (checkCollisionRect32 c r = true ↔
      (c.x - clampSpec c.x r.x (r.x + r.w)) ^ 2 + (c.y - clampSpec c.y r.y (r.y + r.h)) ^ 2
        < c.r ^ 2) ∧
    (closestX32 c r = clampSpec c.x r.x (r.x + r.w) ∧
      closestY32 c r = clampSpec c.y r.y (r.y + r.h)) ∧
    (closestX32 ⟨0, 0, 3⟩ ⟨5, 5, 10, 10⟩ = 5 ∧ closestY32 ⟨0, 0, 3⟩ ⟨5, 5, 10, 10⟩ = 5 ∧
      distanceSquared32 0 0 5 5 = 50 ∧
      checkCollisionRect32 ⟨0, 0, 3⟩ ⟨5, 5, 10, 10⟩ = false ∧
      checkCollisionRect32 ⟨0, 0, 10⟩ ⟨5, 5, 10, 10⟩ = true) := by
  obtain ⟨cx, cy, -, hc⟩ := checkCollisionRect32_eq c r hfit
  refine ⟨?_, ⟨?_, ?_⟩, by decide⟩
  · rw [hc, checkCollisionRect_iff, closestX_eq_clampSpec c r hw, closestY_eq_clampSpec c r hh]
  · rw [cx, closestX_eq_clampSpec c r hw]
  · rw [cy, closestY_eq_clampSpec c r hh]

/-- The circle (12,20,r=4) lies to the right of the rectangle (5,5,4,30): no operation
overflows, the clamped point is (9,20), the squared distance 9 is smaller than 16, and the
32-bit predicate is true. -/
theorem checkCollisionRect32_iff_clamp_witness :
    ((0 : Int) ≤ 4 ∧ (0 : Int) ≤ 30 ∧ rectCallFits ⟨12, 20, 4⟩ ⟨5, 5, 4, 30⟩) ∧
    (checkCollisionRect32 ⟨12, 20, 4⟩ ⟨5, 5, 4, 30⟩ = true ↔
      ((12 : Int) - clampSpec 12 5 (5 + 4)) ^ 2 + ((20 : Int) - clampSpec 20 5 (5 + 30)) ^ 2
        < (4 : Int) ^ 2) ∧
    checkCollisionRect32 ⟨12, 20, 4⟩ ⟨5, 5, 4, 30⟩ = true :=
  have hfit : rectCallFits ⟨12, 20, 4⟩ ⟨5, 5, 4, 30⟩ := by
    unfold rectCallFits inInt32
    decide
  ⟨⟨by decide, by decide, hfit⟩,
   (checkCollisionRect32_iff_clamp ⟨12, 20, 4⟩ ⟨5, 5, 4, 30⟩ (by decide) (by decide) hfit).1,
   by decide⟩

/-- Claim C4 fails of the 32-bit code as stated: for the circle (0,0,r=5) and the
rectangle (50000,0,1,1) the predicate is true, although no point of the rectangle
[50000, 50001] x [0, 1] is at squared distance < 25 from the centre. -/
theorem checkCollisionRect32_true_without_near_point :
    ((0 : Int) ≤ 1 ∧ (0 : Int) ≤ 1) ∧
    checkCollisionRect32 ⟨0, 0, 5⟩ ⟨50000, 0, 1, 1⟩ = true ∧
    ¬ ∃ px py : Int, ((50000 : Int) ≤ px ∧ px ≤ 50000 + 1 ∧ (0 : Int) ≤ py ∧ py ≤ 0 + 1) ∧
      (px - 0) ^ 2 + (py - 0) ^ 2 < (5 : Int) ^ 2 := by
  refine ⟨by decide, by decide, ?_⟩
  rintro ⟨px, py, ⟨h1, h2, h3, h4⟩, h⟩
  nlinarith

/-- Claim C4, amended: in the circle/rectangle `checkCollision`, for a rectangle with
w, h >= 0 and a call in which no `int` operation overflows, the point (cX, cY) computed
by the if/else-if chains is the closest point of the rectangle to the circle centre: it
lies in the closed rectangle [r.x, r.x+r.w] x [r.y, r.y+r.h], its squared distance to the
centre is at most that of every point of the rectangle (with real coordinates, hence also
with integer ones), and the predicate is true if and only if some point of the rectangle
(equivalently: some point with integer coordinates) is at squared distance < c.r^2 from
the centre. -/
theorem checkCollisionRect32_closest_point (c : Circle) (r : SDL_Rect)
    (hw : 0 ≤ r.w) (hh : 0 ≤ r.h) (hfit : rectCallFits c r) :
    (r.x ≤ closestX32 c r ∧ closestX32 c r ≤ r.x + r.w ∧
      r.y ≤ closestY32 c r ∧ closestY32 c r ≤ r.y + r.h) ∧
    (∀ px py : ℝ, (r.x : ℝ) ≤ px → px ≤ (r.x : ℝ) + r.w → (r.y : ℝ) ≤ py →
      py ≤ (r.y : ℝ) + r.h →
      ((distanceSquared32 c.x c.y (closestX32 c r) (closestY32 c r) : Int) : ℝ)
        ≤ (px - c.x) ^ 2 + (py - c.y) ^ 2) ∧
    (∀ px py : Int, r.x ≤ px → px ≤ r.x + r.w → r.y ≤ py → py ≤ r.y + r.h →
      distanceSquared32 c.x c.y (closestX32 c r) (closestY32 c r)
        ≤ (px - c.x) ^ 2 + (py - c.y) ^ 2) ∧
    (checkCollisionRect32 c r = true ↔
      ∃ px py : ℝ, ((r.x : ℝ) ≤ px ∧ px ≤ (r.x : ℝ) + r.w ∧ (r.y : ℝ) ≤ py ∧
        py ≤ (r.y : ℝ) + r.h) ∧ (px - c.x) ^ 2 + (py - c.y) ^ 2 < (c.r : ℝ) ^ 2) ∧
    (checkCollisionRect32 c r = true ↔
      ∃ px py : Int, (r.x ≤ px ∧ px ≤ r.x + r.w ∧ r.y ≤ py ∧ py ≤ r.y + r.h) ∧
        (px - c.x) ^ 2 + (py - c.y) ^ 2 < c.r ^ 2) := by
  obtain ⟨cx, cy, hd, hc⟩ := checkCollisionRect32_eq c r hfit
  obtain ⟨h1, h2, h3, h4, h5⟩ := checkCollisionRect_closest_point c r hw hh
  rw [cx, cy, hd, hc]
  refine ⟨h1, h2, ?_, h4, h5⟩
  intro px py a1 a2 a3 a4
  have h := h3 px py a1 a2 a3 a4
  have e : distanceSquared c.x c.y px py = (px - c.x) ^ 2 + (py - c.y) ^ 2 := by
    simp only [distanceSquared]; ring
  rw [e] at h
  exact h

/-- For the circle (0,0,r=10) and the rectangle (5,5,10,10): no operation overflows, the
computed point (5,5) lies in the rectangle, is at most as far from the centre as the point
(7,9) of the rectangle, and makes the predicate true. -/
theorem checkCollisionRect32_closest_point_witness :
    ((0 : Int) ≤ 10 ∧ (0 : Int) ≤ 10 ∧ rectCallFits ⟨0, 0, 10⟩ ⟨5, 5, 10, 10⟩) ∧
    ((5 : Int) ≤ closestX32 ⟨0, 0, 10⟩ ⟨5, 5, 10, 10⟩ ∧
      closestX32 ⟨0, 0, 10⟩ ⟨5, 5, 10, 10⟩ ≤ 5 + 10 ∧
      (5 : Int) ≤ closestY32 ⟨0, 0, 10⟩ ⟨5, 5, 10, 10⟩ ∧
      closestY32 ⟨0, 0, 10⟩ ⟨5, 5, 10, 10⟩ ≤ 5 + 10) ∧
    distanceSquared32 0 0 (closestX32 ⟨0, 0, 10⟩ ⟨5, 5, 10, 10⟩)
      (closestY32 ⟨0, 0, 10⟩ ⟨5, 5, 10, 10⟩) ≤ ((7 : Int) - 0) ^ 2 + ((9 : Int) - 0) ^ 2 ∧
    checkCollisionRect32 ⟨0, 0, 10⟩ ⟨5, 5, 10, 10⟩ = true :=
  have hfit : rectCallFits ⟨0, 0, 10⟩ ⟨5, 5, 10, 10⟩ := by
    unfold rectCallFits inInt32
    decide
  have h := checkCollisionRect32_closest_point ⟨0, 0, 10⟩ ⟨5, 5, 10, 10⟩ (by decide)
    (by decide) hfit
  ⟨⟨by decide, by decide, hfit⟩, h.1,
   h.2.2.1 7 9 (by decide) (by decide) (by decide) (by decide),
   h.2.2.2.2.2 ⟨5, 5, by decide, by decide⟩⟩

/-- Claim C12 fails of the 32-bit code as stated: for the zero-radius circle (0,0,r=0)
and the rectangle (50000,0,1,1) the code compares -1794967296 < 0*0 and returns true. -/
theorem checkCollisionRect32_zero_radius_collides :
    (isInt32Circle ⟨0, 0, 0⟩ ∧ PixelCollision.isInt32Rect ⟨50000, 0, 1, 1⟩) ∧
    (⟨0, 0, 0⟩ : Circle).r = 0 ∧
    checkCollisionRect32 ⟨0, 0, 0⟩ ⟨50000, 0, 1, 1⟩ = true := by
  refine ⟨⟨?_, ?_⟩, rfl, by decide⟩
  · unfold isInt32Circle inInt32; decide
  · unfold PixelCollision.isInt32Rect inInt32; decide

/-- Claim C12, amended: a zero-radius circle does not collide with a rectangle when no
`int` operation of the call overflows.  For every circle `c` with c.r = 0 and every
rectangle `r`, also one that contains the centre of `c`, for which the sums, differences,
squares and their sum fit in 32 bits, the circle/rectangle `checkCollision( c, r )`
returns false. -/
theorem checkCollisionRect32_zero_radius (c : Circle) (r : SDL_Rect) (h0 : c.r = 0)
    (hfit : rectCallFits c r) :
    checkCollisionRect32 c r = false := by
  rw [(checkCollisionRect32_eq c r hfit).2.2.2]
  exact checkCollisionRect_zero_radius c r h0

/-- The zero-radius circle at (7,7) does not collide with the rectangle (5,5,10,10) that
contains its centre; no operation of the call overflows. -/
theorem checkCollisionRect32_zero_radius_witness :
    ((5 : Int) ≤ 7 ∧ (7 : Int) ≤ 5 + 10 ∧ rectCallFits ⟨7, 7, 0⟩ ⟨5, 5, 10, 10⟩) ∧
    checkCollisionRect32 ⟨7, 7, 0⟩ ⟨5, 5, 10, 10⟩ = false :=
  have hfit : rectCallFits ⟨7, 7, 0⟩ ⟨5, 5, 10, 10⟩ := by
    unfold rectCallFits inInt32
    decide
  ⟨⟨by decide, by decide, hfit⟩,
    checkCollisionRect32_zero_radius ⟨7, 7, 0⟩ ⟨5, 5, 10, 10⟩ rfl hfit⟩

end CircularCollision

/-! ## The pixel-collision `Dot` in 32-bit arithmetic: `shiftColliders` and `move` -/

namespace PixelCollision

open CircularCollision (wrapInt32 inInt32 wrapInt32_eq_self)

theorem shiftCollidersLoop32_eq_shape (px py : Int) (cs : List SDL_Rect) :
    ∀ r : Int, shiftCollidersLoop32 px py r cs
      = shiftShape32 px py r (cs.map fun c => (c.w, c.h)) := by
  induction cs with
  | nil => intro r; rfl
  | cons c rest ih =>
    intro r
    simp only [shiftCollidersLoop32, List.map_cons, shiftShape32, ih]

/-- The 32-bit loop on the shape of the constructor, with the closed subterms
evaluated. -/
theorem shiftShape32_dotShape (px py : Int) :
    shiftShape32 px py 0 dotShape =
      [⟨wrapInt32 (px + 7), wrapInt32 (py + 0), 6, 1⟩,
       ⟨wrapInt32 (px + 5), wrapInt32 (py + 1), 10, 1⟩,
       ⟨wrapInt32 (px + 3), wrapInt32 (py + 2), 14, 1⟩,
       ⟨wrapInt32 (px + 2), wrapInt32 (py + 3), 16, 2⟩,
       ⟨wrapInt32 (px + 1), wrapInt32 (py + 5), 18, 2⟩,
       ⟨wrapInt32 (px + 0), wrapInt32 (py + 7), 20, 6⟩,
       ⟨wrapInt32 (px + 1), wrapInt32 (py + 13), 18, 2⟩,
       ⟨wrapInt32 (px + 2), wrapInt32 (py + 15), 16, 2⟩,
       ⟨wrapInt32 (px + 3), wrapInt32 (py + 17), 14, 1⟩,
       ⟨wrapInt32 (px + 5), wrapInt32 (py + 18), 10, 1⟩,
       ⟨wrapInt32 (px + 7), wrapInt32 (py + 19), 6, 1⟩] := by
  rfl

/-- When the box of the dot at (px, py) fits in the `int` range, `shiftColliders` in
32-bit arithmetic puts a dot of the constructor's shape on its strips at (px, py). -/
theorem shiftCollidersLoop32_eq_dotStrips (px py : Int) (cs : List SDL_Rect)
    (hshape : (cs.map fun c => (c.w, c.h)) = dotShape) (hfit : boxFits px py) :
    shiftCollidersLoop32 px py 0 cs = dotStrips px py := by
  obtain ⟨⟨hx0, hx1⟩, ⟨hy0, hy1⟩⟩ := hfit
  unfold inInt32 at hx0 hx1 hy0 hy1
  have wx : ∀ k : Int, 0 ≤ k → k ≤ 20 → wrapInt32 (px + k) = px + k := fun k h0 h1 =>
    wrapInt32_eq_self _ (by unfold inInt32; omega)
  have wy : ∀ k : Int, 0 ≤ k → k ≤ 20 → wrapInt32 (py + k) = py + k := fun k h0 h1 =>
    wrapInt32_eq_self _ (by unfold inInt32; omega)
  have wpx : wrapInt32 px = px := wrapInt32_eq_self _ (by unfold inInt32; omega)
  have wpy : wrapInt32 py = py := wrapInt32_eq_self _ (by unfold inInt32; omega)
  rw [shiftCollidersLoop32_eq_shape, hshape, shiftShape32_dotShape]
  simp only [wpx, wpy, wx 0 (by decide) (by decide), wx 1 (by decide) (by decide),
    wx 2 (by decide) (by decide), wx 3 (by decide) (by decide),
    wx 5 (by decide) (by decide), wx 7 (by decide) (by decide),
    wy 0 (by decide) (by decide), wy 1 (by decide) (by decide),
    wy 2 (by decide) (by decide), wy 3 (by decide) (by decide),
    wy 5 (by decide) (by decide), wy 7 (by decide) (by decide),
    wy 13 (by decide) (by decide), wy 15 (by decide) (by decide),
    wy 17 (by decide) (by decide), wy 18 (by decide) (by decide),
    wy 19 (by decide) (by decide), dotStrips, add_zero]

/-- Every strip placed at (px, py) has positive width and height and lies in the box
[px, px+20] x [py, py+20]. -/
theorem dotStrips_in_box (px py : Int) :
    ∀ c ∈ dotStrips px py,
      1 ≤ c.w ∧ 1 ≤ c.h ∧ px ≤ c.x ∧ c.x + c.w ≤ px + 20 ∧ py ≤ c.y ∧ c.y + c.h ≤ py + 20 := by
  intro c hc
  simp only [dotStrips, List.mem_cons, List.mem_singleton, List.not_mem_nil, or_false] at hc
  rcases hc with h | h | h | h | h | h | h | h | h | h | h <;> subst h <;>
    refine ⟨?_, ?_, ?_, ?_, ?_, ?_⟩ <;> simp only <;> omega

/-- The sums of the strips of a dot whose box fits do not overflow. -/
theorem dotStrips_sumsFit (px py : Int) (hfit : boxFits px py) :
    ∀ c ∈ dotStrips px py, sumsFit c := by
  intro c hc
  obtain ⟨h1, h2, h3, h4, h5, h6⟩ := dotStrips_in_box px py c hc
  obtain ⟨⟨hx0, hx1⟩, ⟨hy0, hy1⟩⟩ := hfit
  unfold inInt32 at hx0 hx1 hy0 hy1
  unfold sumsFit inInt32
  omega

end PixelCollision

namespace PixelCollision

open CircularCollision (wrapInt32 inInt32 wrapInt32_eq_self)

/-- One call of `shiftColliders` in 32-bit arithmetic on a dot of the constructor's shape
whose box fits: the boxes become the strips at the position of the dot. -/
theorem shiftColliders32_mk (px py vx vy : Int) (cs : List SDL_Rect)
    (hshape : (cs.map fun c => (c.w, c.h)) = dotShape) (hfit : boxFits px py) :
    Dot.shiftColliders32 ⟨px, py, vx, vy, cs⟩ = ⟨px, py, vx, vy, dotStrips px py⟩ := by
  simp only [Dot.shiftColliders32, shiftCollidersLoop32_eq_dotStrips _ _ _ hshape hfit]

end PixelCollision

/-! ## The pixel-collision `Dot`: strips, per-axis move, valid states, bounding box -/

namespace PixelCollision

open CircularCollision (wrapInt32 inInt32 wrapInt32_eq_self)

/-- The boxes of a constructed dot have the constructor's widths and heights, wherever the
dot is placed: `shiftColliders` writes only `x` and `y`. -/
theorem new32_shape (x y : Int) :
    ((Dot.new32 x y).mColliders.map fun c => (c.w, c.h)) = dotShape := by
  rfl

/-- The boxes of a dot constructed where its box fits are the strips at its position. -/
theorem new32_mColliders (x y : Int) (hfit : boxFits x y) :
    (Dot.new32 x y).mColliders = dotStrips x y := by
  have h : Dot.new32 x y = Dot.shiftColliders32 ⟨x, y, 0, 0, (Dot.new32 0 0).mColliders⟩ := by
    simp only [Dot.new32, Dot.shiftColliders32, shiftCollidersLoop32_eq_shape]
    rfl
  rw [h, shiftColliders32_mk _ _ _ _ _ (new32_shape 0 0) hfit]

/-- Claim C23 as stated does not hold of the 32-bit code: for the dot constructed at
(2147483641, 0) the sum `mPosX + ( DOT_WIDTH - w ) / 2` of strip 0 is 2147483648, which is
no `int`; with wrap-around strip 0 has x = -2147483648 and w = 6, so x is not
X + (20 - w)/2 and the strip is not inside [X, X+20]. -/
theorem Dot_colliders32_overflow :
    ((Dot.new32 2147483641 0).mColliders.head?.map fun c => (c.x, c.w))
      = some (-2147483648, 6) ∧
    ¬ ((-2147483648 : Int) = 2147483641 + (20 - 6) / 2) ∧
    ¬ ((2147483641 : Int) ≤ -2147483648) := by
  decide

/-- Claim C23, for positions whose 20 x 20 box lies in the `int` range: the collider set
of the pixel-collision `Dot` is 11 stacked, horizontally centred strips.  After
construction at (X, Y), or after `shiftColliders` on a constructed dot put at (X, Y), the
boxes are the eleven strips written out in `dotStrips X Y`: strip 0 has y = Y, each strip
i+1 has y = (y of strip i) + (h of strip i), each strip has x = X + (20 - w)/2 with w even,
every strip has w >= 1 and h >= 1 and lies inside [X, X+20] x [Y, Y+20], and the heights
sum to exactly DOT_HEIGHT = 20. -/
theorem Dot_colliders32_are_strips (x0 y0 X Y : Int) (hfit : boxFits X Y)
    (cs : List SDL_Rect)
    (hcs : cs = (Dot.new32 X Y).mColliders ∨
      cs = (Dot.shiftColliders32 { Dot.new32 x0 y0 with mPosX := X, mPosY := Y }).mColliders) :
    cs = dotStrips X Y ∧
    cs.length = 11 ∧
    (cs.head?.map fun c => c.y) = some Y ∧
    List.Chain' (fun a b : SDL_Rect => b.y = a.y + a.h) cs ∧
    (∀ c ∈ cs,
      c.x = X + (20 - c.w) / 2 ∧ c.w % 2 = 0 ∧ 1 ≤ c.w ∧ 1 ≤ c.h ∧
      X ≤ c.x ∧ c.x + c.w ≤ X + 20 ∧ Y ≤ c.y ∧ c.y + c.h ≤ Y + 20) ∧
    (cs.map fun c => c.h).sum = DOT_HEIGHT := by
  have h : cs = dotStrips X Y := by
    rcases hcs with h | h
    · rw [h, new32_mColliders X Y hfit]
    · rw [h]
      have e : ({ Dot.new32 x0 y0 with mPosX := X, mPosY := Y } : Dot)
          = ⟨X, Y, (Dot.new32 x0 y0).mVelX, (Dot.new32 x0 y0).mVelY,
              (Dot.new32 x0 y0).mColliders⟩ := rfl
      rw [e, shiftColliders32_mk _ _ _ _ _ (new32_shape x0 y0) hfit]
  subst h
  refine ⟨rfl, rfl, rfl, ?_, ?_, ?_⟩
  · simp only [dotStrips, List.chain'_cons, List.chain'_singleton, and_true]
    refine ⟨trivial, ?_, ?_, ?_, ?_, ?_, ?_, ?_, ?_, ?_⟩ <;> omega
  · intro c hc
    obtain ⟨h1, h2, h3, h4, h5, h6⟩ := dotStrips_in_box X Y c hc
    refine ⟨?_, ?_, h1, h2, h3, h4, h5, h6⟩
    · simp only [dotStrips, List.mem_cons, List.mem_singleton, List.not_mem_nil,
        or_false] at hc
      rcases hc with h | h | h | h | h | h | h | h | h | h | h <;> subst h <;>
        simp only <;> omega
    · simp only [dotStrips, List.mem_cons, List.mem_singleton, List.not_mem_nil,
        or_false] at hc
      rcases hc with h | h | h | h | h | h | h | h | h | h | h <;> subst h <;>
        simp only <;> omega
  · simp only [dotStrips, List.map_cons, List.map_nil, List.sum_cons, List.sum_nil,
      DOT_HEIGHT]
    omega

/-- The dot constructed at (100, 50), and the dot constructed at (0, 0) and then put at
(100, 50) by `shiftColliders`: strip 0 is (107, 50, 6, 1) and the last strip is
(107, 69, 6, 1). -/
theorem Dot_colliders32_are_strips_witness :
    boxFits 100 50 ∧
    (Dot.new32 100 50).mColliders = dotStrips 100 50 ∧
    (Dot.shiftColliders32 { Dot.new32 0 0 with mPosX := 100, mPosY := 50 }).mColliders
      = dotStrips 100 50 ∧
    (dotStrips 100 50).head? = some ⟨107, 50, 6, 1⟩ ∧
    (dotStrips 100 50).getLast? = some ⟨107, 69, 6, 1⟩ :=
  have hfit : boxFits 100 50 := by
    unfold boxFits inInt32
    decide
  ⟨hfit, (Dot_colliders32_are_strips 0 0 100 50 hfit _ (Or.inl rfl)).1,
    (Dot_colliders32_are_strips 0 0 100 50 hfit _ (Or.inr rfl)).1, rfl, rfl⟩

/-- Claim C26 as stated does not hold of the 32-bit code: the boxes of the dot constructed
at (2147483645, 8) wrap around to the left end of the `int` range (strip 0 gets
x = -2147483644), where they meet the boxes of the dot constructed at (-2147483648, 0);
`checkCollision` is true while the positions differ by 4294967293 in x. -/
theorem checkCollision32_dots_far_apart :
    checkCollision32 (Dot.new32 2147483645 8).mColliders
      (Dot.new32 (-2147483648) 0).mColliders = true ∧
    ((Dot.new32 2147483645 8).mColliders.head?.map fun c => c.x) = some (-2147483644) ∧
    ¬ (|(2147483645 : Int) - (-2147483648)| < 20) := by
  decide

/-- Claim C26, for dots whose 20 x 20 boxes lie in the `int` range: pixel collision is
never coarser than the bounding box.  For two pixel-collision dots constructed at (x1, y1)
and (x2, y2), if `checkCollision( dot1.getColliders(), dot2.getColliders() )` is true then
their 20x20 bounding boxes overlap strictly: |x1 - x2| < 20 and |y1 - y2| < 20. -/
theorem checkCollision32_dots_within_boxes (x1 y1 x2 y2 : Int)
    (h1 : boxFits x1 y1) (h2 : boxFits x2 y2)
    (h : checkCollision32 (Dot.new32 x1 y1).mColliders (Dot.new32 x2 y2).mColliders = true) :
    |x1 - x2| < 20 ∧ |y1 - y2| < 20 := by
  rw [new32_mColliders x1 y1 h1, new32_mColliders x2 y2 h2,
    checkCollision32_eq _ _ (dotStrips_sumsFit x1 y1 h1) (dotStrips_sumsFit x2 y2 h2),
    checkCollision_iff_exists_single] at h
  obtain ⟨ra, hra, rb, hrb, hab⟩ := h
  obtain ⟨-, -, a3, a4, a5, a6⟩ := dotStrips_in_box x1 y1 ra hra
  obtain ⟨-, -, b3, b4, b5, b6⟩ := dotStrips_in_box x2 y2 rb hrb
  rw [checkCollision_single] at hab
  rw [abs_lt, abs_lt]
  omega

/-- The dots constructed at (0, 0) and (19, 4) collide (the widest strip of the first
meets strips of the second), and their positions differ by less than 20 in x and y. -/
theorem checkCollision32_dots_within_boxes_witness :
    checkCollision32 (Dot.new32 0 0).mColliders (Dot.new32 19 4).mColliders = true ∧
    (|(0 : Int) - 19| < 20 ∧ |(0 : Int) - 4| < 20) :=
  ⟨by decide, checkCollision32_dots_within_boxes 0 0 19 4
    (by unfold boxFits inInt32; decide) (by unfold boxFits inInt32; decide) (by decide)⟩

end PixelCollision

/-! ## `Dot::move` of the circular-collision program in 32-bit arithmetic -/

namespace CircularCollision

/-- Claim C22 as stated does not hold of the 32-bit code: the dot at (10, 10) with radius
10 and velocity (2147483630, 0) is valid against the wall (300, 40, 40, 400) and the
circle (160, 120, 10); in `move` the sum `mPosX + mCollider.r` is 2147483650, which is no
`int`, with wrap-around it is negative, no test fires and the dot stays at x = 2147483640,
off screen. -/
theorem Dot_move32_circle_leaves_screen :
    Dot.Valid32 { Dot.new 10 10 with mVelX := 2147483630 } ⟨300, 40, 40, 400⟩ ⟨160, 120, 10⟩ ∧
    (Dot.move32 { Dot.new 10 10 with mVelX := 2147483630 } ⟨300, 40, 40, 400⟩
      ⟨160, 120, 10⟩).mPosX = 2147483640 ∧
    ¬ Dot.Valid32 (Dot.move32 { Dot.new 10 10 with mVelX := 2147483630 } ⟨300, 40, 40, 400⟩
      ⟨160, 120, 10⟩) ⟨300, 40, 40, 400⟩ ⟨160, 120, 10⟩ := by
  refine ⟨?_, ?_, ?_⟩
  · unfold Dot.Valid32
    decide
  · decide
  · unfold Dot.Valid32
    decide

/-- The first half of `move` in 32-bit arithmetic when x is an `int` value and none of
x + vx, x + vx - r, x + vx + r overflows. -/
theorem circle_moveX32_eq (x y vx vy cx cy r : Int) (square : SDL_Rect) (circle : Circle)
    (fx : inInt32 x)
    (f1 : inInt32 (x + vx) ∧ inInt32 (x + vx - r) ∧ inInt32 (x + vx + r)) :
    Dot.moveX32 ⟨x, y, vx, vy, ⟨cx, cy, r⟩⟩ square circle
      = if x + vx - r < 0 ∨ x + vx + r > 640 ∨
            checkCollisionRect32 ⟨x + vx, y, r⟩ square = true ∨
            checkCollision32 ⟨x + vx, y, r⟩ circle = true then
          ⟨x, y, vx, vy, ⟨x, y, r⟩⟩
        else
          ⟨x + vx, y, vx, vy, ⟨x + vx, y, r⟩⟩ := by
  have e : wrapInt32 (x + vx - vx) = x := by
    rw [add_sub_cancel_right]
    exact wrapInt32_eq_self _ fx
  simp only [Dot.moveX32, Dot.shiftColliders, SCREEN_WIDTH, Bool.or_eq_true,
    decide_eq_true_eq, or_assoc, wrapInt32_eq_self _ f1.1, wrapInt32_eq_self _ f1.2.1,
    wrapInt32_eq_self _ f1.2.2, e]

/-- The second half of `move` in 32-bit arithmetic when y is an `int` value and none of
y + vy, y + vy - r, y + vy + r overflows. -/
theorem circle_moveY32_eq (x y vx vy cx cy r : Int) (square : SDL_Rect) (circle : Circle)
    (fy : inInt32 y)
    (f1 : inInt32 (y + vy) ∧ inInt32 (y + vy - r) ∧ inInt32 (y + vy + r)) :
    Dot.moveY32 ⟨x, y, vx, vy, ⟨cx, cy, r⟩⟩ square circle
      = if y + vy - r < 0 ∨ y + vy + r > 480 ∨
            checkCollisionRect32 ⟨x, y + vy, r⟩ square = true ∨
            checkCollision32 ⟨x, y + vy, r⟩ circle = true then
          ⟨x, y, vx, vy, ⟨x, y, r⟩⟩
        else
          ⟨x, y + vy, vx, vy, ⟨x, y + vy, r⟩⟩ := by
  have e : wrapInt32 (y + vy - vy) = y := by
    rw [add_sub_cancel_right]
    exact wrapInt32_eq_self _ fy
  simp only [Dot.moveY32, Dot.shiftColliders, SCREEN_HEIGHT, Bool.or_eq_true,
    decide_eq_true_eq, or_assoc, wrapInt32_eq_self _ f1.1, wrapInt32_eq_self _ f1.2.1,
    wrapInt32_eq_self _ f1.2.2, e]

/-- Claim C22, for a dot and a velocity with which no sum or difference computed by `move`
overflows: `Dot::move` of the circular-collision program preserves a valid state.  If
before the call mCollider = (mPosX, mPosY, r), mPosX-r >= 0, mPosX+r <= 640, mPosY-r >= 0,
mPosY+r <= 480, and the circle of the dot collides neither with the wall rectangle nor
with the other circle, then all of these hold after the call, with the same r, for every
wall and other circle. -/
theorem Dot_move32_preserves_valid_circle (d : Dot) (wall : SDL_Rect) (other : Circle)
    (hv : d.Valid32 wall other) (hfit : d.moveFits) :
    (d.move32 wall other).Valid32 wall other ∧
      (d.move32 wall other).mCollider.r = d.mCollider.r := by
  obtain ⟨x, y, vx, vy, ⟨cx, cy, r⟩⟩ := d
  obtain ⟨⟨hcx, hcy⟩, ⟨hx0, hx1, hy0, hy1⟩, hw, hc⟩ := hv
  obtain ⟨⟨fx, fy⟩, fx1, fy1⟩ := hfit
  simp only at hcx hcy hx0 hx1 hy0 hy1 hw hc fx fy fx1 fy1
  subst hcx hcy
  rw [Dot.move32, circle_moveX32_eq _ _ _ _ _ _ _ _ _ fx fx1]
  by_cases h1 : cx + vx - r < 0 ∨ cx + vx + r > 640 ∨
      checkCollisionRect32 ⟨cx + vx, cy, r⟩ wall = true ∨
      checkCollision32 ⟨cx + vx, cy, r⟩ other = true
  · rw [if_pos h1, circle_moveY32_eq _ _ _ _ _ _ _ _ _ fy fy1]
    by_cases h2 : cy + vy - r < 0 ∨ cy + vy + r > 480 ∨
        checkCollisionRect32 ⟨cx, cy + vy, r⟩ wall = true ∨
        checkCollision32 ⟨cx, cy + vy, r⟩ other = true
    · rw [if_pos h2]
      exact ⟨⟨⟨rfl, rfl⟩, ⟨hx0, hx1, hy0, hy1⟩, hw, hc⟩, rfl⟩
    · rw [if_neg h2]
      simp only [not_or, not_lt, Bool.not_eq_true] at h2
      exact ⟨⟨⟨rfl, rfl⟩, ⟨hx0, hx1, by simp only; omega, by simp only; omega⟩,
        h2.2.2.1, h2.2.2.2⟩, rfl⟩
  · rw [if_neg h1, circle_moveY32_eq _ _ _ _ _ _ _ _ _ fy fy1]
    simp only [not_or, not_lt, Bool.not_eq_true] at h1
    by_cases h2 : cy + vy - r < 0 ∨ cy + vy + r > 480 ∨
        checkCollisionRect32 ⟨cx + vx, cy + vy, r⟩ wall = true ∨
        checkCollision32 ⟨cx + vx, cy + vy, r⟩ other = true
    · rw [if_pos h2]
      exact ⟨⟨⟨rfl, rfl⟩, ⟨by simp only; omega, by simp only; omega, hy0, hy1⟩,
        h1.2.2.1, h1.2.2.2⟩, rfl⟩
    · rw [if_neg h2]
      simp only [not_or, not_lt, Bool.not_eq_true] at h2
      exact ⟨⟨⟨rfl, rfl⟩, ⟨by simp only; omega, by simp only; omega, by simp only; omega,
        by simp only; omega⟩, h2.2.2.1, h2.2.2.2⟩, rfl⟩

/-- The dot constructed at (290, 100) with velocity (1, 1) is valid against the wall
(300, 40, 40, 400) and the circle of the dot constructed at (160, 120); `move` takes it to
(290, 101), the step to the right being reverted because the circle would overlap the wall. -/
theorem Dot_move32_preserves_valid_circle_witness :
    Dot.Valid32 { Dot.new 290 100 with mVelX := 1, mVelY := 1 } ⟨300, 40, 40, 400⟩
      (Dot.new 160 120).mCollider ∧
    Dot.moveFits { Dot.new 290 100 with mVelX := 1, mVelY := 1 } ∧
    Dot.Valid32 (Dot.move32 { Dot.new 290 100 with mVelX := 1, mVelY := 1 }
      ⟨300, 40, 40, 400⟩ (Dot.new 160 120).mCollider) ⟨300, 40, 40, 400⟩
      (Dot.new 160 120).mCollider ∧
    ((Dot.move32 { Dot.new 290 100 with mVelX := 1, mVelY := 1 } ⟨300, 40, 40, 400⟩
      (Dot.new 160 120).mCollider).mPosX = 290 ∧
     (Dot.move32 { Dot.new 290 100 with mVelX := 1, mVelY := 1 } ⟨300, 40, 40, 400⟩
      (Dot.new 160 120).mCollider).mPosY = 101) :=
  have h : Dot.Valid32 { Dot.new 290 100 with mVelX := 1, mVelY := 1 } ⟨300, 40, 40, 400⟩
      (Dot.new 160 120).mCollider := by
    unfold Dot.Valid32
    decide
  have hf : Dot.moveFits { Dot.new 290 100 with mVelX := 1, mVelY := 1 } := by
    unfold Dot.moveFits inInt32
    decide
  ⟨h, hf, (Dot_move32_preserves_valid_circle _ _ _ h hf).1, by decide⟩

end CircularCollision

/-! ## Every acquire is followed by one release -/

namespace Sync

/-- A log that passes the scan of the lock discipline has as many acquires of `t` as
releases of `t`, plus one while `t` holds the lock. -/
theorem discipline_count {T : Type} [DecidableEq T] (t : T) (log : List (T × Op)) :
    ∀ held : Bool, discipline t log = some held →
      log.count (t, Op.acquire) = log.count (t, Op.release) + (if held then 1 else 0) := by
  induction log using List.reverseRecOn with
  | nil =>
    intro held h
    simp only [discipline, List.foldl_nil, Option.some.injEq] at h
    subst h
    rfl
  | append_singleton log e ih =>
    intro held h
    obtain ⟨u, op⟩ := e
    simp only [discipline, List.foldl_append, List.foldl_cons, List.foldl_nil] at h
    cases hprev : List.foldl (disciplineStep t) (some false) log with
    | none =>
      rw [hprev] at h
      simp [disciplineStep] at h
    | some held0 =>
      rw [hprev] at h
      have ih0 := ih held0 hprev
      simp only [List.count_append, List.count_singleton]
      by_cases hu : u = t
      · subst hu
        cases op <;> cases held0 <;> cases held <;>
          simp [disciplineStep] at h ih0 ⊢ <;> omega
      · have h1 : ((u, op) == (t, Op.acquire)) = false := by
          simp [hu]
        have h2 : ((u, op) == (t, Op.release)) = false := by
          simp [hu]
        simp only [disciplineStep, if_neg hu, Option.some.injEq] at h
        subst h
        simp only [h1, h2, Bool.false_eq_true, if_false, add_zero]
        exact ih0

end Sync

namespace Semaphores

/-- A step of worker `u` appends operations of `u` to the log. -/
theorem workers_step_log (N : Nat) (rnd : Tid → Nat → Int) (s s1 : State) (u : Tid)
    (h : step N rnd s u = some s1) :
    ∃ op : Sync.Op, s1.log = s.log ++ [(u, op)] := by
  unfold step at h
  cases u <;> simp only [State.thread] at h <;> split at h <;>
    first
      | (split_ifs at h
         simp only [Option.some.injEq] at h
         subst h
         exact ⟨_, rfl⟩)
      | (simp only [Option.some.injEq] at h
         subst h
         exact ⟨_, rfl⟩)

end Semaphores

namespace Semaphores

/-- A step of a worker that holds the semaphore is enabled; it is `SDL_SemPost`, which
logs one release and leaves the worker not holding, or it logs no release, keeps the worker
holding and brings it one statement closer to `SDL_SemPost`. -/
theorem workers_own_step (N : Nat) (rnd : Tid → Nat → Int) (s : State) (t : Tid)
    (h : (s.thread t).pc.holding = true) :
    ∃ s1, step N rnd s t = some s1 ∧
      (((s.thread t).pc.toRelease = 1 ∧ (s1.thread t).pc.holding = false ∧
          s1.log.count (t, Sync.Op.release) = s.log.count (t, Sync.Op.release) + 1) ∨
       ((s1.thread t).pc.toRelease + 1 = (s.thread t).pc.toRelease ∧
          (s1.thread t).pc.holding = true ∧
          s1.log.count (t, Sync.Op.release) = s.log.count (t, Sync.Op.release))) := by
  obtain ⟨gData, sem, ⟨pcA, iA⟩, ⟨pcB, iB⟩, log⟩ := s
  cases t
  · cases pcA <;> simp only [State.thread, PC.holding, Bool.false_eq_true] at h <;>
      simp [step, State.thread, State.setThread, PC.holding, PC.toRelease,
        List.count_append, List.count_singleton]
  · cases pcB <;> simp only [State.thread, PC.holding, Bool.false_eq_true] at h <;>
      simp [step, State.thread, State.setThread, PC.holding, PC.toRelease,
        List.count_append, List.count_singleton]

/-- A step of another worker leaves the record of worker `t` and its operations in the log
as they are. -/
theorem workers_other_step (N : Nat) (rnd : Tid → Nat → Int) (s s1 : State) (t u : Tid)
    (hne : u ≠ t) (h : step N rnd s u = some s1) (op : Sync.Op) :
    s1.thread t = s.thread t ∧ s1.log.count (t, op) = s.log.count (t, op) := by
  obtain ⟨op1, hlog⟩ := workers_step_log N rnd s s1 u h
  refine ⟨?_, ?_⟩
  · unfold step at h
    cases u <;> cases t <;> first | exact absurd rfl hne | skip
    all_goals
      simp only [State.thread] at h ⊢
      split at h <;>
        first
          | (split_ifs at h
             simp only [Option.some.injEq] at h
             subst h
             rfl)
          | (simp only [Option.some.injEq] at h
             subst h
             rfl)
  · rw [hlog, List.count_append, List.count_singleton]
    have : ((u, op1) == (t, op)) = false := by simp [hne]
    simp [this]

/-- The number of releases of `t` in the log never decreases along a run. -/
theorem workers_run_count_mono (N : Nat) (rnd : Tid → Nat → Int) (t : Tid) (op : Sync.Op)
    (sched : List Tid) :
    ∀ s s1 : State, run N rnd s sched = some s1 →
      s.log.count (t, op) ≤ s1.log.count (t, op) := by
  induction sched with
  | nil =>
    intro s s1 h
    simp only [run, Option.some.injEq] at h
    subst h
    exact le_rfl
  | cons u rest ih =>
    intro s s1 h
    simp only [run] at h
    cases hstep : step N rnd s u with
    | none =>
      rw [hstep] at h
      exact absurd h (by simp)
    | some s2 =>
      rw [hstep] at h
      obtain ⟨op1, hlog⟩ := workers_step_log N rnd s s2 u hstep
      have := ih s2 s1 h
      rw [hlog, List.count_append] at this
      omega

/-- On every interleaving from a state in which worker `t` holds the semaphore, once `t`
has executed as many statements as separate it from the end of `SDL_SemPost`, the log has
one more release of `t`. -/
theorem workers_release_follows (N : Nat) (rnd : Tid → Nat → Int) (t : Tid)
    (sched : List Tid) :
    ∀ s s1 : State, (s.thread t).pc.holding = true → run N rnd s sched = some s1 →
      (s.thread t).pc.toRelease ≤ sched.count t →
      s.log.count (t, Sync.Op.release) < s1.log.count (t, Sync.Op.release) := by
  induction sched with
  | nil =>
    intro s s1 hh _ hc
    exfalso
    revert hh hc
    cases (s.thread t).pc <;> simp [PC.holding, PC.toRelease]
  | cons u rest ih =>
    intro s s1 hh h hc
    simp only [run] at h
    cases hstep : step N rnd s u with
    | none =>
      rw [hstep] at h
      exact absurd h (by simp)
    | some s2 =>
      rw [hstep] at h
      by_cases hu : u = t
      · subst hu
        obtain ⟨s3, h3, hcase⟩ := workers_own_step N rnd s u hh
        rw [hstep, Option.some.injEq] at h3
        subst h3
        rcases hcase with ⟨-, -, hcount⟩ | ⟨hrel, hhold, hcount⟩
        · have := workers_run_count_mono N rnd u Sync.Op.release rest s2 s1 h
          omega
        · have hc2 : (s2.thread u).pc.toRelease ≤ rest.count u := by
            rw [List.count_cons_self] at hc
            omega
          have := ih s2 s1 hhold h hc2
          omega
      · obtain ⟨hth, hcount⟩ := workers_other_step N rnd s s2 t u hu hstep Sync.Op.release
        have hc2 : (s2.thread t).pc.toRelease ≤ rest.count t := by
          rw [List.count_cons_of_ne (Ne.symm hu)] at hc
          rw [hth]
          exact hc
        have := ih s2 s1 (by rw [hth]; exact hh) h hc2
        omega

/-- A worker that holds the semaphore and runs on its own reaches the end of `SDL_SemPost`
within `n` statements, `n` bounding its distance from there: it then holds nothing and the
log has exactly one more release of it. -/
theorem workers_release_reached (N : Nat) (rnd : Tid → Nat → Int) (t : Tid) :
    ∀ (n : Nat) (s : State), (s.thread t).pc.holding = true →
      (s.thread t).pc.toRelease ≤ n →
      ∃ k ≤ n, ∃ s1, run N rnd s (List.replicate k t) = some s1 ∧
        (s1.thread t).pc.holding = false ∧
        s1.log.count (t, Sync.Op.release) = s.log.count (t, Sync.Op.release) + 1 := by
  intro n
  induction n with
  | zero =>
    intro s hh hn
    exfalso
    revert hh hn
    cases (s.thread t).pc <;> simp [PC.holding, PC.toRelease]
  | succ n ih =>
    intro s hh hn
    obtain ⟨s2, hstep, hcase⟩ := workers_own_step N rnd s t hh
    rcases hcase with ⟨-, hhold, hcount⟩ | ⟨hrel, hhold, hcount⟩
    · refine ⟨1, by omega, s2, ?_, hhold, hcount⟩
      simp only [List.replicate, run, hstep]
    · obtain ⟨k, hk, s1, hrun, hhold1, hcount1⟩ := ih s2 hhold (by omega)
      refine ⟨k + 1, by omega, s1, ?_, hhold1, by omega⟩
      simp only [List.replicate, run, hstep]
      exact hrun

end Semaphores

namespace Mutexes

/-- A step of thread `u` appends only operations of `u` to the log. -/
theorem step_log (N : Nat) (rnd : Nat → Int) (s s1 : State) (u : Tid)
    (h : step N rnd s u = some s1) :
    ∃ ops : List (Tid × Sync.Op), s1.log = s.log ++ ops ∧ ∀ e ∈ ops, e.1 = u := by
  obtain ⟨gData, owner, ⟨ppc, pi⟩, ⟨cpc, ci⟩, produced, consumed, log⟩ := s
  cases u
  · cases ppc <;> simp only [step, stepProducer] at h <;> (try split_ifs at h) <;>
      cases h <;>
      first
        | (refine ⟨_, rfl, ?_⟩
           simp)
        | (refine ⟨[], ?_, ?_⟩ <;> simp)
  · cases cpc <;> simp only [step, stepConsumer] at h <;> (try split_ifs at h) <;>
      cases h <;>
      first
        | (refine ⟨_, rfl, ?_⟩
           simp)
        | (refine ⟨[], ?_, ?_⟩ <;> simp)

/-- Operations of another thread do not count for `t`. -/
theorem count_other {T : Type} [DecidableEq T] (t u : T) (hne : u ≠ t) (op : Sync.Op)
    (ops : List (T × Sync.Op)) (h : ∀ e ∈ ops, e.1 = u) : ops.count (t, op) = 0 := by
  rw [List.count_eq_zero]
  intro hmem
  exact hne (h _ hmem).symm

/-- A step of a thread that holds the mutex is enabled; it is a release (in
`SDL_CondWait` or `SDL_UnlockMutex`), which logs one release and leaves the thread not
holding, or it logs no release, keeps the thread holding and brings it closer to the
release. -/
theorem own_step (N : Nat) (rnd : Nat → Int) (s : State) (t : Tid)
    (h : (s.thread t).pc.holding = true) :
    ∃ s1, step N rnd s t = some s1 ∧
      (((s1.thread t).pc.holding = false ∧
          s1.log.count (t, Sync.Op.release) = s.log.count (t, Sync.Op.release) + 1) ∨
       ((s1.thread t).pc.toRelease + 1 ≤ (s.thread t).pc.toRelease ∧
          (s1.thread t).pc.holding = true ∧
          s1.log.count (t, Sync.Op.release) = s.log.count (t, Sync.Op.release))) := by
  obtain ⟨gData, owner, ⟨ppc, pi⟩, ⟨cpc, ci⟩, produced, consumed, log⟩ := s
  cases t
  · cases ppc <;> simp only [State.thread, PC.holding, Bool.false_eq_true] at h
    · simp only [step, stepProducer, State.thread]
      by_cases hg : gData ≠ -1 <;>
        simp [hg, PC.holding, PC.toRelease, List.count_append, List.count_singleton]
    all_goals
      simp [step, stepProducer, State.thread, PC.holding, PC.toRelease,
        List.count_append, List.count_singleton, List.count_cons]
  · cases cpc <;> simp only [State.thread, PC.holding, Bool.false_eq_true] at h
    · simp only [step, stepConsumer, State.thread]
      by_cases hg : gData = -1 <;>
        simp [hg, PC.holding, PC.toRelease, List.count_append, List.count_singleton]
    all_goals
      simp [step, stepConsumer, State.thread, PC.holding, PC.toRelease,
        List.count_append, List.count_singleton, List.count_cons]

/-- A step of the other thread leaves the record of a thread `t` that holds the mutex and
its operations in the log as they are. -/
theorem other_step (N : Nat) (rnd : Nat → Int) (s s1 : State) (t u : Tid)
    (hne : u ≠ t) (hh : (s.thread t).pc.holding = true) (h : step N rnd s u = some s1)
    (op : Sync.Op) :
    s1.thread t = s.thread t ∧ s1.log.count (t, op) = s.log.count (t, op) := by
  obtain ⟨ops, hlog, hops⟩ := step_log N rnd s s1 u h
  refine ⟨?_, ?_⟩
  · obtain ⟨gData, owner, ⟨ppc, pi⟩, ⟨cpc, ci⟩, produced, consumed, log⟩ := s
    cases u <;> cases t <;> first | exact absurd rfl hne | skip
    · have hw : cpc ≠ PC.waiting := by
        intro hc
        simp only [State.thread, hc] at hh
        exact absurd hh (by decide)
      cases ppc <;> simp only [step, stepProducer] at h <;> (try split_ifs at h) <;>
        cases h <;>
        first
          | rfl
          | contradiction
    · have hw : ppc ≠ PC.waiting := by
        intro hc
        simp only [State.thread, hc] at hh
        exact absurd hh (by decide)
      cases cpc <;> simp only [step, stepConsumer] at h <;> (try split_ifs at h) <;>
        cases h <;>
        first
          | rfl
          | contradiction
  · rw [hlog, List.count_append, count_other t u hne op ops hops, add_zero]

/-- The number of operations `op` of `t` in the log never decreases along a run. -/
theorem run_count_mono (N : Nat) (rnd : Nat → Int) (t : Tid) (op : Sync.Op)
    (sched : List Tid) :
    ∀ s s1 : State, run N rnd s sched = some s1 →
      s.log.count (t, op) ≤ s1.log.count (t, op) := by
  induction sched with
  | nil =>
    intro s s1 h
    simp only [run, Option.some.injEq] at h
    subst h
    exact le_rfl
  | cons u rest ih =>
    intro s s1 h
    simp only [run] at h
    cases hstep : step N rnd s u with
    | none =>
      rw [hstep] at h
      exact absurd h (by simp)
    | some s2 =>
      rw [hstep] at h
      obtain ⟨ops, hlog, -⟩ := step_log N rnd s s2 u hstep
      have := ih s2 s1 h
      rw [hlog, List.count_append] at this
      omega

/-- On every interleaving from a state in which thread `t` holds the mutex, once `t` has
executed as many statements as can separate it from its release, the log has one more
release of `t`. -/
theorem release_follows (N : Nat) (rnd : Nat → Int) (t : Tid) (sched : List Tid) :
    ∀ s s1 : State, (s.thread t).pc.holding = true → run N rnd s sched = some s1 →
      (s.thread t).pc.toRelease ≤ sched.count t →
      s.log.count (t, Sync.Op.release) < s1.log.count (t, Sync.Op.release) := by
  induction sched with
  | nil =>
    intro s s1 hh _ hc
    exfalso
    revert hh hc
    cases (s.thread t).pc <;> simp [PC.holding, PC.toRelease]
  | cons u rest ih =>
    intro s s1 hh h hc
    simp only [run] at h
    cases hstep : step N rnd s u with
    | none =>
      rw [hstep] at h
      exact absurd h (by simp)
    | some s2 =>
      rw [hstep] at h
      by_cases hu : u = t
      · subst hu
        obtain ⟨s3, h3, hcase⟩ := own_step N rnd s u hh
        rw [hstep, Option.some.injEq] at h3
        subst h3
        rcases hcase with ⟨-, hcount⟩ | ⟨hrel, hhold, hcount⟩
        · have := run_count_mono N rnd u Sync.Op.release rest s2 s1 h
          omega
        · have hc2 : (s2.thread u).pc.toRelease ≤ rest.count u := by
            rw [List.count_cons_self] at hc
            omega
          have := ih s2 s1 hhold h hc2
          omega
      · obtain ⟨hth, hcount⟩ := other_step N rnd s s2 t u hu hh hstep Sync.Op.release
        have hc2 : (s2.thread t).pc.toRelease ≤ rest.count t := by
          rw [List.count_cons_of_ne (Ne.symm hu)] at hc
          rw [hth]
          exact hc
        have := ih s2 s1 (by rw [hth]; exact hh) h hc2
        omega

/-- A thread that holds the mutex and runs on its own reaches its release within `n`
statements, `n` bounding its distance from there: it then holds nothing and the log has
exactly one more release of it. -/
theorem release_reached (N : Nat) (rnd : Nat → Int) (t : Tid) :
    ∀ (n : Nat) (s : State), (s.thread t).pc.holding = true →
      (s.thread t).pc.toRelease ≤ n →
      ∃ k ≤ n, ∃ s1, run N rnd s (List.replicate k t) = some s1 ∧
        (s1.thread t).pc.holding = false ∧
        s1.log.count (t, Sync.Op.release) = s.log.count (t, Sync.Op.release) + 1 := by
  intro n
  induction n with
  | zero =>
    intro s hh hn
    exfalso
    revert hh hn
    cases (s.thread t).pc <;> simp [PC.holding, PC.toRelease]
  | succ n ih =>
    intro s hh hn
    obtain ⟨s2, hstep, hcase⟩ := own_step N rnd s t hh
    rcases hcase with ⟨hhold, hcount⟩ | ⟨hrel, hhold, hcount⟩
    · refine ⟨1, by omega, s2, ?_, hhold, hcount⟩
      simp only [List.replicate, run, hstep]
    · obtain ⟨k, hk, s1, hrun, hhold1, hcount1⟩ := ih s2 hhold (by omega)
      refine ⟨k + 1, by omega, s1, ?_, hhold1, by omega⟩
      simp only [List.replicate, run, hstep]
      exact hrun

end Mutexes

/-- Claim C18: the shared slot is accessed only under its lock, and each acquire is
followed by exactly one release.  In every state the machine of `Mutexes.cpp` reaches, the
log of each thread passes the scan of the lock discipline (every read and write of `gData`
while the thread holds `gBufferLock`, acquires and releases alternating, starting with an
acquire), the thread holds the mutex exactly at the statements from the `if` to
`SDL_UnlockMutex`, where its next step is always enabled, and so holds nothing at the top
of its loop and after it; the log has as many acquires of the thread as releases, plus one
while it holds the mutex; and a thread that holds the mutex releases it: running on its
own it reaches, within 3 statements, a state where it holds nothing and the log has
exactly one more release of it, and on every interleaving the log has a further release of
it once it has executed 3 statements.  The same holds of the workers of `Semaphores.cpp`
with `SDL_SemWait` and `SDL_SemPost` on `gDataLock`, with 4 statements, whose value and
number of holders add up to 1. -/
theorem gData_accessed_under_lock
    (N : Nat) (rnd : Nat → Int) (s : Mutexes.State) (hs : Mutexes.Reachable N rnd s)
    (M : Nat) (rndW : Semaphores.Tid → Nat → Int) (w : Semaphores.State)
    (hw : Semaphores.Reachable M rndW w) :
    (∀ t : Mutexes.Tid,
      Sync.discipline t s.log = some (s.thread t).pc.holding ∧
      (s.owner = some t ↔ (s.thread t).pc.holding = true) ∧
      ((s.thread t).pc.holding = true → (Mutexes.step N rnd s t).isSome = true) ∧
      ((s.thread t).pc = Mutexes.PC.lock → Sync.discipline t s.log = some false) ∧
      s.log.count (t, Sync.Op.acquire)
        = s.log.count (t, Sync.Op.release) + (if (s.thread t).pc.holding then 1 else 0) ∧
      ((s.thread t).pc.holding = true →
        (∃ k ≤ 3, ∃ s1, Mutexes.run N rnd s (List.replicate k t) = some s1 ∧
          (s1.thread t).pc.holding = false ∧
          s1.log.count (t, Sync.Op.release) = s.log.count (t, Sync.Op.release) + 1) ∧
        (∀ (sched : List Mutexes.Tid) (s1 : Mutexes.State),
          Mutexes.run N rnd s sched = some s1 → 3 ≤ sched.count t →
          s.log.count (t, Sync.Op.release) < s1.log.count (t, Sync.Op.release)))) ∧
    (∀ t : Semaphores.Tid,
      Sync.discipline t w.log = some (w.thread t).pc.holding ∧
      ((w.thread t).pc.holding = true → (Semaphores.step M rndW w t).isSome = true) ∧
      ((w.thread t).pc = Semaphores.PC.semWait → Sync.discipline t w.log = some false) ∧
      w.log.count (t, Sync.Op.acquire)
        = w.log.count (t, Sync.Op.release) + (if (w.thread t).pc.holding then 1 else 0) ∧
      ((w.thread t).pc.holding = true →
        (∃ k ≤ 4, ∃ w1, Semaphores.run M rndW w (List.replicate k t) = some w1 ∧
          (w1.thread t).pc.holding = false ∧
          w1.log.count (t, Sync.Op.release) = w.log.count (t, Sync.Op.release) + 1) ∧
        (∀ (sched : List Semaphores.Tid) (w1 : Semaphores.State),
          Semaphores.run M rndW w sched = some w1 → 4 ≤ sched.count t →
          w.log.count (t, Sync.Op.release) < w1.log.count (t, Sync.Op.release)))) ∧
    w.sem + (if w.threadA.pc.holding then 1 else 0)
      + (if w.threadB.pc.holding then 1 else 0) = 1 := by
  have hI := Mutexes.inv_reachable N rnd s hs
  have hJ := Semaphores.workers_inv_reachable M rndW w hw
  have hlogM : ∀ t : Mutexes.Tid, Sync.discipline t s.log = some (s.thread t).pc.holding := by
    intro t
    cases t
    · exact hI.logP
    · exact hI.logC
  have hownM : ∀ t : Mutexes.Tid, (s.owner = some t ↔ (s.thread t).pc.holding = true) := by
    intro t
    cases t
    · exact hI.ownP
    · exact hI.ownC
  have hlogS : ∀ t : Semaphores.Tid,
      Sync.discipline t w.log = some (w.thread t).pc.holding := by
    intro t
    cases t
    · exact hJ.logA
    · exact hJ.logB
  have h3 : ∀ pc : Mutexes.PC, pc.toRelease ≤ 3 := by
    intro pc
    cases pc <;> decide
  have h4 : ∀ pc : Semaphores.PC, pc.toRelease ≤ 4 := by
    intro pc
    cases pc <;> decide
  refine ⟨fun t => ⟨hlogM t, hownM t, Mutexes.holding_enabled N rnd s t, fun h => ?_,
      Sync.discipline_count t s.log _ (hlogM t), fun hh => ⟨?_, fun sched s1 hrun hc => ?_⟩⟩,
    fun t => ⟨hlogS t, Semaphores.workers_holding_enabled M rndW w t, fun h => ?_,
      Sync.discipline_count t w.log _ (hlogS t), fun hh => ⟨?_, fun sched w1 hrun hc => ?_⟩⟩,
    hJ.count⟩
  · rw [hlogM t, h]
    rfl
  · exact Mutexes.release_reached N rnd t 3 s hh (h3 _)
  · exact Mutexes.release_follows N rnd t sched s s1 hh hrun (le_trans (h3 _) hc)
  · rw [hlogS t, h]
    rfl
  · exact Semaphores.workers_release_reached M rndW t 4 w hh (h4 _)
  · exact Semaphores.workers_release_follows M rndW t sched w w1 hh hrun (le_trans (h4 _) hc)

/-- The producer after `SDL_LockMutex` and the `if`, and worker A after `SDL_SemWait` and
its first print: both states are reachable, in both the thread holds its lock, and the log
has one acquire of the thread and no release yet. -/
theorem gData_accessed_under_lock_witness :
    Mutexes.Reachable 5 Mutexes.rndExample
      { gData := -1, owner := some Mutexes.Tid.producer,
        producer := ⟨Mutexes.PC.access, 0⟩, consumer := ⟨Mutexes.PC.lock, 0⟩,
        produced := [], consumed := [],
        log := [(Mutexes.Tid.producer, Sync.Op.acquire), (Mutexes.Tid.producer, Sync.Op.read)] } ∧
    Semaphores.Reachable 5 (fun _ k => 7 + k)
      { gData := -1, sem := 0, threadA := ⟨Semaphores.PC.work, 0⟩,
        threadB := ⟨Semaphores.PC.semWait, 0⟩,
        log := [(Semaphores.Tid.threadA, Sync.Op.acquire),
          (Semaphores.Tid.threadA, Sync.Op.read)] } ∧
    Sync.discipline Mutexes.Tid.producer
      [(Mutexes.Tid.producer, Sync.Op.acquire), (Mutexes.Tid.producer, Sync.Op.read)]
      = some true ∧
    Sync.discipline Semaphores.Tid.threadA
      [(Semaphores.Tid.threadA, Sync.Op.acquire), (Semaphores.Tid.threadA, Sync.Op.read)]
      = some true ∧
    List.count (Mutexes.Tid.producer, Sync.Op.acquire)
      [(Mutexes.Tid.producer, Sync.Op.acquire), (Mutexes.Tid.producer, Sync.Op.read)]
      = List.count (Mutexes.Tid.producer, Sync.Op.release)
          [(Mutexes.Tid.producer, Sync.Op.acquire), (Mutexes.Tid.producer, Sync.Op.read)] + 1 :=
  have h1 : Mutexes.Reachable 5 Mutexes.rndExample
      { gData := -1, owner := some Mutexes.Tid.producer,
        producer := ⟨Mutexes.PC.access, 0⟩, consumer := ⟨Mutexes.PC.lock, 0⟩,
        produced := [], consumed := [],
        log := [(Mutexes.Tid.producer, Sync.Op.acquire), (Mutexes.Tid.producer, Sync.Op.read)] } :=
    ⟨[Mutexes.Tid.producer, Mutexes.Tid.producer], by decide⟩
  have h2 : Semaphores.Reachable 5 (fun _ k => 7 + k)
      { gData := -1, sem := 0, threadA := ⟨Semaphores.PC.work, 0⟩,
        threadB := ⟨Semaphores.PC.semWait, 0⟩,
        log := [(Semaphores.Tid.threadA, Sync.Op.acquire),
          (Semaphores.Tid.threadA, Sync.Op.read)] } :=
    ⟨[Semaphores.Tid.threadA, Semaphores.Tid.threadA], by decide⟩
  have h := gData_accessed_under_lock 5 Mutexes.rndExample _ h1 5 (fun _ k => 7 + k) _ h2
  ⟨h1, h2, (h.1 Mutexes.Tid.producer).1, (h.2.1 Semaphores.Tid.threadA).1,
    (h.1 Mutexes.Tid.producer).2.2.2.2.1⟩

/-! ## The collision predicates are total and leave their arguments as they are -/

namespace CircularCollision

/-- "Find closest x offset" assigns `cX` on each of its three paths, the value being that
of the first chain of the predicate, and writes nothing else. -/
theorem findClosestX_eq (m : RectFrame) :
    m.findClosestX = { m with cX := some (closestX32 m.a m.b) } := by
  unfold RectFrame.findClosestX closestX32
  split_ifs <;> rfl

/-- "Find closest y offset" assigns `cY` on each of its three paths, the value being that
of the second chain of the predicate, and writes nothing else. -/
theorem findClosestY_eq (m : RectFrame) :
    m.findClosestY = { m with cY := some (closestY32 m.a m.b) } := by
  unfold RectFrame.findClosestY closestY32
  split_ifs <;> rfl

end CircularCollision

namespace PixelCollision

open CircularCollision (wrapInt32)

/-- The inner loop, given more evaluations of its test than boxes of `b` are left, with
the four sides of the box of `a` assigned: it ends without a fault, with `return true`
exactly when the inner loop of the predicate finds a box, and it leaves the two vectors and
the four sides of the box of `a` as they are. -/
theorem checkCollisionLoopB_ok (lA rA tA bA : Int) :
    ∀ (fuel : Nat) (m : Frame) (Bbox : Nat),
      m.leftA = some lA → m.rightA = some rA → m.topA = some tA → m.bottomA = some bA →
      m.b.length - Bbox < fuel →
      ∃ m1, checkCollisionLoopB fuel m Bbox
          = Except.ok (if checkCollisionB32 lA rA tA bA (m.b.drop Bbox) then some true else none,
              m1) ∧
        m1.a = m.a ∧ m1.b = m.b := by
  intro fuel
  induction fuel with
  | zero =>
    intro m Bbox _ _ _ _ hf
    omega
  | succ fuel ih =>
    intro m Bbox h1 h2 h3 h4 hf
    by_cases hlt : Bbox < m.b.length
    · have hdrop : m.b.drop Bbox = m.b[Bbox] :: m.b.drop (Bbox + 1) :=
        List.drop_eq_getElem_cons hlt
      have hns : Frame.noSideOutside
          { m with leftB := some m.b[Bbox].x,
                   rightB := some (wrapInt32 (m.b[Bbox].x + m.b[Bbox].w)),
                   topB := some m.b[Bbox].y,
                   bottomB := some (wrapInt32 (m.b[Bbox].y + m.b[Bbox].h)) }
          = some (noSideOutside lA rA tA bA m.b[Bbox].x
              (wrapInt32 (m.b[Bbox].x + m.b[Bbox].w)) m.b[Bbox].y
              (wrapInt32 (m.b[Bbox].y + m.b[Bbox].h))) := by
        simp only [Frame.noSideOutside, h1, h2, h3, h4]
      simp only [checkCollisionLoopB, if_pos hlt, List.getElem?_eq_getElem hlt, hdrop,
        checkCollisionB32, hns]
      rcases Bool.eq_false_or_eq_true (noSideOutside lA rA tA bA m.b[Bbox].x
          (wrapInt32 (m.b[Bbox].x + m.b[Bbox].w)) m.b[Bbox].y
          (wrapInt32 (m.b[Bbox].y + m.b[Bbox].h))) with hT | hT
      · simp only [hT, if_true]
        exact ⟨_, rfl, rfl, rfl⟩
      · simp only [hT, Bool.false_eq_true, if_false]
        exact ih _ (Bbox + 1) h1 h2 h3 h4 (by simp only; omega)
    · have hdrop : m.b.drop Bbox = [] := List.drop_of_length_le (by omega)
      simp only [checkCollisionLoopB, if_neg hlt, hdrop, checkCollisionB32]
      exact ⟨m, by simp, rfl, rfl⟩

/-- The outer loop, given more evaluations of its test than boxes of `a` are left and an
inner loop given more than `b` has boxes: it ends without a fault, with `return true`
exactly when the predicate finds a pair of boxes, and it leaves the two vectors as they
are. -/
theorem checkCollisionLoopA_ok (fuelB : Nat) :
    ∀ (fuel : Nat) (m : Frame) (Abox : Nat),
      m.b.length < fuelB → m.a.length - Abox < fuel →
      ∃ m1, checkCollisionLoopA fuelB fuel m Abox
          = Except.ok (if checkCollision32 (m.a.drop Abox) m.b then some true else none, m1) ∧
        m1.a = m.a ∧ m1.b = m.b := by
  intro fuel
  induction fuel with
  | zero =>
    intro m Abox _ hf
    omega
  | succ fuel ih =>
    intro m Abox hB hf
    by_cases hlt : Abox < m.a.length
    · have hdrop : m.a.drop Abox = m.a[Abox] :: m.a.drop (Abox + 1) :=
        List.drop_eq_getElem_cons hlt
      obtain ⟨m2, hm2, ha2, hb2⟩ := checkCollisionLoopB_ok m.a[Abox].x
        (wrapInt32 (m.a[Abox].x + m.a[Abox].w)) m.a[Abox].y
        (wrapInt32 (m.a[Abox].y + m.a[Abox].h)) fuelB
        { m with leftA := some m.a[Abox].x,
                 rightA := some (wrapInt32 (m.a[Abox].x + m.a[Abox].w)),
                 topA := some m.a[Abox].y,
                 bottomA := some (wrapInt32 (m.a[Abox].y + m.a[Abox].h)) }
        0 rfl rfl rfl rfl (by simp only; omega)
      simp only [List.drop_zero] at hm2
      simp only at ha2 hb2
      rcases Bool.eq_false_or_eq_true (checkCollisionB32 m.a[Abox].x
          (wrapInt32 (m.a[Abox].x + m.a[Abox].w)) m.a[Abox].y
          (wrapInt32 (m.a[Abox].y + m.a[Abox].h)) m.b) with hT | hT
      · simp only [hT, if_true] at hm2
        simp only [checkCollisionLoopA, if_pos hlt, List.getElem?_eq_getElem hlt, hdrop,
          checkCollision32, hm2, hT, if_true]
        exact ⟨m2, rfl, ha2, hb2⟩
      · simp only [hT, Bool.false_eq_true, if_false] at hm2
        simp only [checkCollisionLoopA, if_pos hlt, List.getElem?_eq_getElem hlt, hdrop,
          checkCollision32, hm2, hT, Bool.false_eq_true, if_false]
        obtain ⟨m3, hm3, ha3, hb3⟩ := ih m2 (Abox + 1) (by rw [hb2]; exact hB)
          (by rw [ha2]; omega)
        rw [ha2, hb2] at hm3
        exact ⟨m3, hm3, ha3.trans ha2, hb3.trans hb2⟩
    · have hdrop : m.a.drop Abox = [] := List.drop_of_length_le (by omega)
      simp only [checkCollisionLoopA, if_neg hlt, hdrop, checkCollision32]
      exact ⟨m, by simp, rfl, rfl⟩

/-- Claim C19: the collision predicates are total, and none of the three modifies its
arguments.  A call of the rectangle-set `checkCollision` on finite sequences `a` and `b`,
run statement by statement on its memory with bounds-checked reads of `a[ Abox ]` and
`b[ Bbox ]`, ends without a fault as soon as each loop is allowed more evaluations of its
test than the longer vector has boxes (so the double loop terminates, no read is out of
range and no local is read before it is assigned), returns the value of the predicate, and
leaves in `a` and `b` what was there on entry.  A call of either circle predicate, run
statement by statement, returns the value of the predicate for every input without reading
an unassigned local, and leaves in `a` and `b` what was there on entry. -/
theorem checkCollision_total :
    (∀ (a b : List SDL_Rect) (fuel : Nat), a.length < fuel → b.length < fuel →
      ∃ m, checkCollisionRun fuel a b = Except.ok (checkCollision32 a b, m) ∧
        m.a = a ∧ m.b = b) ∧
    (∀ a b : CircularCollision.Circle,
      ∃ m, CircularCollision.checkCollisionRun a b
          = Except.ok (CircularCollision.checkCollision32 a b, m) ∧
        m.a = a ∧ m.b = b) ∧
    (∀ (a : CircularCollision.Circle) (b : SDL_Rect),
      ∃ m, CircularCollision.checkCollisionRectRun a b
          = Except.ok (CircularCollision.checkCollisionRect32 a b, m) ∧
        m.a = a ∧ m.b = b) := by
  refine ⟨fun a b fuel hA hB => ?_, fun a b => ?_, fun a b => ?_⟩
  · obtain ⟨m, hm, ha, hb⟩ := checkCollisionLoopA_ok fuel fuel (Frame.entry a b) 0
      (by simpa [Frame.entry] using hB) (by simpa [Frame.entry] using hA)
    simp only [Frame.entry, List.drop_zero] at hm ha hb
    rcases Bool.eq_false_or_eq_true (checkCollision32 a b) with hT | hT
    · simp only [hT, if_true] at hm
      simp only [checkCollisionRun, Frame.entry, hm, hT]
      exact ⟨m, rfl, ha, hb⟩
    · simp only [hT, Bool.false_eq_true, if_false] at hm
      simp only [checkCollisionRun, Frame.entry, hm, hT]
      exact ⟨m, rfl, ha, hb⟩
  · simp only [CircularCollision.checkCollisionRun, CircularCollision.checkCollision32]
    split_ifs
    · exact ⟨_, rfl, rfl, rfl⟩
    · exact ⟨_, rfl, rfl, rfl⟩
  · simp only [CircularCollision.checkCollisionRectRun, CircularCollision.findClosestX_eq,
      CircularCollision.findClosestY_eq, CircularCollision.checkCollisionRect32]
    split_ifs <;> exact ⟨_, rfl, rfl, rfl⟩

/-- The boxes (0,0,10,10), (50,50,5,5) against (52,52,1,1): with loops allowed 3
evaluations of their tests the call returns true and leaves the vectors as they are; with
only 1 the inner loop is stopped before the test that ends it. -/
theorem checkCollision_total_witness :
    (∃ m, checkCollisionRun 3 [⟨0, 0, 10, 10⟩, ⟨50, 50, 5, 5⟩] [⟨52, 52, 1, 1⟩]
        = Except.ok (true, m) ∧
      m.a = [⟨0, 0, 10, 10⟩, ⟨50, 50, 5, 5⟩] ∧ m.b = [⟨52, 52, 1, 1⟩]) ∧
    checkCollisionRun 1 [⟨0, 0, 10, 10⟩, ⟨50, 50, 5, 5⟩] [⟨52, 52, 1, 1⟩]
      = Except.error Fault.outOfFuel :=
  ⟨checkCollision_total.1 [⟨0, 0, 10, 10⟩, ⟨50, 50, 5, 5⟩] [⟨52, 52, 1, 1⟩] 3
    (by decide) (by decide), rfl⟩

end PixelCollision
